import Mathlib

/-!
# scnlib: the scan driver, the dispatcher, the character and float readers

A shallow embedding of

* `include/scn/detail/visitor.h`: `basic_visitor` (the dispatcher) and `visit`
  (the scan driver),
* `src/scn/impl/reader/code_unit_and_point_reader.h`: the character readers,
* `src/reader_float.cpp`: the three conversion paths of the float reader; the
  library functions (`strtod`, `std::from_chars`, `fast_float::from_chars`) are
  parameters, the process locale and `errno` are explicit state,
* `src/scn/impl/reader/integer/value_reader.h`: the options and the constructors of
  the integer value reader; its member `read` is declared there only.

`visit` is a C++ template over its `Context` and `ParseCtx`: the embedding is
polymorphic in both and takes their member functions as records of operations.
Mutable references become explicit state passing.  The `while (pctx)` loop is
iterated under a fuel bound; `visit_loop_terminates` shows that the bound is
reached by no parse context that makes progress.
-/

namespace scn

/-! ## Errors and results -/

/-- Modelled from the spec: the error kinds of `scn::error` (the class is declared in
`result.h`); `good` is the code of a default-constructed, successful error object. -/
inductive error_code where
  | good
  | end_of_stream
  | invalid_format_string
  | invalid_scanned_value
  | invalid_operation
  | value_out_of_range
  | invalid_argument
  | source_error
  | unrecoverable_source_error
  deriving DecidableEq, Repr

/-- Modelled from the spec: an error is a kind together with a message. -/
structure error where
  code : error_code
  msg : String
  deriving DecidableEq, Repr

/-- Modelled from the spec: the default-constructed error `{}`, success. -/
def error.none : error := ⟨error_code.good, ""⟩

/-- Modelled from the spec: the conversion to bool of `error`, true when there is no
error. -/
def error.good (e : error) : Bool := decide (e.code = error_code.good)

/-- Modelled from the spec: the type `expected<T>` (declared in `result.h`), a value or
an error. -/
abbrev expected (T : Type) : Type := Except error T

/-- The type `scan_result`: the base `result<ptrdiff_t>` (a count and an error)
together with the leftover range. -/
structure scan_result (Range : Type) where
  value : Nat
  err : error
  range : Range

/-! ## The interfaces `visit` is instantiated with -/

/-- The members of `ParseCtx` that `visit` calls.  Members that mutate the parse
context return the new context. -/
structure parse_context_ops (PCtx : Type) where
  good : PCtx → Bool
  should_skip_ws : PCtx → Bool × PCtx
  should_read_literal : PCtx → Bool × PCtx
  check_literal : PCtx → Char → Bool
  advance : PCtx → PCtx
  parse_arg_id : PCtx → expected (List Char) × PCtx
  arg_handled : PCtx → PCtx

/-- The members of `Context` (and of its range and locale) that `visit` calls, and
whether its member type `char_type` is a `char` that is signed, on which the value of
a code unit in `ch - '0'` depends. -/
structure context_ops (Ctx PCtx Arg Range : Type) where
  skip_range_whitespace : Ctx → error × Ctx
  read_char : Ctx → expected Char × Ctx
  reset_to_rollback_point : Ctx → error × Ctx
  set_rollback_point : Ctx → Ctx
  get_return : Ctx → Range
  is_digit : Ctx → Char → Bool
  next_arg : Ctx → PCtx → expected Arg × PCtx
  arg_at : Ctx → PCtx → Int → expected Arg × PCtx
  arg_named : Ctx → List Char → expected Arg
  arg_good : Arg → Bool
  signed_char : Bool

/-! ## The scan driver `visit` (visitor.h, lines 208-342) -/

/-- The local state of the loop of `visit`: the counter `args_read` and the two
contexts, which the C++ code mutates through references. -/
structure loop_state (Ctx PCtx : Type) where
  args_read : Nat
  ctx : Ctx
  pctx : PCtx

/-- How one pass through the body of the `while` loop ends. -/
inductive control (Ctx PCtx Range : Type) where
  | next (s : loop_state Ctx PCtx)
  | brk (s : loop_state Ctx PCtx)
  | ret (r : scan_result Range) (s : loop_state Ctx PCtx)

section driver

variable {Ctx PCtx Arg Range : Type}

/-- The lambda `reterror`: the current count, the error, and the range as it stands. -/
def reterror (C : context_ops Ctx PCtx Arg Range) (args_read : Nat) (ctx : Ctx) (e : error) :
    scan_result Range :=
  ⟨args_read, e, C.get_return ctx⟩

/-- The three places where `visit` rolls back: `reset_to_rollback_point`, then return
the error of the rollback if it failed and the original error `e` otherwise. -/
def rollback_and_return (C : context_ops Ctx PCtx Arg Range) (args_read : Nat) (ctx : Ctx)
    (pctx : PCtx) (e : error) : control Ctx PCtx Range :=
  match C.reset_to_rollback_point ctx with
  | (rb, ctx1) =>
    if !rb.good then control.ret (reterror C args_read ctx1 rb) ⟨args_read, ctx1, pctx⟩
    else control.ret (reterror C args_read ctx1 e) ⟨args_read, ctx1, pctx⟩

/-- The value of a code unit of `char_type` as an integer, the operand of `ch - '0'`
after the integer promotion.  A code unit is held as the character of its unsigned
value (below 0x100 in a narrow string).  Where `char_type` is a `char` that is signed,
a unit from 0x80 on is negative: it is its unsigned value less 0x100.  The units of an
unsigned `char` and of `wchar_t` are not negative. -/
def code_unit_value (signed_char : Bool) (ch : Char) : Int :=
  if signed_char && decide (128 ≤ ch.toNat) then (ch.toNat : Int) - 256 else (ch.toNat : Int)

/-- The index computed from a numeric argument id (lines 290-297): a left fold
`tmp = tmp * 10 + (ch - '0')` over every code unit of the id, in unbounded integers;
the overflow of `ptrdiff_t` is the matter of `arg_index_checked`. -/
def arg_index (signed_char : Bool) (id : List Char) : Int :=
  id.foldl
    (fun tmp ch => tmp * 10 + (code_unit_value signed_char ch - code_unit_value signed_char '0'))
    0

/-- The lambda producing `arg_wrapped` (lines 284-302). -/
def arg_wrapped (C : context_ops Ctx PCtx Arg Range) (ctx : Ctx) (pctx : PCtx)
    (id : List Char) : expected Arg × PCtx :=
  match id with
  | [] => C.next_arg ctx pctx
  | front :: _ =>
    if C.is_digit ctx front then C.arg_at ctx pctx (arg_index C.signed_char id)
    else (C.arg_named ctx id, pctx)

/-- The whitespace branch of the loop body (lines 228-245). -/
def visit_skip_ws (C : context_ops Ctx PCtx Arg Range) (args_read : Nat) (ctx : Ctx)
    (pctx : PCtx) : control Ctx PCtx Range :=
  match C.skip_range_whitespace ctx with
  | (ret, ctx1) =>
    if !ret.good then
      if ret.code = error_code.end_of_stream then control.brk ⟨args_read, ctx1, pctx⟩
      else rollback_and_return C args_read ctx1 pctx ret
    else control.next ⟨args_read, ctx1, pctx⟩

/-- The literal branch of the loop body (lines 249-276), entered after
`should_read_literal` returned true. -/
def visit_literal (P : parse_context_ops PCtx) (C : context_ops Ctx PCtx Arg Range)
    (args_read : Nat) (ctx : Ctx) (pctx : PCtx) : control Ctx PCtx Range :=
  if !P.good pctx then
    control.ret (reterror C args_read ctx
      ⟨error_code.invalid_format_string, "Unexpected end of format string"⟩)
      ⟨args_read, ctx, pctx⟩
  else
    match C.read_char ctx with
    | (Except.error e, ctx1) => rollback_and_return C args_read ctx1 pctx e
    | (Except.ok ch, ctx1) =>
      if !P.check_literal pctx ch then
        rollback_and_return C args_read ctx1 pctx
          ⟨error_code.invalid_scanned_value,
            "Expected character from format string not found in the stream"⟩
      else control.next ⟨args_read, ctx1, P.advance pctx⟩

/-- The argument branch of the loop body (lines 277-333). -/
def visit_argument (P : parse_context_ops PCtx) (C : context_ops Ctx PCtx Arg Range)
    (visit_arg : Arg → Ctx → PCtx → error × Ctx × PCtx)
    (args_read : Nat) (ctx : Ctx) (pctx : PCtx) : control Ctx PCtx Range :=
  match P.parse_arg_id pctx with
  | (Except.error e, pctx1) => control.ret (reterror C args_read ctx e) ⟨args_read, ctx, pctx1⟩
  | (Except.ok id, pctx1) =>
    match arg_wrapped C ctx pctx1 id with
    | (Except.error e, pctx2) =>
      control.ret (reterror C args_read ctx e) ⟨args_read, ctx, pctx2⟩
    | (Except.ok arg, pctx2) =>
      if !P.good pctx2 then
        control.ret (reterror C args_read ctx
          ⟨error_code.invalid_format_string, "Unexpected end of format argument"⟩)
          ⟨args_read, ctx, pctx2⟩
      else if !C.arg_good arg then
        control.ret (reterror C args_read ctx
          ⟨error_code.invalid_format_string,
            "Mismatch between number of arguments and \x27\x7b\x7d\x27 in the format string"⟩)
          ⟨args_read, ctx, pctx2⟩
      else
        match visit_arg arg ctx pctx2 with
        | (ret, ctx1, pctx3) =>
          if !ret.good then rollback_and_return C args_read ctx1 pctx3 ret
          else
            control.next ⟨args_read + 1, ctx1,
              if P.good (P.arg_handled pctx3) then P.advance (P.arg_handled pctx3)
              else P.arg_handled pctx3⟩

/-- The body of `while (pctx)` (lines 228-333). -/
def visit_body (P : parse_context_ops PCtx) (C : context_ops Ctx PCtx Arg Range)
    (visit_arg : Arg → Ctx → PCtx → error × Ctx × PCtx)
    (s : loop_state Ctx PCtx) : control Ctx PCtx Range :=
  match P.should_skip_ws s.pctx with
  | (true, pctx1) => visit_skip_ws C s.args_read s.ctx pctx1
  | (false, pctx1) =>
    match P.should_read_literal pctx1 with
    | (true, pctx2) => visit_literal P C s.args_read s.ctx pctx2
    | (false, pctx2) => visit_argument P C visit_arg s.args_read s.ctx pctx2

/-- The code after the loop (lines 335-341): an unexhausted format string is an error,
otherwise the rollback point is set and the scan succeeds. -/
def visit_finish (P : parse_context_ops PCtx) (C : context_ops Ctx PCtx Arg Range)
    (s : loop_state Ctx PCtx) : scan_result Range × loop_state Ctx PCtx :=
  if P.good s.pctx then
    (reterror C s.args_read s.ctx
      ⟨error_code.invalid_format_string, "Format string not exhausted"⟩, s)
  else
    (⟨s.args_read, error.none, C.get_return (C.set_rollback_point s.ctx)⟩,
      ⟨s.args_read, C.set_rollback_point s.ctx, s.pctx⟩)

/-- The loop `while (pctx) { ... }` followed by the code after it; `none` when the
fuel runs out before the loop ends. -/
def visit_loop (P : parse_context_ops PCtx) (C : context_ops Ctx PCtx Arg Range)
    (visit_arg : Arg → Ctx → PCtx → error × Ctx × PCtx) :
    Nat → loop_state Ctx PCtx → Option (scan_result Range × loop_state Ctx PCtx)
  | 0, _ => none
  | fuel + 1, s =>
    if P.good s.pctx then
      match visit_body P C visit_arg s with
      | control.next s1 => visit_loop P C visit_arg fuel s1
      | control.brk s1 => some (visit_finish P C s1)
      | control.ret r s1 => some (r, s1)
    else some (visit_finish P C s)

/-- The function `visit(ctx, pctx)`: the unconditional whitespace skip (lines 220-225),
then the loop.  The result comes with the final state of the two contexts. -/
def visit (P : parse_context_ops PCtx) (C : context_ops Ctx PCtx Arg Range)
    (visit_arg : Arg → Ctx → PCtx → error × Ctx × PCtx)
    (fuel : Nat) (ctx : Ctx) (pctx : PCtx) :
    Option (scan_result Range × loop_state Ctx PCtx) :=
  match C.skip_range_whitespace ctx with
  | (ret, ctx1) =>
    if !ret.good then some (reterror C 0 ctx1 ret, ⟨0, ctx1, pctx⟩)
    else visit_loop P C visit_arg fuel ⟨0, ctx1, pctx⟩

end driver

/-! ## The dispatcher `basic_visitor` (visitor.h, lines 26-145) -/

/-- A scanner class `detail::..._scanner`: its default-constructed state, the call
`m_pctx->parse(s, *m_pctx)` on it (the private member `basic_visitor::parse`), and
its member `scan(val, ctx)`, which writes the slot `val` and advances the context. -/
structure scanner (S Val Ctx PCtx : Type) where
  init : S
  parse : S → PCtx → error × S × PCtx
  scan : S → Val → Ctx → error × Val × Ctx

/-- The integer types of `SCN_VISIT_INT` (lines 82-89). -/
inductive int_type where
  | short | int | long | long_long
  | unsigned_short | unsigned_int | unsigned_long | unsigned_long_long
  deriving DecidableEq, Repr

/-- The floating-point types of `SCN_VISIT_FLOAT` (lines 102-104). -/
inductive float_type where
  | float | double | long_double
  deriving DecidableEq, Repr

/-- The typed output slots `basic_visitor` has a `visit` overload for (lines 44-126). -/
inductive slot_type where
  | char_type
  | span
  | bool
  | integer (t : int_type)
  | floating (t : float_type)
  | string
  | string_view
  deriving DecidableEq, Repr

/-- The scanner classes the overloads of `basic_visitor::visit` construct. -/
structure scanners (S Val Ctx PCtx : Type) where
  char_scanner : scanner S Val Ctx PCtx
  buffer_scanner : scanner S Val Ctx PCtx
  bool_scanner : scanner S Val Ctx PCtx
  integer_scanner : int_type → scanner S Val Ctx PCtx
  float_scanner : float_type → scanner S Val Ctx PCtx
  string_scanner : scanner S Val Ctx PCtx
  string_view_scanner : scanner S Val Ctx PCtx

/-- The scanner each overload of `basic_visitor::visit` declares as its local `s`. -/
def scanners.select {S Val Ctx PCtx : Type} (Sc : scanners S Val Ctx PCtx) :
    slot_type → scanner S Val Ctx PCtx
  | slot_type.char_type => Sc.char_scanner
  | slot_type.span => Sc.buffer_scanner
  | slot_type.bool => Sc.bool_scanner
  | slot_type.integer t => Sc.integer_scanner t
  | slot_type.floating t => Sc.float_scanner t
  | slot_type.string => Sc.string_scanner
  | slot_type.string_view => Sc.string_view_scanner

/-- The argument of `basic_visitor::operator()`: a reference to a typed slot, a
handle of a user type, or `monostate`. -/
inductive arg_value (Val Ctx : Type) where
  | typed (t : slot_type) (val : Val)
  | handle (scan : Ctx → error × Ctx)
  | monostate

namespace basic_visitor

variable {S Val Ctx PCtx : Type}

/-- The body shared by every typed overload of `basic_visitor::visit`:
`auto err = parse(s); if (!err) return err; return s.scan(val, *m_ctx);`. -/
def visit_with (s : scanner S Val Ctx PCtx) (val : Val) (ctx : Ctx) (pctx : PCtx) :
    error × Val × Ctx × PCtx :=
  match s.parse s.init pctx with
  | (err, s1, pctx1) =>
    if !err.good then (err, val, ctx, pctx1)
    else
      match s.scan s1 val ctx with
      | (e, val1, ctx1) => (e, val1, ctx1, pctx1)

/-- The typed overloads of `basic_visitor::visit` (lines 44-126). -/
def visit (Sc : scanners S Val Ctx PCtx) (t : slot_type) (val : Val) (ctx : Ctx)
    (pctx : PCtx) : error × Val × Ctx × PCtx :=
  visit_with (Sc.select t) val ctx pctx

/-- The overload of `basic_visitor::visit` for a handle (lines 127-131). -/
def visit_handle (scan : Ctx → error × Ctx) (ctx : Ctx) (pctx : PCtx) :
    error × Ctx × PCtx :=
  match scan ctx with
  | (e, ctx1) => (e, ctx1, pctx)

/-- The overload of `basic_visitor::visit` for `monostate` (lines 132-135). -/
def visit_monostate (ctx : Ctx) (pctx : PCtx) : error × Ctx × PCtx :=
  (⟨error_code.invalid_operation, "Cannot scan a monostate"⟩, ctx, pctx)

/-- The call `basic_visitor::operator()` (lines 37-41) on an argument: overload
resolution picks the `visit` of the argument's type.  The slot comes back with
the value the scanner wrote. -/
def call (Sc : scanners S Val Ctx PCtx) (a : arg_value Val Ctx) (ctx : Ctx) (pctx : PCtx) :
    error × arg_value Val Ctx × Ctx × PCtx :=
  match a with
  | arg_value.typed t val =>
    match visit Sc t val ctx pctx with
    | (e, val1, ctx1, pctx1) => (e, arg_value.typed t val1, ctx1, pctx1)
  | arg_value.handle scan =>
    match visit_handle scan ctx pctx with
    | (e, ctx1, pctx1) => (e, arg_value.handle scan, ctx1, pctx1)
  | arg_value.monostate =>
    match visit_monostate ctx pctx with
    | (e, ctx1, pctx1) => (e, arg_value.monostate, ctx1, pctx1)

end basic_visitor

/-! ## The character readers (code_unit_and_point_reader.h) -/

/-- Modelled from the spec: the values of `detail::presentation_type` (declared in
`format_string.h`); the character readers only tell `none` and `character` from the
others. -/
inductive presentation_type where
  | none
  | int_binary | int_decimal | int_generic | int_unsigned_decimal | int_octal | int_hex
  | int_arbitrary_base
  | float_hex | float_scientific | float_fixed | float_general
  | string | string_set | character | unicode_character
  deriving DecidableEq, Repr

/-- Modelled from the spec: the part of `detail::basic_format_specs` (declared in
`format_string.h`) the character readers look at. -/
structure basic_format_specs where
  type : presentation_type
  arbitrary_base : Nat
  deriving DecidableEq, Repr

/-- The conversion `static_cast<signed char>(x)`: the value modulo 2^8 in
[-128, 127]. -/
def to_signed_char (x : Int) : Int := (x + 128) % 256 - 128

/-- The conversion `static_cast<int16_t>` or `static_cast<int32_t>`, by the width
`w` of `wchar_t` in bits. -/
def to_signed (w : Nat) (x : Int) : Int := (x + 2 ^ (w - 1)) % 2 ^ w - 2 ^ (w - 1)

/-- The conversion of an integer to `char`, taken as a signed 8-bit type. -/
def to_char (x : Int) : Int := to_signed_char x

/-- The conversion of an integer to `wchar_t`, taken as a signed type of `w` bits
(16 or 32). -/
def to_wchar (w : Nat) (x : Int) : Int := to_signed w x

/-- The member `code_unit_reader<CharT>::read` (lines 32-42): on success of
`read_code_unit` the slot receives the first code unit of the range.  The range is
the list of code units still to read and an iterator is the number of code units
before it; `read_code_unit` is declared in `algorithms/read.h`. -/
def code_unit_reader.read (read_code_unit : List Int → expected Nat) (range : List Int)
    (ch : Int) : expected Nat × Int :=
  match read_code_unit range with
  | Except.ok it => (Except.ok it, range.headD 0)
  | Except.error e => (Except.error e, ch)

namespace reader_impl_for_char

/-- The member `reader_impl_for_char<char>::read_default` (lines 118-131), for
`CharT = char`. -/
def read_default (read_code_unit : List Int → expected Nat) (range : List Int)
    (value : Int) : expected Nat × Int :=
  code_unit_reader.read read_code_unit range value

/-- The member `reader_impl_for_char::read_specs` (lines 133-150).  The integer
reader `reader_impl_for_int<CharT>::read_specs` (declared in `integer_reader.h`) is
the parameter `int_read_specs`: it returns the iterator or the error, and the value
it leaves in `tmp_value`. -/
def read_specs (read_code_unit : List Int → expected Nat)
    (int_read_specs : List Int → basic_format_specs → Int → expected Nat × Int)
    (range : List Int) (specs : basic_format_specs) (value : Int) : expected Nat × Int :=
  if specs.type = presentation_type.none ∨ specs.type = presentation_type.character then
    read_default read_code_unit range value
  else
    match int_read_specs range specs 0 with
    | (ret, _tmp_value) => (ret, to_char (to_signed_char value))

end reader_impl_for_char

namespace reader_impl_for_wchar

/-- The member `reader_impl_for_wchar::read_specs` (lines 169-188); `read_default` is
the parameter `read_default` and `w` is the width of `wchar_t` in bits. -/
def read_specs (w : Nat) (read_default : List Int → Int → expected Nat × Int)
    (int_read_specs : List Int → basic_format_specs → Int → expected Nat × Int)
    (range : List Int) (specs : basic_format_specs) (value : Int) : expected Nat × Int :=
  if specs.type = presentation_type.none ∨ specs.type = presentation_type.character then
    read_default range value
  else
    match int_read_specs range specs 0 with
    | (ret, _tmp_value) => (ret, to_wchar w (to_signed w value))

end reader_impl_for_wchar

/-! ## The parse context, the range and the scanners of a string scan

`basic_parse_context`, the range wrapper, the argument store and the scanner classes
are declared in headers outside the files embedded above (`visitor.h` reaches them
through `reader.h`); the definitions below follow the specification.  The theorems on
`visit` that do not mention them hold for every instance of the interfaces above. -/

/-- Modelled from the spec: the whitespace of the classic locale (space and the
control characters tab, line feed, vertical tab, form feed, carriage return). -/
def is_space (ch : Char) : Bool := decide (ch.toNat = 32 ∨ (9 ≤ ch.toNat ∧ ch.toNat ≤ 13))

/-- Modelled from the spec: the decimal digits of the classic locale. -/
def is_digit (ch : Char) : Bool := decide (48 ≤ ch.toNat ∧ ch.toNat ≤ 57)

/-- Modelled from the spec: the Format Parse Context, a cursor into the format string
(the characters still to come) and the auto-increment counter of implicit ids. -/
structure basic_parse_context where
  str : List Char
  next_arg_id : Nat
  deriving DecidableEq, Repr

namespace basic_parse_context

/-- Modelled from the spec: `has_more`, the conversion to bool of the parse context. -/
def good (p : basic_parse_context) : Bool := !p.str.isEmpty

/-- Modelled from the spec: `advance`, one character forward. -/
def advance (p : basic_parse_context) : basic_parse_context :=
  ⟨p.str.drop 1, p.next_arg_id⟩

/-- Modelled from the spec: `should_skip_whitespace`, true when the next token of the
format string is whitespace; the run of whitespace is then skipped in the format
string (the driver does not advance the context itself in this case). -/
def should_skip_ws (p : basic_parse_context) : Bool × basic_parse_context :=
  match p.str with
  | [] => (false, p)
  | c :: _ =>
    if is_space c then (true, ⟨p.str.dropWhile is_space, p.next_arg_id⟩) else (false, p)

/-- Modelled from the spec: `should_read_literal`, true for any character other than
an opening brace and for the escapes of two opening or two closing braces; on an
escape the cursor steps onto the second brace, which is the literal to match. -/
def should_read_literal (p : basic_parse_context) : Bool × basic_parse_context :=
  match p.str with
  | [] => (true, p)
  | c :: rest =>
    if c = '{' then
      if rest.head? = some '{' then (true, advance p) else (false, p)
    else if c = '}' ∧ rest.head? = some '}' then (true, advance p)
    else (true, p)

/-- Modelled from the spec: the next input character must equal the literal under the
cursor exactly. -/
def check_literal (p : basic_parse_context) (ch : Char) : Bool :=
  match p.str with
  | [] => false
  | c :: _ => decide (ch = c)

/-- Modelled from the spec: `parse_argument_id`, called with the cursor on the opening
brace; the id is the text up to the colon or the closing brace, where the cursor is
left. -/
def parse_arg_id (p : basic_parse_context) : expected (List Char) × basic_parse_context :=
  (Except.ok ((p.str.drop 1).takeWhile (fun c => !(decide (c = '}') || decide (c = ':')))),
    ⟨(p.str.drop 1).dropWhile (fun c => !(decide (c = '}') || decide (c = ':'))),
      p.next_arg_id⟩)

/-- Modelled from the spec: `mark_argument_handled`; nothing to record in this model. -/
def arg_handled (p : basic_parse_context) : basic_parse_context := p

/-- Modelled from the spec: the parse context as an instance of the interface of
`visit`. -/
def ops : parse_context_ops basic_parse_context where
  good := good
  should_skip_ws := should_skip_ws
  should_read_literal := should_read_literal
  check_literal := check_literal
  advance := advance
  parse_arg_id := parse_arg_id
  arg_handled := arg_handled

end basic_parse_context

/-- Modelled from the spec: the contiguous Scan Buffer, a span with a cursor (a plain
offset) and one rollback point. -/
structure range_wrapper where
  src : List Char
  pos : Nat
  rollback : Nat
  deriving DecidableEq, Repr

namespace range_wrapper

/-- Modelled from the spec: the characters from the cursor on, the leftover range. -/
def rest (r : range_wrapper) : List Char := r.src.drop r.pos

/-- Modelled from the spec: `read_one`, the next character and the cursor one further,
or the `end_of_stream` signal. -/
def read_char (r : range_wrapper) : expected Char × range_wrapper :=
  match r.rest with
  | [] => (Except.error ⟨error_code.end_of_stream, "EOF"⟩, r)
  | c :: _ => (Except.ok c, ⟨r.src, r.pos + 1, r.rollback⟩)

/-- Modelled from the spec: skipping a run of whitespace reads characters until one is
not whitespace; exhausting the input while doing so is the `end_of_stream` signal. -/
def skip_range_whitespace (r : range_wrapper) : error × range_wrapper :=
  if (r.rest.dropWhile is_space).isEmpty then
    (⟨error_code.end_of_stream, "EOF"⟩,
      ⟨r.src, r.pos + (r.rest.takeWhile is_space).length, r.rollback⟩)
  else (error.none, ⟨r.src, r.pos + (r.rest.takeWhile is_space).length, r.rollback⟩)

/-- Modelled from the spec: `undo`, the cursor goes back to the rollback point. -/
def reset_to_rollback_point (r : range_wrapper) : error × range_wrapper :=
  (error.none, ⟨r.src, r.rollback, r.rollback⟩)

/-- Modelled from the spec: `commit`, the rollback point moves to the cursor. -/
def set_rollback_point (r : range_wrapper) : range_wrapper := ⟨r.src, r.pos, r.pos⟩

/-- Modelled from the spec: a fresh range over a string, or over the leftover range of
a previous scan; cursor and rollback point are at its start. -/
def make (s : List Char) : range_wrapper := ⟨s, 0, 0⟩

end range_wrapper

/-- Modelled from the spec: the exact value of a decimal literal, `mantissa` times ten
to the `exponent`; the rounding to a binary format is not part of the model. -/
structure decimal where
  mantissa : Int
  exponent : Int
  deriving DecidableEq, Repr

/-- Modelled from the spec: the content of a typed output slot. -/
inductive value where
  | chr (c : Char)
  | buf (s : List Char)
  | bool (b : Bool)
  | int (n : Int)
  | flt (d : decimal)
  | str (s : List Char)
  deriving DecidableEq, Repr

/-- Modelled from the spec: an output slot of the caller, as the closed tagged union
of the argument store.  The scan routine of a handle sees the characters ahead and
reports an error and how many characters it read. -/
inductive slot where
  | typed (t : slot_type) (v : value)
  | handle (scan : List Char → error × Nat)
  | monostate

/-- Modelled from the spec: the Argument Context, the scan buffer and the references
to the output slots of the caller. -/
structure basic_context where
  range : range_wrapper
  args : List slot

/-- Modelled from the spec: whether a slot is the empty argument. -/
def slot.is_monostate : slot → Bool
  | slot.monostate => true
  | _ => false

namespace basic_context

/-- Modelled from the spec: the argument at an index; past the end of the argument
list it is the empty argument. -/
def get_arg (ctx : basic_context) (i : Nat) : Option Nat :=
  match ctx.args.get? i with
  | some a => if a.is_monostate then none else some i
  | none => none

/-- Modelled from the spec: the next unconsumed argument, in order; the counter of
the parse context advances. -/
def next_arg (ctx : basic_context) (p : basic_parse_context) :
    expected (Option Nat) × basic_parse_context :=
  (Except.ok (get_arg ctx p.next_arg_id), ⟨p.str, p.next_arg_id + 1⟩)

/-- Modelled from the spec: the argument at an explicit positional index; the counter
of implicit ids is independent of it. -/
def arg_at (ctx : basic_context) (p : basic_parse_context) (i : Int) :
    expected (Option Nat) × basic_parse_context :=
  (Except.ok (if 0 ≤ i then get_arg ctx i.toNat else none), p)

/-- Modelled from the spec: a lookup by name; a string scan has no named arguments. -/
def arg_named (_ctx : basic_context) (_id : List Char) : expected (Option Nat) :=
  Except.ok none

/-- Modelled from the spec: the context as an instance of the interface of `visit`;
the leftover range is the list of characters from the cursor on, and the characters
are those of a narrow string whose `char` is signed, as on x86-64 Linux. -/
def ops : context_ops basic_context basic_parse_context (Option Nat) (List Char) where
  skip_range_whitespace := fun ctx =>
    ((range_wrapper.skip_range_whitespace ctx.range).1,
      ⟨(range_wrapper.skip_range_whitespace ctx.range).2, ctx.args⟩)
  read_char := fun ctx =>
    ((range_wrapper.read_char ctx.range).1, ⟨(range_wrapper.read_char ctx.range).2, ctx.args⟩)
  reset_to_rollback_point := fun ctx =>
    ((range_wrapper.reset_to_rollback_point ctx.range).1,
      ⟨(range_wrapper.reset_to_rollback_point ctx.range).2, ctx.args⟩)
  set_rollback_point := fun ctx => ⟨range_wrapper.set_rollback_point ctx.range, ctx.args⟩
  get_return := fun ctx => ctx.range.rest
  is_digit := fun _ ch => is_digit ch
  next_arg := next_arg
  arg_at := arg_at
  arg_named := arg_named
  arg_good := fun a => a.isSome
  signed_char := true

end basic_context

/-! ### The scanners -/

/-- Modelled from the spec: the text of a format spec, what follows the colon when
there is one. -/
def spec_body : List Char → List Char
  | ':' :: t => t
  | l => l

/-- Modelled from the spec: parsing the text between the id and the closing brace, a
run of option letters after an optional colon; a letter the type does not accept, or
a missing closing brace, is `invalid_format_string`.  The cursor is left on the
closing brace. -/
def parse_spec (allowed : Char → Bool) (_s : List Char) (p : basic_parse_context) :
    error × List Char × basic_parse_context :=
  if ((spec_body p.str).dropWhile (fun c => !decide (c = '}'))).isEmpty then
    (⟨error_code.invalid_format_string, "Unexpected end of format string"⟩, [],
      ⟨(spec_body p.str).dropWhile (fun c => !decide (c = '}')), p.next_arg_id⟩)
  else if ((spec_body p.str).takeWhile (fun c => !decide (c = '}'))).all allowed then
    (error.none, (spec_body p.str).takeWhile (fun c => !decide (c = '}')),
      ⟨(spec_body p.str).dropWhile (fun c => !decide (c = '}')), p.next_arg_id⟩)
  else
    (⟨error_code.invalid_format_string, "Option not valid for the type"⟩, [],
      ⟨(spec_body p.str).dropWhile (fun c => !decide (c = '}')), p.next_arg_id⟩)

/-- Modelled from the spec: a scanner made of the option letters its type accepts and
of a value reader, a function from the parsed options, the slot and the characters
ahead to a value and the number of characters it consumed. -/
def make_scanner (allowed : Char → Bool)
    (reader : List Char → value → List Char → expected (value × Nat)) :
    scanner (List Char) value basic_context basic_parse_context where
  init := []
  parse := parse_spec allowed
  scan := fun opts val ctx =>
    match reader opts val ctx.range.rest with
    | Except.ok (v, n) =>
      (error.none, v, ⟨⟨ctx.range.src, ctx.range.pos + n, ctx.range.rollback⟩, ctx.args⟩)
    | Except.error e => (e, val, ctx)

/-- Modelled from the spec: the value of a digit character in bases up to 36. -/
def digit_value (c : Char) : Option Nat :=
  if 48 ≤ c.toNat ∧ c.toNat ≤ 57 then some (c.toNat - 48)
  else if 97 ≤ c.toNat ∧ c.toNat ≤ 122 then some (c.toNat - 87)
  else if 65 ≤ c.toNat ∧ c.toNat ≤ 90 then some (c.toNat - 55)
  else none

/-- Modelled from the spec: whether a character is a digit of the base. -/
def is_digit_of (base : Nat) (c : Char) : Bool :=
  match digit_value c with
  | some d => decide (d < base)
  | none => false

/-- Modelled from the spec: the range of values of an integer type (16-bit short,
32-bit int, 64-bit long). -/
def int_limits : int_type → Int × Int
  | int_type.short => (-(2 ^ 15), 2 ^ 15 - 1)
  | int_type.int => (-(2 ^ 31), 2 ^ 31 - 1)
  | int_type.long => (-(2 ^ 63), 2 ^ 63 - 1)
  | int_type.long_long => (-(2 ^ 63), 2 ^ 63 - 1)
  | int_type.unsigned_short => (0, 2 ^ 16 - 1)
  | int_type.unsigned_int => (0, 2 ^ 32 - 1)
  | int_type.unsigned_long => (0, 2 ^ 64 - 1)
  | int_type.unsigned_long_long => (0, 2 ^ 64 - 1)

/-- Modelled from the spec: the digits are accumulated one at a time in the base, and
overflow against the range of the target type is detected during accumulation. -/
def accumulate (base : Nat) (neg : Bool) (lo hi : Int) : List Char → Int → expected Int
  | [], acc => Except.ok acc
  | c :: cs, acc =>
    if (if neg then acc * base - ((digit_value c).getD 0 : Nat)
        else acc * base + ((digit_value c).getD 0 : Nat)) < lo ∨
       hi < (if neg then acc * base - ((digit_value c).getD 0 : Nat)
        else acc * base + ((digit_value c).getD 0 : Nat)) then
      Except.error ⟨error_code.value_out_of_range, "Out of range"⟩
    else
      accumulate base neg lo hi cs
        (if neg then acc * base - ((digit_value c).getD 0 : Nat)
         else acc * base + ((digit_value c).getD 0 : Nat))

/-- Modelled from the spec: the base an option letter of the integer scanner selects. -/
def base_of_options (opts : List Char) : Nat :=
  if opts.contains 'x' then 16
  else if opts.contains 'o' then 8
  else if opts.contains 'b' then 2
  else 10

/-- Modelled from the spec: the integer reader without separators and base prefixes:
an optional sign (rejected under the option `u`), then digits of the base; no digit
is `invalid_scanned_value`. -/
def read_int (t : int_type) (opts : List Char) (val : value) (input : List Char) :
    expected (value × Nat) :=
  match val, input with
  | value.int _, c :: cs =>
    if (c = '-' ∨ c = '+') ∧ opts.contains 'u' then
      Except.error ⟨error_code.invalid_scanned_value, "Sign not allowed"⟩
    else
      let signed : Bool := decide (c = '-' ∨ c = '+')
      let digits := (if signed then cs else c :: cs).takeWhile (is_digit_of (base_of_options opts))
      if digits.isEmpty then
        Except.error ⟨error_code.invalid_scanned_value, "No digits"⟩
      else
        match accumulate (base_of_options opts) (decide (c = '-')) (int_limits t).1
            (int_limits t).2 digits 0 with
        | Except.ok n => Except.ok (value.int n, (if signed then 1 else 0) + digits.length)
        | Except.error e => Except.error e
  | value.int _, [] => Except.error ⟨error_code.end_of_stream, "EOF"⟩
  | _, _ => Except.error ⟨error_code.invalid_operation, "Slot is not an integer"⟩

/-- Modelled from the spec: the number a list of decimal digits denotes. -/
def decimal_digits (ds : List Char) : Nat :=
  ds.foldl (fun acc c => acc * 10 + (c.toNat - 48)) 0

/-- Modelled from the spec: the exponent part of a decimal literal, the letter e, an
optional sign and at least one digit; the value and the number of characters, zero
when there is none. -/
def read_exponent : List Char → Int × Nat
  | e :: c :: cs =>
    if e = 'e' ∨ e = 'E' then
      if c = '-' ∨ c = '+' then
        if (cs.takeWhile is_digit).isEmpty then (0, 0)
        else
          ((if c = '-' then -(decimal_digits (cs.takeWhile is_digit) : Int)
            else (decimal_digits (cs.takeWhile is_digit) : Int)),
            2 + (cs.takeWhile is_digit).length)
      else if ((c :: cs).takeWhile is_digit).isEmpty then (0, 0)
      else
        ((decimal_digits ((c :: cs).takeWhile is_digit) : Int),
          1 + ((c :: cs).takeWhile is_digit).length)
    else (0, 0)
  | _ => (0, 0)

/-- Modelled from the spec: the fraction part of a decimal literal, a point and the
digits after it. -/
def read_fraction : List Char → List Char × Nat
  | c :: cs =>
    if c = '.' then (cs.takeWhile is_digit, 1 + (cs.takeWhile is_digit).length) else ([], 0)
  | [] => ([], 0)

/-- Modelled from the spec: the floating-point reader on decimal and scientific
literals, an optional sign, digits with an optional fraction, an optional exponent;
the value is the exact decimal value. -/
def read_float (_opts : List Char) (val : value) (input : List Char) :
    expected (value × Nat) :=
  match val, input with
  | value.flt _, c :: cs =>
    let signed : Bool := decide (c = '-' ∨ c = '+')
    let body := if signed then cs else c :: cs
    let ip := body.takeWhile is_digit
    let fr := read_fraction (body.drop ip.length)
    if ip.isEmpty ∧ fr.1.isEmpty then
      Except.error ⟨error_code.invalid_scanned_value, "No digits"⟩
    else
      let ex := read_exponent (body.drop (ip.length + fr.2))
      Except.ok (value.flt
        ⟨(if c = '-' then -(decimal_digits (ip ++ fr.1) : Int)
          else (decimal_digits (ip ++ fr.1) : Int)), ex.1 - fr.1.length⟩,
        (if signed then 1 else 0) + ip.length + fr.2 + ex.2)
  | value.flt _, [] => Except.error ⟨error_code.end_of_stream, "EOF"⟩
  | _, _ => Except.error ⟨error_code.invalid_operation, "Slot is not a float"⟩

/-- Modelled from the spec: a string is read up to the next whitespace. -/
def read_string (_opts : List Char) (val : value) (input : List Char) :
    expected (value × Nat) :=
  match val, input with
  | value.str _, c :: cs =>
    if is_space c then Except.error ⟨error_code.invalid_scanned_value, "Empty string"⟩
    else
      Except.ok (value.str ((c :: cs).takeWhile (fun x => !is_space x)),
        ((c :: cs).takeWhile (fun x => !is_space x)).length)
  | value.str _, [] => Except.error ⟨error_code.end_of_stream, "EOF"⟩
  | _, _ => Except.error ⟨error_code.invalid_operation, "Slot is not a string"⟩

/-- Modelled from the spec: a fixed-capacity character buffer is filled with as many
characters as it holds. -/
def read_buffer (_opts : List Char) (val : value) (input : List Char) :
    expected (value × Nat) :=
  match val with
  | value.buf s =>
    if input.length < s.length then Except.error ⟨error_code.end_of_stream, "EOF"⟩
    else Except.ok (value.buf (input.take s.length), s.length)
  | _ => Except.error ⟨error_code.invalid_operation, "Slot is not a buffer"⟩

/-- Modelled from the spec: a character slot receives one code unit. -/
def read_character (_opts : List Char) (val : value) (input : List Char) :
    expected (value × Nat) :=
  match val, input with
  | value.chr _, c :: _ => Except.ok (value.chr c, 1)
  | value.chr _, [] => Except.error ⟨error_code.end_of_stream, "EOF"⟩
  | _, _ => Except.error ⟨error_code.invalid_operation, "Slot is not a character"⟩

/-- Modelled from the spec: a boolean slot is read as the text true or false under
the option `a`, and as 0 or 1 otherwise. -/
def read_bool (opts : List Char) (val : value) (input : List Char) :
    expected (value × Nat) :=
  match val with
  | value.bool _ =>
    if input.isEmpty then Except.error ⟨error_code.end_of_stream, "EOF"⟩
    else if opts.contains 'a' then
      if input.take 4 = ['t', 'r', 'u', 'e'] then Except.ok (value.bool true, 4)
      else if input.take 5 = ['f', 'a', 'l', 's', 'e'] then Except.ok (value.bool false, 5)
      else Except.error ⟨error_code.invalid_scanned_value, "Not a boolean"⟩
    else if input.take 1 = ['1'] then Except.ok (value.bool true, 1)
    else if input.take 1 = ['0'] then Except.ok (value.bool false, 1)
    else Except.error ⟨error_code.invalid_scanned_value, "Not a boolean"⟩
  | _ => Except.error ⟨error_code.invalid_operation, "Slot is not a boolean"⟩

/-- Modelled from the spec: the option letters the scanner of each type of slot
accepts. -/
def string_allowed : slot_type → Char → Bool
  | slot_type.bool => fun c => decide (c = 'a')
  | slot_type.integer _ => fun c => decide (c = 'd' ∨ c = 'x' ∨ c = 'o' ∨ c = 'b' ∨ c = 'u')
  | _ => fun _ => false

/-- Modelled from the spec: the value reader of the scanner of each type of slot. -/
def string_reader : slot_type → List Char → value → List Char → expected (value × Nat)
  | slot_type.char_type => read_character
  | slot_type.span => read_buffer
  | slot_type.bool => read_bool
  | slot_type.integer t => read_int t
  | slot_type.floating _ => read_float
  | slot_type.string => read_string
  | slot_type.string_view => read_string

/-- Modelled from the spec: the scanner classes of a string scan. -/
def string_scanners : scanners (List Char) value basic_context basic_parse_context where
  char_scanner := make_scanner (string_allowed slot_type.char_type) read_character
  buffer_scanner := make_scanner (string_allowed slot_type.span) read_buffer
  bool_scanner := make_scanner (string_allowed slot_type.bool) read_bool
  integer_scanner := fun t => make_scanner (string_allowed (slot_type.integer t)) (read_int t)
  float_scanner := fun t => make_scanner (string_allowed (slot_type.floating t)) read_float
  string_scanner := make_scanner (string_allowed slot_type.string) read_string
  string_view_scanner := make_scanner (string_allowed slot_type.string_view) read_string

/-- Modelled from the spec: the argument of the visitor for a slot; a handle scans the
range of the context. -/
def slot.to_arg_value : slot → arg_value value basic_context
  | slot.typed t v => arg_value.typed t v
  | slot.handle scan =>
    arg_value.handle (fun ctx =>
      ((scan ctx.range.rest).1,
        ⟨⟨ctx.range.src, ctx.range.pos + (scan ctx.range.rest).2, ctx.range.rollback⟩,
          ctx.args⟩))
  | slot.monostate => arg_value.monostate

/-- Modelled from the spec: the slot after the visitor ran on it. -/
def slot.store (old : slot) : arg_value value basic_context → slot
  | arg_value.typed t v => slot.typed t v
  | _ => old

/-- Modelled from the spec: `visit_arg` applies the visitor to the slot the argument
refers to; what the scanner wrote is stored in the slot. -/
def visit_arg (Sc : scanners (List Char) value basic_context basic_parse_context)
    (arg : Option Nat) (ctx : basic_context) (pctx : basic_parse_context) :
    error × basic_context × basic_parse_context :=
  match arg with
  | none => basic_visitor.visit_monostate ctx pctx
  | some i =>
    match ctx.args.get? i with
    | none => basic_visitor.visit_monostate ctx pctx
    | some a =>
      match basic_visitor.call Sc a.to_arg_value ctx pctx with
      | (e, a1, ctx1, pctx1) => (e, ⟨ctx1.range, ctx1.args.set i (a.store a1)⟩, pctx1)

/-- Modelled from the spec: the entry point `scn::scan` on a range of characters, a
format string and output slots, `visit` on a fresh context and parse context.  One
pass of the loop consumes at least one character of the format string, so its length
bounds the fuel. -/
def scan (input : List Char) (fmt : List Char) (args : List slot) :
    Option (scan_result (List Char) × loop_state basic_context basic_parse_context) :=
  visit basic_parse_context.ops basic_context.ops (visit_arg string_scanners)
    (fmt.length + 1) ⟨range_wrapper.make input, args⟩ ⟨fmt, 0⟩

/-! ## Formats and inputs built token by token -/

/-- A token of a format string together with the text of the input it is to consume:
a literal character (written twice in the format when it is a brace), a run of
whitespace in the format against a run of whitespace in the input, or a placeholder
with its option letters against a token of the input, for a slot of a type holding
`old` before the scan and `new` after it. -/
inductive segment where
  | literal (c : Char)
  | space (fsep isep : List Char)
  | placeholder (opts : List Char) (type : slot_type) (old : value) (token : List Char)
      (new : value)

namespace segment

/-- The text of a segment in the format string. -/
def format : segment → List Char
  | literal c => if c = '{' then ['{', '{'] else if c = '}' then ['}', '}'] else [c]
  | space fsep _ => fsep
  | placeholder opts _ _ _ _ => if opts.isEmpty then ['{', '}'] else '{' :: ':' :: (opts ++ ['}'])

/-- The text of a segment in the input. -/
def input : segment → List Char
  | literal c => [c]
  | space _ isep => isep
  | placeholder _ _ _ token _ => token

/-- The slot of a segment before the scan, when it is a placeholder. -/
def slot_before : segment → Option slot
  | placeholder _ type old _ _ => some (slot.typed type old)
  | _ => none

/-- The slot of a segment after the scan, when it is a placeholder. -/
def slot_after : segment → Option slot
  | placeholder _ type _ _ new => some (slot.typed type new)
  | _ => none

end segment

/-- The format string of a list of segments. -/
def format_of : List segment → List Char
  | [] => []
  | g :: gs => g.format ++ format_of gs

/-- The input of a list of segments. -/
def input_of : List segment → List Char
  | [] => []
  | g :: gs => g.input ++ input_of gs

/-- The output slots of a list of segments, before the scan. -/
def slots_before (gs : List segment) : List slot := gs.filterMap segment.slot_before

/-- The output slots of a list of segments, after the scan. -/
def slots_after (gs : List segment) : List slot := gs.filterMap segment.slot_after

/-- Whether a text is not empty and starts with a character that is not whitespace. -/
def starts_with_non_space : List Char → Bool
  | [] => false
  | c :: _ => !is_space c

/-- Whether a text is empty or starts with a character that is not whitespace. -/
def no_leading_space : List Char → Bool
  | [] => true
  | c :: _ => !is_space c

/-- The segments the scan driver takes one by one: a literal is not whitespace; a run
of whitespace of the format is not empty, is followed in the format by something else
than whitespace, and the input goes on after its own run with a character that is not
whitespace; the option letters of a placeholder are accepted by the type of its slot
and the reader of that type, on the characters ahead, reads the token and nothing more
and yields the value `new`. -/
def segments_ok : List segment → Prop
  | [] => True
  | segment.literal c :: gs => is_space c = false ∧ segments_ok gs
  | segment.space fsep isep :: gs =>
    fsep ≠ [] ∧ fsep.all is_space = true ∧ isep.all is_space = true ∧
      no_leading_space (format_of gs) = true ∧ starts_with_non_space (input_of gs) = true ∧
      segments_ok gs
  | segment.placeholder opts type old token new :: gs =>
    opts.all (string_allowed type) = true ∧
      string_reader type opts old (token ++ input_of gs) = Except.ok (new, token.length) ∧
      segments_ok gs

/-! ## Whitespace-separated tokens -/

/-- A token of the input for an output slot: the type of the slot, the value it holds
before the scan, the text of the token and the value of the token. -/
structure token_slot where
  type : slot_type
  old : value
  token : List Char
  new : value

/-- The output slot of a token before the scan. -/
def token_slot.slot_before (t : token_slot) : slot := slot.typed t.type t.old

/-- The output slot of a token after the scan. -/
def token_slot.slot_after (t : token_slot) : slot := slot.typed t.type t.new

/-- The format string after its first placeholder: for every further token the
whitespace `fsep` and a placeholder `{}`. -/
def placeholder_format : List (List Char × List Char × token_slot) → List Char
  | [] => []
  | g :: gs => g.1 ++ '{' :: '}' :: placeholder_format gs

/-- The input after its first token: for every further token the whitespace `isep` and
the text of the token. -/
def token_input : List (List Char × List Char × token_slot) → List Char
  | [] => []
  | g :: gs => g.2.1 ++ (g.2.2.token ++ token_input gs)

/-- The further tokens are separated by whitespace, in the format and in the input, do
not start with whitespace, and the reader of the type of each slot, on the characters
ahead, reads the token and nothing more and yields its value. -/
def gaps_ok : List (List Char × List Char × token_slot) → Prop
  | [] => True
  | g :: gs =>
    g.1 ≠ [] ∧ g.1.all is_space = true ∧ g.2.1 ≠ [] ∧ g.2.1.all is_space = true ∧
      starts_with_non_space g.2.2.token = true ∧
      string_reader g.2.2.type [] g.2.2.old (g.2.2.token ++ token_input gs)
        = Except.ok (g.2.2.new, g.2.2.token.length) ∧
      gaps_ok gs

/-- The input is made of valid tokens of the types of the slots, separated by
whitespace. -/
def tokens_ok (first : token_slot) (rest : List (List Char × List Char × token_slot)) : Prop :=
  starts_with_non_space first.token = true ∧
    string_reader first.type [] first.old (first.token ++ token_input rest)
      = Except.ok (first.new, first.token.length) ∧
    gaps_ok rest

/-- The segments of the further tokens. -/
def gap_segments : List (List Char × List Char × token_slot) → List segment
  | [] => []
  | g :: gs =>
    segment.space g.1 g.2.1 ::
      segment.placeholder [] g.2.2.type g.2.2.old g.2.2.token g.2.2.new :: gap_segments gs

/-- Whether a segment is a placeholder. -/
def segment.is_placeholder : segment → Bool
  | segment.placeholder _ _ _ _ _ => true
  | _ => false

/-! ## Observing a run: the calls `visit` makes -/

/-- A call made by `visit` that a run records: a whitespace skip, a character read, an
`undo` (`reset_to_rollback_point`), a `commit` (`set_rollback_point`) or a call of the
dispatcher, each with whether it succeeded. -/
inductive event where
  | skip_ws (ok : Bool)
  | read_char (ok : Bool)
  | undo (ok : Bool)
  | commit
  | dispatch (ok : Bool)
  deriving DecidableEq, Repr

section traced

variable {Ctx PCtx Arg Range : Type}

/-- A context that behaves as `C` and keeps, next to the state of `C`, the list of the
calls made on it so far. -/
def traced (C : context_ops Ctx PCtx Arg Range) :
    context_ops (Ctx × List event) PCtx Arg Range where
  skip_range_whitespace := fun c =>
    ((C.skip_range_whitespace c.1).1,
      ((C.skip_range_whitespace c.1).2,
        c.2 ++ [event.skip_ws (C.skip_range_whitespace c.1).1.good]))
  read_char := fun c =>
    ((C.read_char c.1).1,
      ((C.read_char c.1).2, c.2 ++ [event.read_char (C.read_char c.1).1.isOk]))
  reset_to_rollback_point := fun c =>
    ((C.reset_to_rollback_point c.1).1,
      ((C.reset_to_rollback_point c.1).2,
        c.2 ++ [event.undo (C.reset_to_rollback_point c.1).1.good]))
  set_rollback_point := fun c => (C.set_rollback_point c.1, c.2 ++ [event.commit])
  get_return := fun c => C.get_return c.1
  is_digit := fun c => C.is_digit c.1
  next_arg := fun c => C.next_arg c.1
  arg_at := fun c => C.arg_at c.1
  arg_named := fun c => C.arg_named c.1
  arg_good := C.arg_good
  signed_char := C.signed_char

/-- The dispatcher `d`, recording each of its calls. -/
def traced_visit_arg (d : Arg → Ctx → PCtx → error × Ctx × PCtx) :
    Arg → Ctx × List event → PCtx → error × (Ctx × List event) × PCtx :=
  fun a c p =>
    ((d a c.1 p).1, ((d a c.1 p).2.1, c.2 ++ [event.dispatch (d a c.1 p).1.good]), (d a c.1 p).2.2)

/-- The outcomes of the calls of the dispatcher in a record, in order. -/
def dispatches (tr : List event) : List Bool :=
  tr.filterMap (fun e =>
    match e with
    | event.dispatch ok => some ok
    | _ => none)

/-- What one pass through the body does to the count, to the record of dispatcher
calls and to the context: the count goes up by one exactly when a call of the
dispatcher succeeded, and a failed call of the dispatcher is followed by an undo and a
return with an error. -/
def dispatch_step (C : context_ops Ctx PCtx Arg Range)
    (d : Arg → Ctx → PCtx → error × Ctx × PCtx) (s : loop_state (Ctx × List event) PCtx) :
    control (Ctx × List event) PCtx Range → Prop
  | control.next s1 =>
    (s1.args_read = s.args_read ∧ dispatches s1.ctx.2 = dispatches s.ctx.2 ∧
      (s1.ctx.1 = (C.skip_range_whitespace s.ctx.1).2 ∨ s1.ctx.1 = (C.read_char s.ctx.1).2)) ∨
    (s1.args_read = s.args_read + 1 ∧ dispatches s1.ctx.2 = dispatches s.ctx.2 ++ [true] ∧
      ∃ a p, s1.ctx.1 = (d a s.ctx.1 p).2.1)
  | control.brk s1 =>
    s1.args_read = s.args_read ∧ dispatches s1.ctx.2 = dispatches s.ctx.2 ∧
      s1.ctx.1 = (C.skip_range_whitespace s.ctx.1).2
  | control.ret r s1 =>
    r.value = s.args_read ∧
    (dispatches s1.ctx.2 = dispatches s.ctx.2 ∨
      (dispatches s1.ctx.2 = dispatches s.ctx.2 ++ [false] ∧ r.err.good = false ∧
        ∃ a p, (d a s.ctx.1 p).1.good = false ∧
          s1.ctx.1 = (C.reset_to_rollback_point (d a s.ctx.1 p).2.1).2 ∧
          r.range = C.get_return s1.ctx.1 ∧
          (r.err = (d a s.ctx.1 p).1 ∨
            r.err = (C.reset_to_rollback_point (d a s.ctx.1 p).2.1).1)))

/-- A measure of the parse context that no operation increases and that `advance` and
a successful `should_skip_ws` decrease: the parse context only moves forward. -/
structure makes_progress (P : parse_context_ops PCtx) (C : context_ops Ctx PCtx Arg Range)
    (d : Arg → Ctx → PCtx → error × Ctx × PCtx) (μ : PCtx → Nat) : Prop where
  skip_ws : ∀ p, (P.should_skip_ws p).1 = true → μ (P.should_skip_ws p).2 < μ p
  no_skip_ws : ∀ p, (P.should_skip_ws p).1 = false → μ (P.should_skip_ws p).2 ≤ μ p
  read_literal : ∀ p, μ (P.should_read_literal p).2 ≤ μ p
  advance : ∀ p, P.good p = true → μ (P.advance p) < μ p
  parse_arg_id : ∀ p, μ (P.parse_arg_id p).2 ≤ μ p
  arg_handled : ∀ p, μ (P.arg_handled p) ≤ μ p
  next_arg : ∀ c p, μ (C.next_arg c p).2 ≤ μ p
  arg_at : ∀ c p i, μ (C.arg_at c p i).2 ≤ μ p
  dispatch : ∀ a c p, μ (d a c p).2.2 ≤ μ p

end traced

section erase

variable {Ctx PCtx Arg Range : Type}

/-- A loop state of a recording run without its record. -/
def erase (s : loop_state (Ctx × List event) PCtx) : loop_state Ctx PCtx :=
  ⟨s.args_read, s.ctx.1, s.pctx⟩

/-- The end of a pass of a recording run without its record. -/
def erase_control : control (Ctx × List event) PCtx Range → control Ctx PCtx Range
  | control.next s => control.next (erase s)
  | control.brk s => control.brk (erase s)
  | control.ret r s => control.ret r (erase s)

end erase

/-! ## The floating-point reader (reader_float.cpp) -/

/-- The operations of a floating-point type `T` the reader uses: the comparison `==`
(not reflexive on a NaN), `detail::zero_value<T>::value`, the unary minus,
`std::isinf` and the value-initialised `T{}`. -/
structure float_ops (T : Type) where
  eq : T → T → Bool
  zero : T
  neg : T → T
  isinf : T → Bool
  init : T

/-- The part of the state of the process the reader touches: the name of the numeric
locale (`LC_NUMERIC`) and `errno`. -/
structure process_state where
  numeric_locale : List Char
  errno : Int
  deriving DecidableEq, Repr

/-- The value of the macro `ERANGE` (from `<cerrno>`), as on Linux; the reader only
compares `errno` with it. -/
def ERANGE : Int := 34

/-- The outcome of a call `f_strtod(str, &end)` made with `errno` set to 0: the value
returned, the distance `end - str` and `errno` after the call. -/
structure strtod_result (T : Type) where
  value : T
  stop : Nat
  errno : Int

/-- The values of `std::errc` the reader tells apart; `ok` is `std::errc{}`. -/
inductive errc where
  | ok
  | invalid_argument
  | result_out_of_range
  deriving DecidableEq, Repr

/-- The values of `std::chars_format` the reader passes. -/
inductive chars_format where
  | general
  | hex
  deriving DecidableEq, Repr

/-- The outcome of a call of `from_chars(first, last, value, ...)`: the content of
`value` after the call, the position `ptr` as an index into the string, and `ec`. -/
structure from_chars_result (T : Type) where
  value : T
  ptr : Nat
  ec : errc

/-- The library functions and constants `reader_float.cpp` is compiled against, for one
floating-point type `T`: its operations, `strtof`/`strtod`/`strtold` and the wide
`wcstof`/`wcstod`/`wcstold` (they see the state of the process, with `errno` at 0),
`HUGE_VALF`/`HUGE_VAL`/`HUGE_VALL`, `std::from_chars` and `fast_float::from_chars` (on
the string, the indices of `first` and `last` in it, and the format), and whether
`SCN_HAS_FLOAT_CHARCONV` is set.  A C string is the list of its characters before the
terminator. -/
structure float_env (T : Type) where
  ops : float_ops T
  strtod : process_state → List Char → strtod_result T
  wcstod : process_state → List Char → strtod_result T
  huge : T
  std_from_chars : List Char → Nat → Nat → chars_format → from_chars_result T
  fast_from_chars : List Char → Nat → Nat → from_chars_result T
  has_float_charconv : Bool

namespace read_float

/-- The function `is_hexfloat(str, len)` (lines 49-55). -/
def is_hexfloat (str : List Char) (len : Nat) : Bool :=
  if len < 3 then false
  else decide (str.get? 0 = some '0') &&
    (decide (str.get? 1 = some 'x') || decide (str.get? 1 = some 'X'))

/-- The call `setlocale(LC_NUMERIC, nullptr)`: the name of the current numeric locale. -/
def query_locale (st : process_state) : List Char := st.numeric_locale

/-- The call `setlocale(LC_NUMERIC, name)`: the numeric locale becomes `name`. -/
def set_locale (name : List Char) (st : process_state) : process_state :=
  ⟨name, st.errno⟩

/-- The assignment `errno = v`. -/
def set_errno (v : Int) (st : process_state) : process_state := ⟨st.numeric_locale, v⟩

/-- The call `strcpy(buf, src)` into a buffer of `cap` characters: the copy needs
room for the terminator, and overrunning the buffer is undefined behaviour (`none`). -/
def strcpy (cap : Nat) (src : List Char) : Option (List Char) :=
  if src.length < cap then some src else none

namespace cstd

/-- The end of `cstd::impl` (lines 89-112): the result for the value `f`, the count
`chars` and the `errno` value `err` left by the conversion. -/
def classify {T : Type} (F : float_ops T) (huge_value : T) (f : T) (chars : Nat) (err : Int) :
    expected T :=
  if F.eq f F.zero && decide (chars = 0) then
    Except.error ⟨error_code.invalid_scanned_value, "strtod"⟩
  else if err = ERANGE then
    if F.eq f F.zero then
      Except.error ⟨error_code.value_out_of_range,
        "Floating-point value out of range: underflow"⟩
    else if F.eq f huge_value || F.eq f (F.neg huge_value) then
      Except.error ⟨error_code.value_out_of_range,
        "Floating-point value out of range: overflow"⟩
    else Except.ok f
  else Except.ok f

/-- The function `cstd::impl(f_strtod, huge_value, str, chars)` (lines 62-113), with
the state of the process passed explicitly: the locale name is saved in
`locbuf[256]`, the numeric locale is set to "C", `errno` is cleared, the conversion
runs, the locale is set back and `errno` is cleared again.  The parameter `chars` is
written before it is read, so its value on entry plays no part.  The result comes with
the new `chars` and the state of the process. -/
def impl {T : Type} (F : float_ops T) (f_strtod : process_state → List Char → strtod_result T)
    (huge_value : T) (str : List Char) (_chars : Nat) (st : process_state) :
    Option (expected T × Nat × process_state) :=
  match strcpy 256 (query_locale st) with
  | none => none
  | some locbuf =>
    some
      (classify F huge_value
          (f_strtod (set_errno 0 (set_locale ['C'] st)) str).value
          (f_strtod (set_errno 0 (set_locale ['C'] st)) str).stop
          (f_strtod (set_errno 0 (set_locale ['C'] st)) str).errno,
        (f_strtod (set_errno 0 (set_locale ['C'] st)) str).stop,
        set_errno 0 (set_locale locbuf
          (set_errno (f_strtod (set_errno 0 (set_locale ['C'] st)) str).errno
            (set_errno 0 (set_locale ['C'] st)))))

/-- The functions `cstd::read<char, T>::get` (lines 121-143): `impl` with the narrow
conversion function and the huge value of the type. -/
def read {T : Type} (E : float_env T) (str : List Char) (chars : Nat) (st : process_state) :
    Option (expected T × Nat × process_state) :=
  impl E.ops E.strtod E.huge str chars st

/-- The functions `cstd::read<wchar_t, T>::get` (lines 145-166): `impl` with the wide
conversion function. -/
def read_wide {T : Type} (E : float_env T) (str : List Char) (chars : Nat)
    (st : process_state) : Option (expected T × Nat × process_state) :=
  impl E.ops E.wcstod E.huge str chars st

end cstd

namespace from_chars

/-- How far `from_chars::read` moved `str` (line 177, `str += 2` for a hex-float). -/
def offset (str : List Char) : Nat := if is_hexfloat str str.length then 2 else 0

/-- The format `from_chars::read` passes (lines 175-179). -/
def flags (str : List Char) : chars_format :=
  if is_hexfloat str str.length then chars_format.hex else chars_format.general

/-- The call `std::from_chars(str, str + len, value, flags)` (lines 182-184), made
after `str` was moved, with `len` the length measured before the move. -/
def result {T : Type} (E : float_env T) (str : List Char) : from_chars_result T :=
  E.std_from_chars str (offset str) (offset str + str.length) (flags str)

/-- The function `from_chars::read<T>::get(str, chars)` (lines 169-207).  With
`SCN_HAS_FLOAT_CHARCONV`, a hex-float moves `str` two characters forward: `str` is
from then on the index `offset str` into the string, and the C string it points to is
the string without its first two characters.  Without the flag the function is
`cstd::read`. -/
def read {T : Type} (E : float_env T) (str : List Char) (chars : Nat) (st : process_state) :
    Option (expected T × Nat × process_state) :=
  if E.has_float_charconv then
    if (result E str).ec = errc.invalid_argument then
      some (Except.error ⟨error_code.invalid_scanned_value, "from_chars"⟩, chars, st)
    else if (result E str).ec = errc.result_out_of_range then
      cstd.read E (str.drop (offset str)) chars st
    else some (Except.ok (result E str).value, (result E str).ptr - offset str, st)
  else cstd.read E str chars st

end from_chars

namespace fast_float

/-- The call `::fast_float::from_chars(str, str + len, value)` (lines 221-222). -/
def result {T : Type} (E : float_env T) (str : List Char) : from_chars_result T :=
  E.fast_from_chars str 0 str.length

/-- The function `fast_float::impl<T>(str, chars)` (lines 210-240). -/
def impl {T : Type} (E : float_env T) (str : List Char) (chars : Nat) (st : process_state) :
    Option (expected T × Nat × process_state) :=
  if is_hexfloat str str.length then from_chars.read E str chars st
  else if (result E str).ec = errc.invalid_argument then
    some (Except.error ⟨error_code.invalid_scanned_value, "fast_float"⟩, chars, st)
  else if (result E str).ec = errc.result_out_of_range then
    some (Except.error ⟨error_code.value_out_of_range, "fast_float"⟩, chars, st)
  else if E.ops.isinf (result E str).value &&
      !(decide (3 ≤ str.length) &&
        (decide (str.get? 0 = some 'i') || decide (str.get? 0 = some 'I'))) then
    from_chars.read E str chars st
  else some (Except.ok (result E str).value, (result E str).ptr - 0, st)

/-- The functions `fast_float::read<T>::get` (lines 242-268): `impl` for float and
double, `cstd::read` for long double. -/
def read {T : Type} (E : float_env T) (t : float_type) (str : List Char) (chars : Nat)
    (st : process_state) : Option (expected T × Nat × process_state) :=
  match t with
  | float_type.long_double => cstd.read E str chars st
  | _ => impl E str chars st

end fast_float

/-- The functions `read<CharT, T>::get` (lines 270-290): the fast path for narrow
input, `cstd::read` for wide input. -/
def read {T : Type} (E : float_env T) (wide : Bool) (t : float_type) (str : List Char)
    (chars : Nat) (st : process_state) : Option (expected T × Nat × process_state) :=
  if wide then cstd.read_wide E str chars st else fast_float.read E t str chars st

end read_float

/-- The function `float_scanner<T>::_read_float_impl(str, chars)` (lines 292-325). -/
def float_scanner._read_float_impl {T : Type} (E : float_env T) (wide : Bool) (t : float_type)
    (str : List Char) (chars : Nat) (st : process_state) :
    Option (expected T × Nat × process_state) :=
  read_float.read E wide t str chars st

/-! ### A model of floating-point values, for instances -/

/-- A model of the values of a floating-point format: NaN, the two infinities, and the
finite values as a sign and a magnitude, a whole number of units whose weight each
instance fixes. -/
inductive fp where
  | nan
  | inf (negative : Bool)
  | finite (negative : Bool) (magnitude : Nat)
  deriving DecidableEq, Repr

namespace fp

/-- The comparison `==`: a NaN equals nothing, the two zeros are equal. -/
def eq : fp → fp → Bool
  | inf a, inf b => a == b
  | finite a m, finite b n => (m == n) && ((a == b) || (m == 0))
  | _, _ => false

/-- The unary minus. -/
def neg : fp → fp
  | nan => nan
  | inf a => inf (!a)
  | finite a m => finite (!a) m

/-- The function `std::isinf`. -/
def isinf : fp → Bool
  | inf _ => true
  | _ => false

/-- The operations of the model. -/
def ops : float_ops fp := ⟨eq, finite false 0, neg, isinf, finite false 0⟩

end fp

/-! ## The scan buffer -/

/-- Modelled from the spec: the Scan Buffer in its two shapes.  `buffered` holds the
characters that are directly addressable: the whole span for the contiguous shape,
the staging record of the characters read so far for the forward-only shape, whose
one-pass `source` has the others yet to yield. -/
structure scan_buffer where
  contiguous : Bool
  buffered : List Char
  source : List Char
  deriving DecidableEq, Repr

/-- Modelled from the spec: `make_string_scan_buffer`, the contiguous buffer over a
string. -/
def make_string_scan_buffer (s : List Char) : scan_buffer := ⟨true, s, []⟩

/-- Modelled from the spec: `make_forward_scan_buffer`, the forward-only buffer over a
view that can be read once; nothing is read yet. -/
def make_forward_scan_buffer (view : List Char) : scan_buffer := ⟨false, [], view⟩

namespace scan_buffer

/-- Modelled from the spec: `is_contiguous`. -/
def is_contiguous (b : scan_buffer) : Bool := b.contiguous

/-- Modelled from the spec: `characters_read`, the count of characters read from the
source since construction. -/
def characters_read (b : scan_buffer) : Nat := b.buffered.length

/-- Modelled from the spec: `get_contiguous_segment`, the directly addressable
characters. -/
def get_contiguous_segment (b : scan_buffer) : List Char := b.buffered

/-- Modelled from the spec: `get_contiguous_buffer`, the whole span of a contiguous
buffer. -/
def get_contiguous_buffer (b : scan_buffer) : List Char := b.buffered

/-- Modelled from the spec: reading one more character from the one-pass source into
the staging record; `none` at the end of the source. -/
def fill (b : scan_buffer) : Option scan_buffer :=
  match b.source with
  | [] => none
  | c :: rest => some ⟨b.contiguous, b.buffered ++ [c], rest⟩

/-- Modelled from the spec: the character at position `i` of the forward view
(`get_forward_buffer`): a character already read is taken from the staging record,
the next one is read from the source; `none` is the end of the view. -/
def forward_get (b : scan_buffer) (i : Nat) : Option (Char × scan_buffer) :=
  match b.buffered.get? i with
  | some c => some (c, b)
  | none =>
    match fill b with
    | none => none
    | some b1 =>
      match b1.buffered.get? i with
      | some c => some (c, b1)
      | none => none

/-- Modelled from the spec: iterating the forward view from position `i` to its end,
at most `fuel` characters: the characters met, in order, and the buffer afterwards. -/
def copy_forward : Nat → scan_buffer → Nat → List Char × scan_buffer
  | 0, b, _ => ([], b)
  | fuel + 1, b, i =>
    match forward_get b i with
    | none => ([], b)
    | some (c, b1) => (c :: (copy_forward fuel b1 (i + 1)).1, (copy_forward fuel b1 (i + 1)).2)

/-- Modelled from the spec: `ranges::copy(buf.get_forward_buffer(), ...)`, the forward
view read from its start to its end; the view has no more characters than the staging
record and the source hold. -/
def read_all (b : scan_buffer) : List Char × scan_buffer :=
  copy_forward (b.buffered.length + b.source.length) b 0

end scan_buffer

/-! ## The branch a pass of the loop takes -/

section branch

variable {PCtx : Type}

/-- The parse context after the two tests at the head of the loop body,
`should_skip_ws` (line 228) and `should_read_literal` (line 249), each of which may
move it. -/
def tested_pctx (P : parse_context_ops PCtx) (pctx : PCtx) : PCtx :=
  (P.should_read_literal (P.should_skip_ws pctx).2).2

/-- Whether a pass of the loop matches a literal: the loop is entered (line 227),
`should_skip_ws` is false, `should_read_literal` is true and the format string is not
exhausted after it (line 250). -/
def at_literal (P : parse_context_ops PCtx) (pctx : PCtx) : Bool :=
  P.good pctx && !(P.should_skip_ws pctx).1 &&
    (P.should_read_literal (P.should_skip_ws pctx).2).1 && P.good (tested_pctx P pctx)

/-- Whether a pass of the loop scans an argument (line 277): the loop is entered and
both tests are false. -/
def at_argument (P : parse_context_ops PCtx) (pctx : PCtx) : Bool :=
  P.good pctx && !(P.should_skip_ws pctx).1 &&
    !(P.should_read_literal (P.should_skip_ws pctx).2).1

end branch

/-! ## The value of a string of decimal digits -/

/-- The base-10 value of a string of digits d1...dn, as the description of the
positional index words it and not as the code computes it: the sum of the values of
the digits times the powers of ten of their places. -/
def base10_value : List Char → Nat
  | [] => 0
  | c :: cs => (c.toNat - 48) * 10 ^ cs.length + base10_value cs

/-! ### Instances of the library functions -/

/-- The library functions on the text "1e999" read as a double: the fast parser and
`std::from_chars` report `result_out_of_range` after the five characters, and `strtod`
returns `HUGE_VAL` with `errno` set to `ERANGE`. -/
def overflow_env : float_env fp where
  ops := fp.ops
  strtod := fun _ _ => ⟨fp.inf false, 5, ERANGE⟩
  wcstod := fun _ _ => ⟨fp.inf false, 5, ERANGE⟩
  huge := fp.inf false
  std_from_chars := fun _ _ _ _ => ⟨fp.finite false 0, 5, errc.result_out_of_range⟩
  fast_from_chars := fun _ _ _ => ⟨fp.inf false, 5, errc.result_out_of_range⟩
  has_float_charconv := true

/-- The library functions on the hex-float "0x1p+2000" read as a double, a value above
the largest double: `std::from_chars` reports `result_out_of_range`, `strtod` converts
the nine characters of "0x1p+2000" to `HUGE_VAL` with `errno` set to `ERANGE`, and on
the text "1p+2000" it converts the one character "1" to 1.0 (the unit of the
magnitudes is 1). -/
def hexfloat_env : float_env fp where
  ops := fp.ops
  strtod := fun _ s =>
    if s = ['0', 'x', '1', 'p', '+', '2', '0', '0', '0'] then ⟨fp.inf false, 9, ERANGE⟩
    else if s = ['1', 'p', '+', '2', '0', '0', '0'] then ⟨fp.finite false 1, 1, 0⟩
    else ⟨fp.finite false 0, 0, 0⟩
  wcstod := fun _ _ => ⟨fp.finite false 0, 0, 0⟩
  huge := fp.inf false
  std_from_chars := fun _ _ _ _ => ⟨fp.finite false 0, 0, errc.result_out_of_range⟩
  fast_from_chars := fun _ _ _ => ⟨fp.finite false 0, 0, errc.invalid_argument⟩
  has_float_charconv := true

/-- The library functions on the text "abc": no function converts a character. -/
def reject_env : float_env fp where
  ops := fp.ops
  strtod := fun _ _ => ⟨fp.finite false 0, 0, 0⟩
  wcstod := fun _ _ => ⟨fp.finite false 0, 0, 0⟩
  huge := fp.inf false
  std_from_chars := fun _ first _ _ => ⟨fp.finite false 0, first, errc.invalid_argument⟩
  fast_from_chars := fun _ first _ => ⟨fp.finite false 0, first, errc.invalid_argument⟩
  has_float_charconv := true

/-! ## More of the character readers (code_unit_and_point_reader.h) -/

/-- The member `char_reader_base::skip_ws_before_read` (lines 93-96). -/
def char_reader_base.skip_ws_before_read : Bool := false

/-- Modelled from the spec: `read_code_unit` (declared in `algorithms/read.h`) on a
range of code units: one unit is consumed, and an exhausted range is the end of the
input. -/
def read_code_unit (range : List Int) : expected Nat :=
  match range with
  | [] => Except.error ⟨error_code.end_of_stream, "EOF"⟩
  | _ :: _ => Except.ok 1

/-- The member `code_point_reader<code_point>::read` (lines 51-61): on success of
`read_code_point_into` the slot receives the code point decoded from the code units
read, and the iterator of the result is returned.  `read_code_point_into` (the code
units of one code point and the iterator after them) and
`decode_code_point_exhaustive_valid` are declared in other headers and are
parameters. -/
def code_point_reader.read (read_code_point_into : List Int → expected (List Int × Nat))
    (decode_code_point_exhaustive_valid : List Int → Nat) (range : List Int) (cp : Nat) :
    expected Nat × Nat :=
  match read_code_point_into range with
  | Except.ok result => (Except.ok result.2, decode_code_point_exhaustive_valid result.1)
  | Except.error e => (Except.error e, cp)

/-- The member `code_point_reader<wchar_t>::read` (lines 68-85): a code point is read
into the local `cp`, value-initialised; its error is returned as it is; otherwise
`encode_code_point_as_wide_character(cp, true)` (declared in another header, a
parameter) gives the wide character the slot receives, and the iterator returned is
the one of the first read. -/
def code_point_reader_wchar.read
    (read_code_point_into : List Int → expected (List Int × Nat))
    (decode_code_point_exhaustive_valid : List Int → Nat)
    (encode_code_point_as_wide_character : Nat → Bool → expected Int)
    (range : List Int) (ch : Int) : expected Nat × Int :=
  match code_point_reader.read read_code_point_into decode_code_point_exhaustive_valid
      range 0 with
  | (Except.error e, _) => (Except.error e, ch)
  | (Except.ok ret, cp) =>
    match encode_code_point_as_wide_character cp true with
    | Except.ok encoded_ch => (Except.ok ret, encoded_ch)
    | Except.error e => (Except.error e, ch)

/-! ### Instances of the code point functions -/

/-- An instance of `read_code_point_into` on UTF-8 code units: the length of the
sequence is read off its first unit, and a range shorter than that is an error. -/
def utf8_read_code_point_into (range : List Int) : expected (List Int × Nat) :=
  match range with
  | [] => Except.error ⟨error_code.end_of_stream, "EOF"⟩
  | u :: _ =>
    if range.length < (if u < 128 then 1 else if u < 224 then 2 else if u < 240 then 3 else 4)
    then Except.error ⟨error_code.invalid_scanned_value, "Incomplete code point"⟩
    else
      Except.ok
        (range.take (if u < 128 then 1 else if u < 224 then 2 else if u < 240 then 3 else 4),
          if u < 128 then 1 else if u < 224 then 2 else if u < 240 then 3 else 4)

/-- An instance of `decode_code_point_exhaustive_valid` on UTF-8 code units. -/
def utf8_decode (units : List Int) : Nat :=
  match units with
  | [a] => a.toNat
  | [a, b] => (a.toNat - 192) * 64 + (b.toNat - 128)
  | [a, b, c] => ((a.toNat - 224) * 64 + (b.toNat - 128)) * 64 + (c.toNat - 128)
  | [a, b, c, d] =>
    (((a.toNat - 240) * 64 + (b.toNat - 128)) * 64 + (c.toNat - 128)) * 64 + (d.toNat - 128)
  | _ => 0

/-- An instance of `encode_code_point_as_wide_character` for a `wchar_t` of 16 bits: a
code point of the basic plane is one wide character, any other needs two. -/
def encode_wide16 (cp : Nat) (_error_on_overflow : Bool) : expected Int :=
  if cp < 65536 then Except.ok (cp : Int)
  else Except.error ⟨error_code.value_out_of_range, "Code point does not fit a wide character"⟩

/-- An instance of `encode_code_point_as_wide_character` for a `wchar_t` of 32 bits:
every code point is one wide character. -/
def encode_wide32 (cp : Nat) (_error_on_overflow : Bool) : expected Int := Except.ok (cp : Int)

/-! ## The branch a pass of the loop takes, continued -/

/-- Whether a pass of the loop skips whitespace (line 228): the loop is entered and
`should_skip_ws` is true. -/
def at_whitespace {PCtx : Type} (P : parse_context_ops PCtx) (pctx : PCtx) : Bool :=
  P.good pctx && (P.should_skip_ws pctx).1

/-! ### More instances of the library functions -/

/-- The library functions on the texts "inf" and "1e999" with a fast parser that
returns infinity for both, consuming the whole text, without an error code;
`std::from_chars` reports `result_out_of_range` and `strtod` returns `HUGE_VAL` with
`errno` set to `ERANGE`. -/
def inf_env : float_env fp where
  ops := fp.ops
  strtod := fun _ s => ⟨fp.inf false, s.length, ERANGE⟩
  wcstod := fun _ s => ⟨fp.inf false, s.length, ERANGE⟩
  huge := fp.inf false
  std_from_chars := fun _ _ last _ => ⟨fp.finite false 0, last, errc.result_out_of_range⟩
  fast_from_chars := fun _ _ last => ⟨fp.inf false, last, errc.ok⟩
  has_float_charconv := true

/-! ## Counting the commits and the undos of a record -/

/-- The number of commits (`set_rollback_point`) in a record. -/
def commits (tr : List event) : Nat := tr.count event.commit

/-- The number of undos (`reset_to_rollback_point`), successful or not, in a record. -/
def undos (tr : List event) : Nat := tr.count (event.undo true) + tr.count (event.undo false)

section record

variable {Ctx PCtx Range : Type}

/-- The record of calls at the end of a pass of a recording run. -/
def control.record : control (Ctx × List event) PCtx Range → List event
  | control.next s => s.ctx.2
  | control.brk s => s.ctx.2
  | control.ret _ s => s.ctx.2

/-- What a pass of a recording run does to the commits: it records none, and when it
returns from `visit` the result is an error. -/
def commit_step (s : loop_state (Ctx × List event) PCtx) :
    control (Ctx × List event) PCtx Range → Prop
  | control.next s1 => commits s1.ctx.2 = commits s.ctx.2
  | control.brk s1 => commits s1.ctx.2 = commits s.ctx.2
  | control.ret r s1 => commits s1.ctx.2 = commits s.ctx.2 ∧ r.err.good = false

end record

/-! ## The failures that are followed by an undo -/

section failures

variable {Ctx PCtx Arg Range : Type}

/-- Whether the read of the literal branch (line 255) fails, or reads a character that
is not the literal (line 257). -/
def literal_fails (P : parse_context_ops PCtx) (C : context_ops Ctx PCtx Arg Range)
    (ctx : Ctx) (pctx : PCtx) : Bool :=
  match (C.read_char ctx).1 with
  | Except.ok ch => !P.check_literal pctx ch
  | Except.error _ => true

/-- Whether the argument branch calls the dispatcher (the id is parsed, the argument
is found, the format is not exhausted and the argument is not empty, lines 279-317)
and the dispatcher fails (line 320). -/
def dispatch_fails (P : parse_context_ops PCtx) (C : context_ops Ctx PCtx Arg Range)
    (d : Arg → Ctx → PCtx → error × Ctx × PCtx) (ctx : Ctx) (pctx : PCtx) : Bool :=
  match P.parse_arg_id pctx with
  | (Except.error _, _) => false
  | (Except.ok id, pctx1) =>
    match arg_wrapped C ctx pctx1 id with
    | (Except.error _, _) => false
    | (Except.ok arg, pctx2) => P.good pctx2 && C.arg_good arg && !(d arg ctx pctx2).1.good

end failures

/-- An instance of the interface of `visit` over a source that fails at the character
`!` (the whitespace skip returns `source_error` there) and that can put back one
character at most: it is `basic_context.ops`, except that the whitespace skip fails at
a `!` and that `reset_to_rollback_point` fails when the cursor is more than one
character after the rollback point. -/
def faulty_source_ops :
    context_ops basic_context basic_parse_context (Option Nat) (List Char) where
  skip_range_whitespace := fun ctx =>
    if ctx.range.rest.head? = some '!' then (⟨error_code.source_error, "Read failed"⟩, ctx)
    else basic_context.ops.skip_range_whitespace ctx
  read_char := basic_context.ops.read_char
  reset_to_rollback_point := fun ctx =>
    if ctx.range.rollback + 1 < ctx.range.pos then
      (⟨error_code.unrecoverable_source_error, "Putback failed"⟩, ctx)
    else basic_context.ops.reset_to_rollback_point ctx
  set_rollback_point := basic_context.ops.set_rollback_point
  get_return := basic_context.ops.get_return
  is_digit := basic_context.ops.is_digit
  next_arg := basic_context.ops.next_arg
  arg_at := basic_context.ops.arg_at
  arg_named := basic_context.ops.arg_named
  arg_good := basic_context.ops.arg_good
  signed_char := basic_context.ops.signed_char

/-- The library functions on three texts (the unit of the magnitudes is 1).  On "15"
the three parsers agree.  On the hex-float "0x1p-2000", a value below the least
subnormal of every type, `std::from_chars` reports `result_out_of_range`, and `strtod`
and `wcstod` convert the nine characters to zero with `errno` set to `ERANGE`.  On
"1p-2000" `strtod` and `wcstod` convert the one character "1" to 1.0. -/
def underflow_env : float_env fp where
  ops := fp.ops
  strtod := fun _ s =>
    if s = ['0', 'x', '1', 'p', '-', '2', '0', '0', '0'] then ⟨fp.finite false 0, 9, ERANGE⟩
    else if s = ['1', 'p', '-', '2', '0', '0', '0'] then ⟨fp.finite false 1, 1, 0⟩
    else if s = ['1', '5'] then ⟨fp.finite false 15, 2, 0⟩
    else ⟨fp.finite false 0, 0, 0⟩
  wcstod := fun _ s =>
    if s = ['0', 'x', '1', 'p', '-', '2', '0', '0', '0'] then ⟨fp.finite false 0, 9, ERANGE⟩
    else if s = ['1', 'p', '-', '2', '0', '0', '0'] then ⟨fp.finite false 1, 1, 0⟩
    else if s = ['1', '5'] then ⟨fp.finite false 15, 2, 0⟩
    else ⟨fp.finite false 0, 0, 0⟩
  huge := fp.inf false
  std_from_chars := fun s first _ fmt =>
    if s = ['1', '5'] ∧ first = 0 ∧ fmt = chars_format.general then
      ⟨fp.finite false 15, 2, errc.ok⟩
    else if s = ['0', 'x', '1', 'p', '-', '2', '0', '0', '0'] ∧ first = 2
        ∧ fmt = chars_format.hex then
      ⟨fp.finite false 0, 9, errc.result_out_of_range⟩
    else ⟨fp.finite false 0, first, errc.invalid_argument⟩
  fast_from_chars := fun s first _ =>
    if s = ['1', '5'] ∧ first = 0 then ⟨fp.finite false 15, 2, errc.ok⟩
    else ⟨fp.finite false 0, first, errc.invalid_argument⟩
  has_float_charconv := true

/-! ## The integer value reader (integer/value_reader.h)

The header declares the class of the reader, its options and its constructors; the
member `read` is declared there and defined in a file outside the embedding, and is
modelled from the specification. -/

/-- The class `int_value_reader_base` (lines 27-51): the option bits `m_options` and
the base `m_base`. -/
structure int_value_reader_base where
  m_options : Nat
  m_base : Nat
  deriving DecidableEq, Repr

namespace int_value_reader_base

/-- The enumerator `allow_thsep` of `options_type` (line 30). -/
def allow_thsep : Nat := 1

/-- The enumerator `only_unsigned` of `options_type` (line 32). -/
def only_unsigned : Nat := 2

/-- The enumerator `allow_base_prefix` of `options_type` (line 34). -/
def allow_base_prefix : Nat := 4

/-- The member `get_default_options<T>()` (lines 43-47). -/
def get_default_options : Nat := 0

/-- The default constructor (line 37, with the member initialisers of lines 49-50). -/
def init : int_value_reader_base := ⟨0, 0⟩

/-- Modelled from the spec: whether a bit of the option bitset is set,
`m_options & opt`. -/
def has_option (r : int_value_reader_base) (opt : Nat) : Bool := (r.m_options &&& opt) != 0

end int_value_reader_base

namespace int_classic_value_reader

/-- The constructor `int_classic_value_reader(opt, b)` (lines 59-62). -/
def make (opt b : Nat) : int_value_reader_base := ⟨opt, b⟩

/-- The constructor `int_classic_value_reader(detail::tag_type<T>)` (lines 64-68). -/
def of_tag : int_value_reader_base := ⟨int_value_reader_base.get_default_options, 0⟩

/-- Modelled from the spec: step (1) of the integer reader, an optional sign, which
the option unsigned-only rejects: whether the number is negative, the number of
characters consumed and the rest of the source. -/
def read_sign (r : int_value_reader_base) (source : List Char) :
    expected (Bool × Nat × List Char) :=
  match source with
  | c :: rest =>
    if c = '-' ∨ c = '+' then
      if r.has_option int_value_reader_base.only_unsigned then
        Except.error ⟨error_code.invalid_scanned_value, "Sign not allowed"⟩
      else Except.ok (decide (c = '-'), 1, rest)
    else Except.ok (false, 0, source)
  | [] => Except.ok (false, 0, source)

/-- Modelled from the spec: whether a text begins with the character 0 followed by one
of two letters. -/
def starts_with_base_letter (s : List Char) (lower upper : Char) : Bool :=
  decide (s.head? = some '0') &&
    (decide (s.tail.head? = some lower) || decide (s.tail.head? = some upper))

/-- Modelled from the spec: step (2), with the option allow-base-prefix a prefix 0x or
0X is consumed when the base is 0 or 16, a prefix 0b or 0B when the base is 0 or 2,
and with the base 0 a leading 0 before more characters makes the number octal; the
base 0 is otherwise 10.  The effective base, the number of characters consumed and
the rest of the source. -/
def read_base (r : int_value_reader_base) (s : List Char) : Nat × Nat × List Char :=
  if r.has_option int_value_reader_base.allow_base_prefix then
    if starts_with_base_letter s 'x' 'X' ∧ (r.m_base = 0 ∨ r.m_base = 16) then
      (16, 2, s.drop 2)
    else if starts_with_base_letter s 'b' 'B' ∧ (r.m_base = 0 ∨ r.m_base = 2) then
      (2, 2, s.drop 2)
    else if r.m_base = 0 ∧ s.head? = some '0' ∧ 2 ≤ s.length then (8, 0, s)
    else (if r.m_base = 0 then 10 else r.m_base, 0, s)
  else (if r.m_base = 0 then 10 else r.m_base, 0, s)

/-- Modelled from the spec: the characters that can extend the literal, the digits of
the base and, with the option allow-thousands-separator, the separator of the classic
reader, a comma. -/
def read_run (r : int_value_reader_base) (base : Nat) (s : List Char) : List Char :=
  if r.has_option int_value_reader_base.allow_thsep then
    s.takeWhile (fun c => is_digit_of base c || decide (c = ','))
  else s.takeWhile (is_digit_of base)

/-- Modelled from the spec: separators are accepted at group boundaries only, a first
group of one to three digits and then groups of three; the digits of the run, or
`none` for a misplaced separator. -/
def strip_thsep (run : List Char) : Option (List Char) :=
  if run.contains ',' then
    match run.splitOn ',' with
    | [] => none
    | g :: gs =>
      if 1 ≤ g.length ∧ g.length ≤ 3 ∧ gs.all (fun x => decide (x.length = 3)) then
        some (run.filter (fun c => !decide (c = ',')))
      else none
  else some run

/-- Modelled from the spec: the member `int_classic_value_reader<CharT>::read<T>(source,
value)` (declared at lines 70-73) for a target type of least value `lo` and greatest
value `hi`: the sign, the base prefix, the digits, accumulated with the range check of
step (4); no digit is `invalid_scanned_value`.  The result is the iterator, as the
number of characters consumed, and the slot, which an error leaves as it was. -/
def read (r : int_value_reader_base) (lo hi : Int) (source : List Char) (value : Int) :
    expected Nat × Int :=
  match read_sign r source with
  | Except.error e => (Except.error e, value)
  | Except.ok (neg, n1, s1) =>
    match strip_thsep (read_run r (read_base r s1).1 (read_base r s1).2.2) with
    | none => (Except.error ⟨error_code.invalid_scanned_value, "Misplaced separator"⟩, value)
    | some digits =>
      if digits.isEmpty then
        (Except.error ⟨error_code.invalid_scanned_value, "No digits"⟩, value)
      else
        match accumulate (read_base r s1).1 neg lo hi digits 0 with
        | Except.ok n =>
          (Except.ok (n1 + (read_base r s1).2.1 +
            (read_run r (read_base r s1).1 (read_base r s1).2.2).length), n)
        | Except.error e => (Except.error e, value)

end int_classic_value_reader

/-! ### Formatting an integer in a base -/

/-- Modelled from the spec: the character of a digit, 0 to 9 and then the lower-case
letters. -/
def digit_char (d : Nat) : Char := if d < 10 then Char.ofNat (48 + d) else Char.ofNat (87 + d)

/-- Modelled from the spec: the digits of `n` in the base `b` put before `acc`, most
significant first; `fuel` bounds the number of digits. -/
def to_digits_aux (b : Nat) : Nat → Nat → List Char → List Char
  | 0, _, acc => acc
  | fuel + 1, n, acc =>
    if n < b then digit_char n :: acc
    else to_digits_aux b fuel (n / b) (digit_char (n % b) :: acc)

/-- Modelled from the spec: the digits of a natural number in a base, most significant
first, without leading zeros; zero is the digit 0. -/
def to_digits (b n : Nat) : List Char := to_digits_aux b (n + 1) n []

/-- Modelled from the spec: formatting an integer in a base: a minus sign for a
negative number, then the digits of the magnitude, without prefix and separators. -/
def format_int (b : Nat) (n : Int) : List Char :=
  if n < 0 then '-' :: to_digits b n.natAbs else to_digits b n.natAbs

/-! ## The positional index in the arithmetic of the index type -/

/-- The library functions for the type double (the unit of the magnitudes is one half)
on two texts.  On "1.5", parsed from its start in the general format,
`std::from_chars` converts the three characters.  On the hex-float "0x1p3", parsed
from the index 2 in the hex format, it converts "1p3" to 8.0 and stops at the index 5,
the end of the text.  `strtod` converts the whole of either text. -/
def hex_count_env : float_env fp where
  ops := fp.ops
  strtod := fun _ s =>
    if s = ['0', 'x', '1', 'p', '3'] then ⟨fp.finite false 16, 5, 0⟩
    else if s = ['1', '.', '5'] then ⟨fp.finite false 3, 3, 0⟩
    else ⟨fp.finite false 0, 0, 0⟩
  wcstod := fun _ _ => ⟨fp.finite false 0, 0, 0⟩
  huge := fp.inf false
  std_from_chars := fun s first _ fmt =>
    if s = ['0', 'x', '1', 'p', '3'] ∧ first = 2 ∧ fmt = chars_format.hex then
      ⟨fp.finite false 16, 5, errc.ok⟩
    else if s = ['1', '.', '5'] ∧ first = 0 ∧ fmt = chars_format.general then
      ⟨fp.finite false 3, 3, errc.ok⟩
    else ⟨fp.finite false 0, first, errc.invalid_argument⟩
  fast_from_chars := fun s first _ =>
    if s = ['1', '.', '5'] ∧ first = 0 then ⟨fp.finite false 3, 3, errc.ok⟩
    else ⟨fp.finite false 0, first, errc.invalid_argument⟩
  has_float_charconv := true

/-! ## The placeholders of a format -/

section placeholders

variable {Ctx PCtx Arg Range : Type}

/-- What makes a function `ν` of the parse context the number of placeholders the
format still has ahead, told from the operations `visit` calls and not from `visit`:
an exhausted format has none; skipping whitespace of the format and passing a literal
leave the number; a parse context at which both tests of the loop are false stands on
a placeholder, so there is one at least; and once the id of that placeholder is parsed,
its argument is found and the dispatcher succeeds, the parse context as `arg_handled`
and `advance` leave it has one placeholder less ahead.  The property `I` of the
context is one the operations keep and under which the dispatcher is looked at. -/
structure counts_placeholders (P : parse_context_ops PCtx) (C : context_ops Ctx PCtx Arg Range)
    (d : Arg → Ctx → PCtx → error × Ctx × PCtx) (I : Ctx → Prop) (ν : PCtx → Nat) : Prop where
  exhausted : ∀ p, P.good p = false → ν p = 0
  whitespace : ∀ p, at_whitespace P p = true → ν (P.should_skip_ws p).2 = ν p
  literal : ∀ p, at_literal P p = true → ν (P.advance (tested_pctx P p)) = ν p
  placeholder : ∀ p, at_argument P p = true → 1 ≤ ν p
  dispatched : ∀ c p id p1 arg p2, I c → at_argument P p = true →
    P.parse_arg_id (tested_pctx P p) = (Except.ok id, p1) →
    arg_wrapped C c p1 id = (Except.ok arg, p2) →
    P.good p2 = true → C.arg_good arg = true → (d arg c p2).1.good = true →
    ν (if P.good (P.arg_handled (d arg c p2).2.2) then P.advance (P.arg_handled (d arg c p2).2.2)
        else P.arg_handled (d arg c p2).2.2) + 1 = ν p
  keep_skip : ∀ c, I c → I (C.skip_range_whitespace c).2
  keep_read : ∀ c, I c → I (C.read_char c).2
  keep_dispatch : ∀ a c p, I c → I (d a c p).2.1

/-- What one pass through the body does to the number of placeholders ahead: the count
and that number add up to what they added up to, and a pass that returns after a call
of the dispatcher stood on a placeholder. -/
def placeholder_step (I : Ctx → Prop) (ν : PCtx → Nat)
    (s : loop_state (Ctx × List event) PCtx) :
    control (Ctx × List event) PCtx Range → Prop
  | control.next s1 => I s1.ctx.1 ∧ s1.args_read + ν s1.pctx = s.args_read + ν s.pctx
  | control.brk s1 => ν s1.pctx = ν s.pctx
  | control.ret _ s1 => dispatches s1.ctx.2 = dispatches s.ctx.2 ∨ 1 ≤ ν s.pctx

end placeholders

/-- Modelled from the spec: the number of placeholders of a format string, read from
left to right as the parse context reads it.  Outside a placeholder (`inside` false)
two opening braces and two closing braces are an escape, an opening brace followed by
anything else opens a placeholder, and any other character is a literal or whitespace;
inside a placeholder everything up to the next closing brace belongs to it. -/
def placeholders_from : Bool → List Char → Nat
  | _, [] => 0
  | true, c :: rest =>
    if c = '}' then placeholders_from false rest else placeholders_from true rest
  | false, [c] => if c = '{' then 1 else 0
  | false, c :: c2 :: rest =>
    if c = '{' then
      if c2 = '{' then placeholders_from false rest
      else 1 + placeholders_from true (c2 :: rest)
    else if c = '}' ∧ c2 = '}' then placeholders_from false rest
    else placeholders_from false (c2 :: rest)

/-- Modelled from the spec: the number of placeholders of a format string. -/
def placeholders (fmt : List Char) : Nat := placeholders_from false fmt

/-- Modelled from the spec: whether a slot is a handle of a user type. -/
def slot.is_handle : slot → Bool
  | slot.handle _ => true
  | _ => false

/-- Modelled from the spec: a context whose slots are typed slots or empty, none of
them the handle of a user type (a handle brings its own reading of the format spec,
which the model of the handle does not have). -/
def basic_context.no_handle (ctx : basic_context) : Prop :=
  ctx.args.all (fun a => !a.is_handle) = true

/-! # Theorems -/

/-! ## General facts on the loop of `visit` -/


section loop_facts

variable {Ctx PCtx Arg Range : Type}

/-- An invariant of the loop states yields a property of the result: it is enough
that the body keeps the invariant and that every way out of the loop establishes the
property. -/
theorem visit_loop_invariant (P : parse_context_ops PCtx) (C : context_ops Ctx PCtx Arg Range)
    (d : Arg → Ctx → PCtx → error × Ctx × PCtx)
    (Inv : loop_state Ctx PCtx → Prop)
    (Post : scan_result Range × loop_state Ctx PCtx → Prop)
    (hnext : ∀ s s1, Inv s → P.good s.pctx = true → visit_body P C d s = control.next s1 → Inv s1)
    (hbrk : ∀ s s1, Inv s → P.good s.pctx = true → visit_body P C d s = control.brk s1 →
      Post (visit_finish P C s1))
    (hret : ∀ s r s1, Inv s → P.good s.pctx = true → visit_body P C d s = control.ret r s1 →
      Post (r, s1))
    (hfin : ∀ s, Inv s → P.good s.pctx = false → Post (visit_finish P C s)) :
    ∀ (fuel : Nat) (s : loop_state Ctx PCtx) (res : scan_result Range × loop_state Ctx PCtx),
      Inv s → visit_loop P C d fuel s = some res → Post res := by
  intro fuel
  induction fuel with
  | zero => intro s res _ h; simp [visit_loop] at h
  | succ n ih =>
    intro s res hs h
    rw [visit_loop] at h
    by_cases hg : P.good s.pctx = true
    · rw [if_pos hg] at h
      cases hb : visit_body P C d s with
      | next s1 =>
        rw [hb] at h
        exact ih s1 res (hnext s s1 hs hg hb) h
      | brk s1 =>
        rw [hb] at h
        simp only [Option.some.injEq] at h
        rw [← h]
        exact hbrk s s1 hs hg hb
      | ret r s1 =>
        rw [hb] at h
        simp only [Option.some.injEq] at h
        rw [← h]
        exact hret s r s1 hs hg hb
    · rw [if_neg hg] at h
      simp only [Option.some.injEq] at h
      rw [← h]
      exact hfin s hs (by simpa using hg)

/-- One pass through the body moves the parse context forward, or leaves it exhausted. -/
theorem visit_body_progress (P : parse_context_ops PCtx) (C : context_ops Ctx PCtx Arg Range)
    (d : Arg → Ctx → PCtx → error × Ctx × PCtx) (μ : PCtx → Nat)
    (hp : makes_progress P C d μ) (s s1 : loop_state Ctx PCtx)
    (hb : visit_body P C d s = control.next s1) :
    μ s1.pctx < μ s.pctx ∨ (P.good s1.pctx = false ∧ μ s1.pctx ≤ μ s.pctx) := by
  unfold visit_body at hb
  split at hb
  · next pctx1 hws =>
    have h1 := hp.skip_ws s.pctx (by rw [hws])
    rw [hws] at h1
    unfold visit_skip_ws at hb
    split at hb
    split at hb
    · split at hb
      · simp at hb
      · unfold rollback_and_return at hb
        split at hb
        split at hb <;> simp at hb
    · simp only [control.next.injEq] at hb
      subst hb
      left; exact h1
  · next pctx1 hws =>
    have h1 := hp.no_skip_ws s.pctx (by rw [hws])
    rw [hws] at h1
    split at hb
    · next pctx2 hl =>
      have h2 := hp.read_literal pctx1
      rw [hl] at h2
      unfold visit_literal at hb
      split at hb
      · simp at hb
      · next hg =>
        split at hb
        · unfold rollback_and_return at hb
          split at hb
          split at hb <;> simp at hb
        · split at hb
          · unfold rollback_and_return at hb
            split at hb
            split at hb <;> simp at hb
          · simp only [control.next.injEq] at hb
            subst hb
            left
            have h3 := hp.advance pctx2 (by simpa using hg)
            simp only at h2 h1 ⊢
            omega
    · next pctx2 hl =>
      have h2 := hp.read_literal pctx1
      rw [hl] at h2
      unfold visit_argument at hb
      split at hb
      · simp at hb
      · next id pctx3 hid =>
        have h3 := hp.parse_arg_id pctx2
        rw [hid] at h3
        split at hb
        · simp at hb
        · next arg pctx4 harg =>
          have h4 : μ pctx4 ≤ μ pctx3 := by
            unfold arg_wrapped at harg
            split at harg
            · have := hp.next_arg s.ctx pctx3
              rw [harg] at this; exact this
            · split at harg
              · have h := congrArg (fun x => μ x.2) harg
                simp only at h
                rw [← h]
                exact hp.arg_at _ _ _
              · simp only [Prod.mk.injEq] at harg
                rw [← harg.2]
          split at hb
          · simp at hb
          · split at hb
            · simp at hb
            · split at hb
              next ret ctx1 pctx5 hd =>
              have h5 := hp.dispatch arg s.ctx pctx4
              rw [hd] at h5
              have h6 := hp.arg_handled pctx5
              split at hb
              · unfold rollback_and_return at hb
                split at hb
                split at hb <;> simp at hb
              · simp only [control.next.injEq] at hb
                subst hb
                simp only at h1 h2 h3 h4 h5 ⊢
                by_cases hg : P.good (P.arg_handled pctx5) = true
                · left
                  rw [if_pos hg]
                  have h7 := hp.advance _ hg
                  omega
                · right
                  rw [if_neg hg]
                  exact ⟨by simpa using hg, by omega⟩

/-- The loop ends: with more fuel than the measure of the parse context, `visit_loop`
returns a result. -/
theorem visit_loop_terminates (P : parse_context_ops PCtx) (C : context_ops Ctx PCtx Arg Range)
    (d : Arg → Ctx → PCtx → error × Ctx × PCtx) (μ : PCtx → Nat)
    (hp : makes_progress P C d μ) :
    ∀ (fuel : Nat) (s : loop_state Ctx PCtx),
      (μ s.pctx < fuel ∨ (P.good s.pctx = false ∧ 0 < fuel)) →
      ∃ res, visit_loop P C d fuel s = some res := by
  intro fuel
  induction fuel with
  | zero => intro s h; rcases h with h | h <;> omega
  | succ n ih =>
    intro s h
    rw [visit_loop]
    by_cases hg : P.good s.pctx = true
    · rw [if_pos hg]
      have hlt : μ s.pctx < n + 1 := by
        rcases h with h | h
        · exact h
        · rw [h.1] at hg; exact absurd hg (by simp)
      have hpos := hp.advance s.pctx hg
      cases hb : visit_body P C d s with
      | next s1 =>
        simp only
        apply ih
        rcases visit_body_progress P C d μ hp s s1 hb with h1 | h1
        · left; omega
        · right; exact ⟨h1.1, by omega⟩
      | brk s1 => exact ⟨_, rfl⟩
      | ret r s1 => exact ⟨_, rfl⟩
    · rw [if_neg hg]
      exact ⟨_, rfl⟩

end loop_facts

section trace_facts

variable {Ctx PCtx Arg Range : Type}

/-- The body of the loop, run on a recording context, satisfies `dispatch_step`. -/
theorem traced_body_dispatches (P : parse_context_ops PCtx) (C : context_ops Ctx PCtx Arg Range)
    (d : Arg → Ctx → PCtx → error × Ctx × PCtx) (s : loop_state (Ctx × List event) PCtx) :
    dispatch_step C d s (visit_body P (traced C) (traced_visit_arg d) s) := by
  unfold visit_body
  split
  · unfold visit_skip_ws
    split
    next ret ctx1 hs =>
    simp only [traced, Prod.mk.injEq] at hs
    obtain ⟨rfl, rfl⟩ := hs
    split
    · split
      · simp [dispatch_step, dispatches, List.filterMap_append]
      · unfold rollback_and_return
        split
        next rb ctx2 hr =>
        simp only [traced, Prod.mk.injEq] at hr
        obtain ⟨rfl, rfl⟩ := hr
        split <;> simp [dispatch_step, reterror, dispatches, List.filterMap_append]
    · simp [dispatch_step, dispatches, List.filterMap_append]
  · split
    · unfold visit_literal
      split
      · simp [dispatch_step, reterror, dispatches, List.filterMap_append]
      · split
        · next e ctx1 hr =>
          simp only [traced, Prod.mk.injEq] at hr
          obtain ⟨-, rfl⟩ := hr
          unfold rollback_and_return
          split
          next rb ctx2 hr =>
          simp only [traced, Prod.mk.injEq] at hr
          obtain ⟨rfl, rfl⟩ := hr
          split <;> simp [dispatch_step, reterror, dispatches, List.filterMap_append]
        · next ch ctx1 hr =>
          simp only [traced, Prod.mk.injEq] at hr
          obtain ⟨-, rfl⟩ := hr
          split
          · unfold rollback_and_return
            split
            next rb ctx2 hr =>
            simp only [traced, Prod.mk.injEq] at hr
            obtain ⟨rfl, rfl⟩ := hr
            split <;> simp [dispatch_step, reterror, dispatches, List.filterMap_append]
          · simp [dispatch_step, dispatches, List.filterMap_append]
    · unfold visit_argument
      split
      · simp [dispatch_step, reterror, dispatches, List.filterMap_append]
      · split
        · simp [dispatch_step, reterror, dispatches, List.filterMap_append]
        · split
          · simp [dispatch_step, reterror, dispatches, List.filterMap_append]
          · split
            · simp [dispatch_step, reterror, dispatches, List.filterMap_append]
            · split
              next hd =>
              simp only [traced_visit_arg, Prod.mk.injEq] at hd
              obtain ⟨rfl, rfl, rfl⟩ := hd
              split
              · next arg pctx4 _ _ _ _ hbad =>
                have hbad1 : (d arg s.ctx.1 pctx4).1.good = false := by simpa using hbad
                unfold rollback_and_return
                split
                next hr =>
                simp only [traced, Prod.mk.injEq] at hr
                obtain ⟨rfl, rfl⟩ := hr
                split
                · next hrb =>
                  simp only [dispatch_step, reterror, dispatches, List.filterMap_append,
                    true_and]
                  right
                  refine ⟨by simp [hbad1], by simpa using hrb, arg, pctx4, hbad1, rfl, rfl, Or.inr rfl⟩
                · simp only [dispatch_step, reterror, dispatches, List.filterMap_append,
                    true_and]
                  right
                  refine ⟨by simp [hbad1], hbad1, arg, pctx4, hbad1, rfl, rfl, Or.inl rfl⟩
              · next arg pctx4 _ _ _ _ hok =>
                have hok1 : (d arg s.ctx.1 pctx4).1.good = true := by simpa using hok
                show _ ∨ _
                right
                exact ⟨rfl, by simp [dispatches, List.filterMap_append, hok1], arg, pctx4, rfl⟩

/-- The code after the loop leaves the count and the record of dispatcher calls. -/
theorem traced_finish_dispatches (P : parse_context_ops PCtx)
    (C : context_ops Ctx PCtx Arg Range) (s : loop_state (Ctx × List event) PCtx) :
    (visit_finish P (traced C) s).1.value = s.args_read ∧
    dispatches (visit_finish P (traced C) s).2.ctx.2 = dispatches s.ctx.2 := by
  unfold visit_finish
  split <;> simp [reterror, traced, dispatches, List.filterMap_append]

end trace_facts

section count_facts

variable {Ctx PCtx Arg Range : Type}

/-- Recording the calls does not change how the parse context moves. -/
theorem traced_makes_progress (P : parse_context_ops PCtx) (C : context_ops Ctx PCtx Arg Range)
    (d : Arg → Ctx → PCtx → error × Ctx × PCtx) (μ : PCtx → Nat)
    (hp : makes_progress P C d μ) :
    makes_progress P (traced C) (traced_visit_arg d) μ where
  skip_ws := hp.skip_ws
  no_skip_ws := hp.no_skip_ws
  read_literal := hp.read_literal
  advance := hp.advance
  parse_arg_id := hp.parse_arg_id
  arg_handled := hp.arg_handled
  next_arg := fun c p => hp.next_arg c.1 p
  arg_at := fun c p i => hp.arg_at c.1 p i
  dispatch := fun a c p => hp.dispatch a c.1 p

/-- The function `visit` returns: the fuel `μ pctx + 1` is enough. -/
theorem visit_terminates (P : parse_context_ops PCtx) (C : context_ops Ctx PCtx Arg Range)
    (d : Arg → Ctx → PCtx → error × Ctx × PCtx) (μ : PCtx → Nat)
    (hp : makes_progress P C d μ) (fuel : Nat) (ctx : Ctx) (pctx : PCtx)
    (hfuel : μ pctx < fuel) :
    ∃ res, visit P C d fuel ctx pctx = some res := by
  unfold visit
  split
  split
  · exact ⟨_, rfl⟩
  · exact visit_loop_terminates P C d μ hp fuel _ (Or.inl hfuel)

/-- The record of dispatcher calls of a traced run against the count of the result:
all calls succeeded and there are as many as the count says, except that the last
call may have failed, in which case the result is an error. -/
theorem traced_visit_dispatches (P : parse_context_ops PCtx)
    (C : context_ops Ctx PCtx Arg Range) (d : Arg → Ctx → PCtx → error × Ctx × PCtx)
    (fuel : Nat) (ctx : Ctx) (pctx : PCtx)
    (res : scan_result Range × loop_state (Ctx × List event) PCtx)
    (h : visit P (traced C) (traced_visit_arg d) fuel (ctx, []) pctx = some res) :
    dispatches res.2.ctx.2 = List.replicate res.1.value true ∨
    (dispatches res.2.ctx.2 = List.replicate res.1.value true ++ [false] ∧
      res.1.err.good = false) := by
  unfold visit at h
  split at h
  next ret ctx1 hs =>
  simp only [traced, Prod.mk.injEq] at hs
  obtain ⟨rfl, rfl⟩ := hs
  split at h
  · simp only [Option.some.injEq] at h
    subst h
    left
    simp [reterror, dispatches]
  · refine visit_loop_invariant P (traced C) (traced_visit_arg d)
      (fun s => dispatches s.ctx.2 = List.replicate s.args_read true)
      (fun res => dispatches res.2.ctx.2 = List.replicate res.1.value true ∨
        (dispatches res.2.ctx.2 = List.replicate res.1.value true ++ [false] ∧
          res.1.err.good = false))
      ?_ ?_ ?_ ?_ fuel _ res ?_ h
    · intro s s1 hs _ hb
      have := traced_body_dispatches P C d s
      rw [hb] at this
      simp only [dispatch_step] at this
      rcases this with ⟨h1, h2, _⟩ | ⟨h1, h2, _⟩
      · simp only [h1, h2, hs]
      · simp only [h1, h2, hs, List.replicate_succ']
    · intro s s1 hs _ hb
      have := traced_body_dispatches P C d s
      rw [hb] at this
      simp only [dispatch_step] at this
      have hf := traced_finish_dispatches P C s1
      left
      rw [hf.1, hf.2, this.1, this.2.1, hs]
    · intro s r s1 hs _ hb
      have := traced_body_dispatches P C d s
      rw [hb] at this
      simp only [dispatch_step] at this
      rcases this with ⟨h1, h2 | ⟨h2, h3, _⟩⟩
      · left; simp only [h1, h2, hs]
      · right; simp only [h1, h2, hs, h3, and_self]
    · intro s hs _
      have hf := traced_finish_dispatches P C s
      left
      rw [hf.1, hf.2, hs]
    · simp [dispatches]

end count_facts

/-! ## A recording run is the run itself -/

section erase_facts

variable {Ctx PCtx Arg Range : Type}

theorem rollback_and_return_erases (C : context_ops Ctx PCtx Arg Range) (k : Nat)
    (c : Ctx × List event) (p : PCtx) (e : error) :
    erase_control (rollback_and_return (traced C) k c p e)
      = rollback_and_return C k c.1 p e := by
  unfold rollback_and_return
  simp only [traced]
  split <;> rfl

theorem visit_skip_ws_erases (C : context_ops Ctx PCtx Arg Range) (k : Nat)
    (c : Ctx × List event) (p : PCtx) :
    erase_control (visit_skip_ws (traced C) k c p) = visit_skip_ws C k c.1 p := by
  unfold visit_skip_ws
  have h := rollback_and_return_erases C k
    ((traced C).skip_range_whitespace c).2 p ((traced C).skip_range_whitespace c).1
  simp only [traced] at h ⊢
  split
  · split
    · rfl
    · exact h
  · rfl

theorem visit_literal_erases (P : parse_context_ops PCtx) (C : context_ops Ctx PCtx Arg Range)
    (k : Nat) (c : Ctx × List event) (p : PCtx) :
    erase_control (visit_literal P (traced C) k c p) = visit_literal P C k c.1 p := by
  unfold visit_literal
  split
  · rfl
  · have key : (traced C).read_char c
        = ((C.read_char c.1).1, ((C.read_char c.1).2,
            c.2 ++ [event.read_char (C.read_char c.1).1.isOk])) := rfl
    rw [key]
    rcases C.read_char c.1 with ⟨r, c1⟩
    cases r with
    | error e => exact rollback_and_return_erases C k (c1, _) p e
    | ok ch =>
      simp only
      split
      · exact rollback_and_return_erases C k (c1, _) p _
      · rfl

theorem arg_wrapped_traced (C : context_ops Ctx PCtx Arg Range) (c : Ctx × List event)
    (p : PCtx) (id : List Char) :
    arg_wrapped (traced C) c p id = arg_wrapped C c.1 p id := by
  unfold arg_wrapped
  split <;> rfl

theorem visit_argument_erases (P : parse_context_ops PCtx)
    (C : context_ops Ctx PCtx Arg Range) (d : Arg → Ctx → PCtx → error × Ctx × PCtx)
    (k : Nat) (c : Ctx × List event) (p : PCtx) :
    erase_control (visit_argument P (traced C) (traced_visit_arg d) k c p)
      = visit_argument P C d k c.1 p := by
  unfold visit_argument
  split
  · rfl
  · rw [arg_wrapped_traced]
    have hag : (traced C).arg_good = C.arg_good := rfl
    rw [hag]
    split
    · rfl
    · split
      · rfl
      · split
        · rfl
        · next arg pctx2 _ _ _ =>
          have h := rollback_and_return_erases C k (traced_visit_arg d arg c pctx2).2.1
            (traced_visit_arg d arg c pctx2).2.2 (traced_visit_arg d arg c pctx2).1
          simp only [traced_visit_arg] at h ⊢
          split
          · exact h
          · rfl

/-- The body of the loop on a recording context, without the record, is the body of the
loop on the context itself. -/
theorem visit_body_erases (P : parse_context_ops PCtx) (C : context_ops Ctx PCtx Arg Range)
    (d : Arg → Ctx → PCtx → error × Ctx × PCtx) (s : loop_state (Ctx × List event) PCtx) :
    erase_control (visit_body P (traced C) (traced_visit_arg d) s)
      = visit_body P C d (erase s) := by
  unfold visit_body
  simp only [erase]
  split
  · exact visit_skip_ws_erases C _ _ _
  · split
    · exact visit_literal_erases P C _ _ _
    · exact visit_argument_erases P C d _ _ _

theorem visit_finish_erases (P : parse_context_ops PCtx) (C : context_ops Ctx PCtx Arg Range)
    (s : loop_state (Ctx × List event) PCtx) :
    ((visit_finish P (traced C) s).1, erase (visit_finish P (traced C) s).2)
      = visit_finish P C (erase s) := by
  unfold visit_finish
  simp only [erase]
  split <;> rfl

theorem visit_loop_erases (P : parse_context_ops PCtx) (C : context_ops Ctx PCtx Arg Range)
    (d : Arg → Ctx → PCtx → error × Ctx × PCtx) :
    ∀ (fuel : Nat) (s : loop_state (Ctx × List event) PCtx),
      (visit_loop P (traced C) (traced_visit_arg d) fuel s).map (fun r => (r.1, erase r.2))
        = visit_loop P C d fuel (erase s) := by
  intro fuel
  induction fuel with
  | zero => intro s; rfl
  | succ n ih =>
    intro s
    rw [visit_loop, visit_loop]
    have hb := visit_body_erases P C d s
    by_cases hg : P.good s.pctx = true
    · rw [if_pos hg, if_pos (by simpa [erase] using hg)]
      rw [← hb]
      cases visit_body P (traced C) (traced_visit_arg d) s with
      | next s1 => exact ih s1
      | brk s1 =>
        simp only [erase_control, Option.map_some']
        rw [visit_finish_erases]
      | ret r s1 => rfl
    · rw [if_neg hg, if_neg (by simpa [erase] using hg)]
      simp only [Option.map_some']
      rw [visit_finish_erases]

/-- A recording run of `visit`, without the record, is the run of `visit` itself. -/
theorem visit_erases (P : parse_context_ops PCtx) (C : context_ops Ctx PCtx Arg Range)
    (d : Arg → Ctx → PCtx → error × Ctx × PCtx) (fuel : Nat) (ctx : Ctx) (tr : List event)
    (pctx : PCtx) :
    (visit P (traced C) (traced_visit_arg d) fuel (ctx, tr) pctx).map
        (fun r => (r.1, erase r.2))
      = visit P C d fuel ctx pctx := by
  unfold visit
  simp only [traced]
  split
  · rfl
  · exact visit_loop_erases P C d fuel _

end erase_facts

/-! ## The string scan makes progress -/

theorem length_dropWhile_le {α : Type} (f : α → Bool) (l : List α) :
    (l.dropWhile f).length ≤ l.length := by
  induction l with
  | nil => simp
  | cons a t ih =>
    simp only [List.dropWhile_cons]
    split
    · simp only [List.length_cons]; omega
    · simp

theorem spec_body_length (l : List Char) : (spec_body l).length ≤ l.length := by
  unfold spec_body
  split <;> simp

theorem parse_spec_length (allowed : Char → Bool) (s : List Char) (p : basic_parse_context) :
    (parse_spec allowed s p).2.2.str.length ≤ p.str.length := by
  have key : ((spec_body p.str).dropWhile (fun c => !decide (c = '}'))).length
      ≤ p.str.length :=
    Nat.le_trans (length_dropWhile_le _ _) (spec_body_length _)
  unfold parse_spec
  split
  · exact key
  · split <;> exact key

theorem visit_with_make_scanner_length (allowed : Char → Bool)
    (reader : List Char → value → List Char → expected (value × Nat))
    (val : value) (ctx : basic_context) (p : basic_parse_context) :
    (basic_visitor.visit_with (make_scanner allowed reader) val ctx p).2.2.2.str.length
      ≤ p.str.length := by
  have h := parse_spec_length allowed [] p
  unfold basic_visitor.visit_with
  simp only [make_scanner]
  split
  · exact h
  · split <;> exact h

theorem visit_arg_string_scanners_length (arg : Option Nat) (ctx : basic_context)
    (p : basic_parse_context) :
    (visit_arg string_scanners arg ctx p).2.2.str.length ≤ p.str.length := by
  unfold visit_arg
  split
  · simp [basic_visitor.visit_monostate]
  · split
    · simp [basic_visitor.visit_monostate]
    · next a _ =>
      split
      next e a1 ctx1 p1 hc =>
      have : p1 = (basic_visitor.call string_scanners a.to_arg_value ctx p).2.2.2 := by rw [hc]
      rw [this]
      cases a with
      | typed t v =>
        simp only [slot.to_arg_value, basic_visitor.call, basic_visitor.visit]
        cases t with
        | char_type => exact visit_with_make_scanner_length _ _ _ _ _
        | span => exact visit_with_make_scanner_length _ _ _ _ _
        | bool => exact visit_with_make_scanner_length _ _ _ _ _
        | integer t => exact visit_with_make_scanner_length _ _ _ _ _
        | floating t => exact visit_with_make_scanner_length _ _ _ _ _
        | string => exact visit_with_make_scanner_length _ _ _ _ _
        | string_view => exact visit_with_make_scanner_length _ _ _ _ _
      | handle f => simp [slot.to_arg_value, basic_visitor.call, basic_visitor.visit_handle]
      | monostate => simp [slot.to_arg_value, basic_visitor.call, basic_visitor.visit_monostate]

/-- The parse context of a string scan only moves forward, whatever the dispatcher, as
long as the dispatcher does not move it backward. -/
theorem string_parse_context_makes_progress
    (d : Option Nat → basic_context → basic_parse_context →
      error × basic_context × basic_parse_context)
    (hd : ∀ a c p, (d a c p).2.2.str.length ≤ p.str.length) :
    makes_progress basic_parse_context.ops basic_context.ops d (fun p => p.str.length) where
  skip_ws := by
    intro p h
    simp only [basic_parse_context.ops, basic_parse_context.should_skip_ws] at h ⊢
    cases hs : p.str with
    | nil => rw [hs] at h; simp at h
    | cons c t =>
      rw [hs] at h
      by_cases hc : is_space c = true
      · have := length_dropWhile_le is_space t
        simp only [hc, if_true, List.dropWhile_cons, List.length_cons]
        omega
      · simp [hc] at h
  no_skip_ws := by
    intro p _
    simp only [basic_parse_context.ops, basic_parse_context.should_skip_ws]
    split
    · exact Nat.le_refl _
    · split
      · exact length_dropWhile_le _ _
      · exact Nat.le_refl _
  read_literal := by
    intro p
    simp only [basic_parse_context.ops, basic_parse_context.should_read_literal]
    split
    · exact Nat.le_refl _
    · split
      · split <;> simp [basic_parse_context.advance]
      · split <;> simp [basic_parse_context.advance]
  advance := by
    intro p h
    simp only [basic_parse_context.ops, basic_parse_context.good,
      basic_parse_context.advance] at h ⊢
    cases hs : p.str with
    | nil => rw [hs] at h; simp at h
    | cons c t => simp
  parse_arg_id := by
    intro p
    simp only [basic_parse_context.ops, basic_parse_context.parse_arg_id]
    refine Nat.le_trans (length_dropWhile_le _ _) ?_
    simp
  arg_handled := by
    intro p
    simp [basic_parse_context.ops, basic_parse_context.arg_handled]
  next_arg := by
    intro c p
    simp [basic_context.ops, basic_context.next_arg]
  arg_at := by
    intro c p i
    simp [basic_context.ops, basic_context.arg_at]
  dispatch := hd

/-- The string scan with the scanners of the model makes progress. -/
theorem string_scan_makes_progress :
    makes_progress basic_parse_context.ops basic_context.ops (visit_arg string_scanners)
      (fun p => p.str.length) :=
  string_parse_context_makes_progress _ visit_arg_string_scanners_length

/-- The entry point `scan` returns a result for every input. -/
theorem scan_total (input fmt : List Char) (args : List slot) :
    ∃ res, scan input fmt args = some res :=
  visit_terminates _ _ _ _ string_scan_makes_progress _ _ _ (Nat.lt_succ_self _)

/-! ## The rollback and the count -/

theorem replicate_true_ne_false (n k : Nat) :
    (List.replicate n true)[k]? = some false → False := by
  intro h
  rw [List.getElem?_replicate] at h
  split at h <;> simp at h

theorem replicate_true_snoc_false (n k : Nat) :
    (List.replicate n true ++ [false])[k]? = some false → k = n := by
  intro h
  by_cases hk : k < n
  · rw [List.getElem?_append_left (by simpa using hk)] at h
    exact absurd h (replicate_true_ne_false n k)
  · have hk1 : n ≤ k := Nat.le_of_not_lt hk
    rw [List.getElem?_append_right (by simpa using hk1)] at h
    simp only [List.length_replicate] at h
    by_cases h0 : k - n = 0
    · omega
    · have : ([false] : List Bool)[k - n]? = none := by
        apply List.getElem?_eq_none
        simp only [List.length_singleton]
        omega
      rw [this] at h
      simp at h

/-- C6: scanning the input "{}" with the format "{{}}" succeeds with count 0 and consumes
the two characters of the input; the result is the same for every dispatcher and
every list of slots, and the record of the run is the initial whitespace skip, two
successful character reads and the commit: the dispatcher is not called. -/
theorem escaped_braces_match_literally
    (d : Option Nat → basic_context → basic_parse_context →
      error × basic_context × basic_parse_context) (args : List slot) :
    visit basic_parse_context.ops basic_context.ops d 5
        ⟨range_wrapper.make ['{', '}'], args⟩ ⟨['{', '{', '}', '}'], 0⟩
      = some (⟨0, error.none, []⟩, ⟨0, ⟨⟨['{', '}'], 2, 2⟩, args⟩, ⟨[], 0⟩⟩) ∧
    visit basic_parse_context.ops (traced basic_context.ops) (traced_visit_arg d) 5
        (⟨range_wrapper.make ['{', '}'], args⟩, []) ⟨['{', '{', '}', '}'], 0⟩
      = some (⟨0, error.none, []⟩,
          ⟨0, (⟨⟨['{', '}'], 2, 2⟩, args⟩,
            [event.skip_ws true, event.read_char true, event.read_char true, event.commit]),
            ⟨[], 0⟩⟩) := by
  constructor
  · rfl
  · rfl

/-- The initial whitespace skip: when it signals an error, `visit` returns that error
with count 0, without entering the loop and for any fuel. -/
theorem visit_initial_skip_error {Ctx PCtx Arg Range : Type}
    (P : parse_context_ops PCtx) (C : context_ops Ctx PCtx Arg Range)
    (d : Arg → Ctx → PCtx → error × Ctx × PCtx) (fuel : Nat) (ctx : Ctx) (pctx : PCtx)
    (h : (C.skip_range_whitespace ctx).1.good = false) :
    visit P C d fuel ctx pctx =
      some (reterror C 0 (C.skip_range_whitespace ctx).2 (C.skip_range_whitespace ctx).1,
        ⟨0, (C.skip_range_whitespace ctx).2, pctx⟩) := by
  unfold visit
  split
  next ret ctx1 hs =>
  rw [hs] at h
  simp only at h
  rw [hs]
  simp [h]

/-- C5: when a first scan succeeded and left an empty range, scanning that leftover
range with any format, any slots and any dispatcher fails with `end_of_stream` and
count 0. -/
theorem chained_scan_of_exhausted_range
    (d1 d2 : Option Nat → basic_context → basic_parse_context →
      error × basic_context × basic_parse_context)
    (fuel1 fuel2 : Nat) (input fmt1 fmt2 : List Char) (args1 args2 : List slot)
    (r : scan_result (List Char)) (s : loop_state basic_context basic_parse_context)
    (_h1 : visit basic_parse_context.ops basic_context.ops d1 fuel1
      ⟨range_wrapper.make input, args1⟩ ⟨fmt1, 0⟩ = some (r, s))
    (_hok : r.err.good = true) (hempty : r.range = []) :
    ∃ r2 s2, visit basic_parse_context.ops basic_context.ops d2 fuel2
        ⟨range_wrapper.make r.range, args2⟩ ⟨fmt2, 0⟩ = some (r2, s2) ∧
      r2.err.code = error_code.end_of_stream ∧ r2.value = 0 ∧ r2.range = [] := by
  rw [hempty]
  exact ⟨_, _, visit_initial_skip_error _ _ _ _ _ _ (by rfl), by rfl, by rfl, by rfl⟩

/-- C7 (counterexample): with the empty input and the empty format string the scan does
not succeed. -/
theorem empty_scan_counterexample :
    ¬ ∃ r s, scan [] [] [] = some (r, s) ∧ r.err.good = true ∧ r.value = 0 := by
  rintro ⟨r, s, h, hg, -⟩
  have h2 : scan [] [] [] = some (⟨0, ⟨error_code.end_of_stream, "EOF"⟩, []⟩,
      ⟨0, ⟨⟨[], 0, 0⟩, []⟩, ⟨[], 0⟩⟩) := by rfl
  rw [h2] at h
  simp only [Option.some.injEq, Prod.mk.injEq] at h
  rw [← h.1] at hg
  exact absurd hg (by decide)

/-- C7 (as amended): with the empty input and the empty format string the scan fails
with `end_of_stream` and count 0, whatever the slots, the dispatcher and the fuel: the
`end_of_stream` of the initial whitespace skip is returned as the error of the scan and
the range is not committed. -/
theorem empty_input_empty_format_is_end_of_stream
    (d : Option Nat → basic_context → basic_parse_context →
      error × basic_context × basic_parse_context) (fuel : Nat) (args : List slot) :
    visit basic_parse_context.ops basic_context.ops d fuel
        ⟨range_wrapper.make [], args⟩ ⟨[], 0⟩
      = some (⟨0, ⟨error_code.end_of_stream, "EOF"⟩, []⟩,
          ⟨0, ⟨range_wrapper.make [], args⟩, ⟨[], 0⟩⟩) := by
  rw [visit_initial_skip_error _ _ _ _ _ _ (by rfl)]
  rfl

/-- C8: for every typed output slot, when parsing the format spec of the placeholder
fails, `basic_visitor` returns exactly the error of the parse, the slot and the context
(so the input) are unchanged, and the result does not depend on the member `scan` of
the scanner: the value reader is not called. -/
theorem spec_parse_error_is_returned_before_scan {S Val Ctx PCtx : Type}
    (Sc : scanners S Val Ctx PCtx) (t : slot_type) (val : Val) (ctx : Ctx) (pctx : PCtx)
    (h : ((Sc.select t).parse (Sc.select t).init pctx).1.good = false) :
    basic_visitor.visit Sc t val ctx pctx =
      (((Sc.select t).parse (Sc.select t).init pctx).1, val, ctx,
        ((Sc.select t).parse (Sc.select t).init pctx).2.2) ∧
    basic_visitor.call Sc (arg_value.typed t val) ctx pctx =
      (((Sc.select t).parse (Sc.select t).init pctx).1, arg_value.typed t val, ctx,
        ((Sc.select t).parse (Sc.select t).init pctx).2.2) ∧
    ∀ scan1 : S → Val → Ctx → error × Val × Ctx,
      basic_visitor.visit_with ⟨(Sc.select t).init, (Sc.select t).parse, scan1⟩ val ctx pctx
        = basic_visitor.visit Sc t val ctx pctx := by
  have key : ∀ scan1 : S → Val → Ctx → error × Val × Ctx,
      basic_visitor.visit_with ⟨(Sc.select t).init, (Sc.select t).parse, scan1⟩ val ctx pctx
        = (((Sc.select t).parse (Sc.select t).init pctx).1, val, ctx,
          ((Sc.select t).parse (Sc.select t).init pctx).2.2) := by
    intro scan1
    unfold basic_visitor.visit_with
    simp only
    split
    · rfl
    · next hg =>
      exact absurd h (by simpa using hg)
  have hv : basic_visitor.visit Sc t val ctx pctx =
      (((Sc.select t).parse (Sc.select t).init pctx).1, val, ctx,
        ((Sc.select t).parse (Sc.select t).init pctx).2.2) := key (Sc.select t).scan
  refine ⟨hv, ?_, fun scan1 => by rw [key scan1, hv]⟩
  simp only [basic_visitor.call, hv]

/-- Witness of C8: an int slot and the format spec ":q}", a letter the integer scanner
does not accept. -/
theorem spec_parse_error_witness :
    basic_visitor.visit string_scanners (slot_type.integer int_type.int) (value.int 7)
        ⟨range_wrapper.make ['4', '2'], []⟩ ⟨[':', 'q', '}'], 0⟩ =
      (((string_scanners.select (slot_type.integer int_type.int)).parse
          (string_scanners.select (slot_type.integer int_type.int)).init
          ⟨[':', 'q', '}'], 0⟩).1, value.int 7, ⟨range_wrapper.make ['4', '2'], []⟩,
        ((string_scanners.select (slot_type.integer int_type.int)).parse
          (string_scanners.select (slot_type.integer int_type.int)).init
          ⟨[':', 'q', '}'], 0⟩).2.2) ∧
    basic_visitor.call string_scanners
        (arg_value.typed (slot_type.integer int_type.int) (value.int 7))
        ⟨range_wrapper.make ['4', '2'], []⟩ ⟨[':', 'q', '}'], 0⟩ =
      (((string_scanners.select (slot_type.integer int_type.int)).parse
          (string_scanners.select (slot_type.integer int_type.int)).init
          ⟨[':', 'q', '}'], 0⟩).1,
        arg_value.typed (slot_type.integer int_type.int) (value.int 7),
        ⟨range_wrapper.make ['4', '2'], []⟩,
        ((string_scanners.select (slot_type.integer int_type.int)).parse
          (string_scanners.select (slot_type.integer int_type.int)).init
          ⟨[':', 'q', '}'], 0⟩).2.2) ∧
    ∀ scan1 : List Char → value → basic_context → error × value × basic_context,
      basic_visitor.visit_with
        ⟨(string_scanners.select (slot_type.integer int_type.int)).init,
          (string_scanners.select (slot_type.integer int_type.int)).parse, scan1⟩
        (value.int 7) ⟨range_wrapper.make ['4', '2'], []⟩ ⟨[':', 'q', '}'], 0⟩
        = basic_visitor.visit string_scanners (slot_type.integer int_type.int) (value.int 7)
            ⟨range_wrapper.make ['4', '2'], []⟩ ⟨[':', 'q', '}'], 0⟩ :=
  spec_parse_error_is_returned_before_scan string_scanners (slot_type.integer int_type.int)
    (value.int 7) ⟨range_wrapper.make ['4', '2'], []⟩ ⟨[':', 'q', '}'], 0⟩ (by decide)

/-- C9 (what the code does): under an integer presentation type, `read_specs` of a char
slot and of a wchar_t slot return what the integer reader returned, and the slot keeps
the value it had before the call; the value the integer reader parsed into `tmp_value`
is dropped. -/
theorem char_slot_unchanged_under_integer_presentation
    (read_code_unit : List Int → expected Nat)
    (read_default : List Int → Int → expected Nat × Int)
    (int_read_specs : List Int → basic_format_specs → Int → expected Nat × Int)
    (range : List Int) (specs : basic_format_specs) (v wv : Int) (w : Nat)
    (hty : specs.type ≠ presentation_type.none ∧ specs.type ≠ presentation_type.character)
    (hw : w = 16 ∨ w = 32)
    (hv : -128 ≤ v ∧ v ≤ 127)
    (hwv : -(2 : Int) ^ (w - 1) ≤ wv ∧ wv < (2 : Int) ^ (w - 1)) :
    reader_impl_for_char.read_specs read_code_unit int_read_specs range specs v
      = ((int_read_specs range specs 0).1, v) ∧
    reader_impl_for_wchar.read_specs w read_default int_read_specs range specs wv
      = ((int_read_specs range specs 0).1, wv) := by
  constructor
  · unfold reader_impl_for_char.read_specs
    rw [if_neg (by simp [hty.1, hty.2])]
    simp only [to_char, to_signed_char, Prod.mk.injEq, true_and]
    omega
  · unfold reader_impl_for_wchar.read_specs
    rw [if_neg (by simp [hty.1, hty.2])]
    simp only [to_wchar, to_signed, Prod.mk.injEq, true_and]
    rcases hw with rfl | rfl
    · norm_num at hwv ⊢
      omega
    · norm_num at hwv ⊢
      omega

/-- Witness of C9: the presentation `d` on a char slot and on a 32-bit wchar_t slot
that hold 0, the input "65" (code units 54 and 53), an integer reader that parses 65
and returns the iterator 2: both slots still hold 0, not 65. -/
theorem char_slot_unchanged_witness :
    reader_impl_for_char.read_specs (fun _ => Except.ok 1)
        (fun _ _ _ => (Except.ok 2, 65)) [54, 53] ⟨presentation_type.int_decimal, 0⟩ 0
      = (Except.ok 2, 0) ∧
    reader_impl_for_wchar.read_specs 32 (fun _ v => (Except.ok 1, v))
        (fun _ _ _ => (Except.ok 2, 65)) [54, 53] ⟨presentation_type.int_decimal, 0⟩ 0
      = (Except.ok 2, 0) :=
  char_slot_unchanged_under_integer_presentation (fun _ => Except.ok 1)
    (fun _ v => (Except.ok 1, v)) (fun _ _ _ => (Except.ok 2, 65)) [54, 53]
    ⟨presentation_type.int_decimal, 0⟩ 0 0 32 (by decide) (Or.inr rfl) (by decide) (by decide)

/-- C10: for an argument of the handle type, the result of the dispatcher is the result
of the scan routine of the handle on the current context: its error is returned as it
is, the context is the one the routine left, the parse context is untouched (no format
spec is parsed) and no scanner of `Sc` takes part. -/
theorem handle_dispatch_is_its_scan_routine {S Val Ctx PCtx : Type}
    (Sc : scanners S Val Ctx PCtx) (scan : Ctx → error × Ctx) (ctx : Ctx) (pctx : PCtx) :
    basic_visitor.call Sc (arg_value.handle scan) ctx pctx =
      ((scan ctx).1, arg_value.handle scan, (scan ctx).2, pctx) ∧
    basic_visitor.visit_handle scan ctx pctx = ((scan ctx).1, (scan ctx).2, pctx) := by
  constructor <;> rfl

/-! ## Symbolic execution of the string scan, one segment at a time -/

theorem string_scanners_select (t : slot_type) :
    string_scanners.select t = make_scanner (string_allowed t) (string_reader t) := by
  cases t <;> rfl

theorem string_allowed_close (t : slot_type) : string_allowed t '}' = false := by
  cases t <;> rfl

theorem drop_add_of_drop_eq_append {α : Type} (l a b : List α) (n : Nat)
    (h : l.drop n = a ++ b) : l.drop (n + a.length) = b := by
  rw [← List.drop_drop, h, List.drop_left]

theorem dropWhile_append_of_all {α : Type} (f : α → Bool) (a b : List α)
    (ha : a.all f = true) : (a ++ b).dropWhile f = b.dropWhile f := by
  induction a with
  | nil => rfl
  | cons x t ih =>
    simp only [List.all_cons, Bool.and_eq_true] at ha
    simp only [List.cons_append, List.dropWhile_cons, ha.1, if_true]
    exact ih ha.2

theorem takeWhile_append_of_all {α : Type} (f : α → Bool) (a b : List α)
    (ha : a.all f = true) : (a ++ b).takeWhile f = a ++ b.takeWhile f := by
  induction a with
  | nil => rfl
  | cons x t ih =>
    simp only [List.all_cons, Bool.and_eq_true] at ha
    simp only [List.cons_append, List.takeWhile_cons, ha.1, if_true]
    rw [ih ha.2]

theorem dropWhile_space_of_no_leading (l : List Char) (h : no_leading_space l = true) :
    l.dropWhile is_space = l := by
  cases l with
  | nil => rfl
  | cons c t =>
    simp only [no_leading_space, Bool.not_eq_true'] at h
    simp [List.dropWhile_cons, h]

theorem takeWhile_space_of_no_leading (l : List Char) (h : no_leading_space l = true) :
    l.takeWhile is_space = [] := by
  cases l with
  | nil => rfl
  | cons c t =>
    simp only [no_leading_space, Bool.not_eq_true'] at h
    simp [List.takeWhile_cons, h]

theorem no_leading_of_starts {l : List Char} (h : starts_with_non_space l = true) :
    no_leading_space l = true := by
  cases l with
  | nil => simp [starts_with_non_space] at h
  | cons c t => exact h

/-- One pass of the loop over a literal segment. -/
theorem visit_body_literal
    (d : Option Nat → basic_context → basic_parse_context →
      error × basic_context × basic_parse_context)
    (c : Char) (F I src : List Char) (pos rb k n : Nat) (args : List slot)
    (hc : is_space c = false) (hsrc : src.drop pos = c :: I) :
    visit_body basic_parse_context.ops basic_context.ops d
        ⟨k, ⟨⟨src, pos, rb⟩, args⟩, ⟨(segment.literal c).format ++ F, n⟩⟩
      = control.next ⟨k, ⟨⟨src, pos + 1, rb⟩, args⟩, ⟨F, n⟩⟩ := by
  by_cases h1 : c = '{'
  · subst h1
    simp [visit_body, visit_literal, segment.format, basic_parse_context.ops,
      basic_parse_context.should_skip_ws, basic_parse_context.should_read_literal,
      basic_parse_context.advance, basic_parse_context.good,
      basic_parse_context.check_literal, basic_context.ops, range_wrapper.read_char,
      range_wrapper.rest, hsrc, hc]
  · by_cases h2 : c = '}'
    · subst h2
      simp [visit_body, visit_literal, segment.format, basic_parse_context.ops,
        basic_parse_context.should_skip_ws, basic_parse_context.should_read_literal,
        basic_parse_context.advance, basic_parse_context.good,
        basic_parse_context.check_literal, basic_context.ops, range_wrapper.read_char,
        range_wrapper.rest, hsrc, hc]
    · simp [visit_body, visit_literal, segment.format, basic_parse_context.ops,
        basic_parse_context.should_skip_ws, basic_parse_context.should_read_literal,
        basic_parse_context.advance, basic_parse_context.good,
        basic_parse_context.check_literal, basic_context.ops, range_wrapper.read_char,
        range_wrapper.rest, hsrc, hc, h1, h2]

/-- One pass of the loop over a run of whitespace of the format. -/
theorem visit_body_space
    (d : Option Nat → basic_context → basic_parse_context →
      error × basic_context × basic_parse_context)
    (fsep isep F I src : List Char) (pos rb k n : Nat) (args : List slot)
    (hf1 : fsep ≠ []) (hf2 : fsep.all is_space = true) (hi : isep.all is_space = true)
    (hF : no_leading_space F = true) (hI : starts_with_non_space I = true)
    (hsrc : src.drop pos = isep ++ I) :
    visit_body basic_parse_context.ops basic_context.ops d
        ⟨k, ⟨⟨src, pos, rb⟩, args⟩, ⟨(segment.space fsep isep).format ++ F, n⟩⟩
      = control.next ⟨k, ⟨⟨src, pos + isep.length, rb⟩, args⟩, ⟨F, n⟩⟩ := by
  have hd1 : (fsep ++ F).dropWhile is_space = F := by
    rw [dropWhile_append_of_all _ _ _ hf2, dropWhile_space_of_no_leading _ hF]
  have hd2 : (isep ++ I).dropWhile is_space = I := by
    rw [dropWhile_append_of_all _ _ _ hi, dropWhile_space_of_no_leading _ (no_leading_of_starts hI)]
  have hd3 : (isep ++ I).takeWhile is_space = isep := by
    rw [takeWhile_append_of_all _ _ _ hi, takeWhile_space_of_no_leading _ (no_leading_of_starts hI)]
    simp
  have hI2 : I.isEmpty = false := by
    cases I with
    | nil => simp [starts_with_non_space] at hI
    | cons c t => rfl
  cases hfs : fsep with
  | nil => exact absurd hfs hf1
  | cons c t =>
    have hc : is_space c = true := by
      rw [hfs] at hf2
      simp only [List.all_cons, Bool.and_eq_true] at hf2
      exact hf2.1
    rw [hfs] at hd1
    simp only [visit_body, segment.format, basic_parse_context.ops,
      basic_parse_context.should_skip_ws, List.cons_append, hc, if_true, hd1,
      visit_skip_ws, basic_context.ops, range_wrapper.skip_range_whitespace,
      range_wrapper.rest, hsrc, hd2, hd3, hI2]
    simp [error.none, error.good]
    exact hd1

theorem all_not_close_of_allowed (t : slot_type) (opts : List Char)
    (h : opts.all (string_allowed t) = true) :
    opts.all (fun c => !decide (c = '}')) = true := by
  rw [List.all_eq_true] at h ⊢
  intro c hc
  have h1 := h c hc
  by_cases h2 : c = '}'
  · subst h2
    rw [string_allowed_close] at h1
    exact absurd h1 (by simp)
  · simp [h2]

/-- The spec parser on the text of a placeholder, from the colon or the closing brace
on: the option letters are accepted and the cursor is left on the closing brace. -/
theorem parse_spec_placeholder (t : slot_type) (opts F : List Char) (n : Nat)
    (h : opts.all (string_allowed t) = true) :
    parse_spec (string_allowed t) [] ⟨':' :: (opts ++ '}' :: F), n⟩
      = (error.none, opts, ⟨'}' :: F, n⟩) ∧
    parse_spec (string_allowed t) [] ⟨'}' :: F, n⟩ = (error.none, [], ⟨'}' :: F, n⟩) := by
  have h1 := all_not_close_of_allowed t opts h
  have hd : (opts ++ '}' :: F).dropWhile (fun c => !decide (c = '}')) = '}' :: F := by
    rw [dropWhile_append_of_all _ _ _ h1]
    simp [List.dropWhile_cons]
  have ht : (opts ++ '}' :: F).takeWhile (fun c => !decide (c = '}')) = opts := by
    rw [takeWhile_append_of_all _ _ _ h1]
    simp [List.takeWhile_cons]
  constructor
  · simp only [parse_spec, spec_body, hd, ht, h]
    simp
  · simp [parse_spec, spec_body, List.dropWhile_cons, List.takeWhile_cons]

/-- One pass of the loop over a placeholder. -/
theorem visit_body_placeholder
    (opts : List Char) (ty : slot_type) (old new : value) (token F I src : List Char)
    (pos rb k n : Nat) (args : List slot)
    (hopts : opts.all (string_allowed ty) = true)
    (hread : string_reader ty opts old (token ++ I) = Except.ok (new, token.length))
    (hsrc : src.drop pos = token ++ I)
    (harg : args.get? n = some (slot.typed ty old)) :
    visit_body basic_parse_context.ops basic_context.ops (visit_arg string_scanners)
        ⟨k, ⟨⟨src, pos, rb⟩, args⟩,
          ⟨(segment.placeholder opts ty old token new).format ++ F, n⟩⟩
      = control.next ⟨k + 1, ⟨⟨src, pos + token.length, rb⟩,
          args.set n (slot.typed ty new)⟩, ⟨F, n + 1⟩⟩ := by
  have hp := parse_spec_placeholder ty opts F (n + 1) hopts
  have harg1 : args[n]? = some (slot.typed ty old) := by simpa using harg
  by_cases ho : opts = []
  · subst ho
    simp [visit_body, visit_argument, arg_wrapped, segment.format, basic_parse_context.ops,
      basic_parse_context.should_skip_ws, basic_parse_context.should_read_literal,
      basic_parse_context.advance, basic_parse_context.good,
      basic_parse_context.parse_arg_id, basic_parse_context.arg_handled,
      basic_context.ops, basic_context.next_arg, basic_context.get_arg, harg1,
      slot.is_monostate, is_space, visit_arg, slot.to_arg_value, basic_visitor.call,
      basic_visitor.visit, basic_visitor.visit_with, string_scanners_select, make_scanner,
      hp.2, range_wrapper.rest, hsrc, hread, error.none, error.good, slot.store,
      List.takeWhile_cons, List.dropWhile_cons, rollback_and_return]
  · have hne : opts.isEmpty = false := by
      cases opts with
      | nil => exact absurd rfl ho
      | cons c t => rfl
    simp [visit_body, visit_argument, arg_wrapped, segment.format, basic_parse_context.ops,
      basic_parse_context.should_skip_ws, basic_parse_context.should_read_literal,
      basic_parse_context.advance, basic_parse_context.good,
      basic_parse_context.parse_arg_id, basic_parse_context.arg_handled,
      basic_context.ops, basic_context.next_arg, basic_context.get_arg, harg1,
      slot.is_monostate, is_space, visit_arg, slot.to_arg_value, basic_visitor.call,
      basic_visitor.visit, basic_visitor.visit_with, string_scanners_select, make_scanner,
      hp.1, range_wrapper.rest, hsrc, hread, error.none, error.good, slot.store,
      List.takeWhile_cons, List.dropWhile_cons, rollback_and_return, hne]

theorem get?_append_cons {α : Type} (l : List α) (x : α) (r : List α) :
    (l ++ x :: r).get? l.length = some x := by
  induction l with
  | nil => rfl
  | cons a t ih => simpa using ih

theorem set_append_cons {α : Type} (l : List α) (x y : α) (r : List α) :
    (l ++ x :: r).set l.length y = (l ++ [y]) ++ r := by
  induction l with
  | nil => rfl
  | cons a t ih => simp

theorem segment_format_pos (g : segment) (gs : List segment) (hok : segments_ok (g :: gs)) :
    0 < g.format.length := by
  cases g with
  | literal c =>
    simp only [segment.format]
    split
    · simp
    · split <;> simp
  | space fsep isep =>
    simp only [segments_ok] at hok
    simp only [segment.format]
    exact List.length_pos.mpr hok.1
  | placeholder opts ty old token new =>
    simp only [segment.format]
    split <;> simp

/-- The loop of a string scan over a list of segments: every segment takes one pass,
the input of the segments is consumed, every placeholder stores the value of its token
in its slot, and the count goes up by the number of placeholders. -/
theorem visit_loop_segments (todo : List segment) :
    ∀ (fuel k pos rb : Nat) (src : List Char) (done : List slot),
      segments_ok todo → src.drop pos = input_of todo → (format_of todo).length < fuel →
      visit_loop basic_parse_context.ops basic_context.ops (visit_arg string_scanners) fuel
          ⟨k, ⟨⟨src, pos, rb⟩, done ++ slots_before todo⟩, ⟨format_of todo, done.length⟩⟩
        = some (⟨k + (slots_before todo).length, error.none, []⟩,
            ⟨k + (slots_before todo).length,
              ⟨⟨src, pos + (input_of todo).length, pos + (input_of todo).length⟩,
                done ++ slots_after todo⟩,
              ⟨[], done.length + (slots_before todo).length⟩⟩) := by
  induction todo with
  | nil =>
    intro fuel k pos rb src done _ hsrc hfuel
    cases fuel with
    | zero => exact absurd hfuel (Nat.not_lt_zero _)
    | succ f =>
      simp only [input_of] at hsrc
      simp [visit_loop, visit_finish, format_of, input_of, slots_before, slots_after,
        basic_parse_context.ops, basic_parse_context.good, basic_context.ops,
        range_wrapper.set_rollback_point, range_wrapper.rest, hsrc]
  | cons g gs ih =>
    intro fuel k pos rb src done hok hsrc hfuel
    cases fuel with
    | zero => exact absurd hfuel (Nat.not_lt_zero _)
    | succ f =>
      have hgood : basic_parse_context.ops.good ⟨format_of (g :: gs), done.length⟩ = true := by
        have hpos : 0 < g.format.length := segment_format_pos g gs hok
        simp only [basic_parse_context.ops, basic_parse_context.good, format_of]
        cases hf : g.format ++ format_of gs with
        | nil =>
          have := congrArg List.length hf
          simp only [List.length_append, List.length_nil] at this
          omega
        | cons c t => rfl
      have hlen : (format_of gs).length < f := by
        have hpos : 0 < g.format.length := segment_format_pos g gs hok
        simp only [format_of, List.length_append] at hfuel
        omega
      rw [visit_loop, if_pos hgood]
      cases g with
      | literal c =>
        simp only [segments_ok] at hok
        simp only [input_of, segment.input] at hsrc
        have hb := visit_body_literal (visit_arg string_scanners) c (format_of gs)
          (input_of gs) src pos rb k done.length (done ++ slots_before (segment.literal c :: gs))
          hok.1 hsrc
        simp only [format_of]
        rw [hb]
        have hs : slots_before (segment.literal c :: gs) = slots_before gs := rfl
        have ha : slots_after (segment.literal c :: gs) = slots_after gs := rfl
        simp only [hs, ha]
        rw [ih f k (pos + 1) rb src done hok.2
          (drop_add_of_drop_eq_append src [c] (input_of gs) pos hsrc) hlen]
        simp only [input_of, segment.input, List.length_append, List.length_singleton,
          List.length_cons, List.length_nil]
        simp only [Nat.add_assoc, Nat.add_comm 1]
      | space fsep isep =>
        simp only [segments_ok] at hok
        simp only [input_of, segment.input] at hsrc
        have hb := visit_body_space (visit_arg string_scanners) fsep isep (format_of gs)
          (input_of gs) src pos rb k done.length (done ++ slots_before (segment.space fsep isep :: gs))
          hok.1 hok.2.1 hok.2.2.1 hok.2.2.2.1 hok.2.2.2.2.1 hsrc
        simp only [format_of]
        rw [hb]
        have hs : slots_before (segment.space fsep isep :: gs) = slots_before gs := rfl
        have ha : slots_after (segment.space fsep isep :: gs) = slots_after gs := rfl
        simp only [hs, ha]
        rw [ih f k (pos + isep.length) rb src done hok.2.2.2.2.2
          (drop_add_of_drop_eq_append src isep (input_of gs) pos hsrc) hlen]
        simp only [input_of, segment.input, List.length_append, Nat.add_assoc]
      | placeholder opts ty old token new =>
        simp only [segments_ok] at hok
        simp only [input_of, segment.input] at hsrc
        have hs : slots_before (segment.placeholder opts ty old token new :: gs)
            = slot.typed ty old :: slots_before gs := rfl
        have ha : slots_after (segment.placeholder opts ty old token new :: gs)
            = slot.typed ty new :: slots_after gs := rfl
        have hget : (done ++ slot.typed ty old :: slots_before gs).get? done.length
            = some (slot.typed ty old) := get?_append_cons _ _ _
        have hb := visit_body_placeholder opts ty old new token (format_of gs)
          (input_of gs) src pos rb k done.length (done ++ slot.typed ty old :: slots_before gs)
          hok.1 hok.2.1 hsrc hget
        simp only [format_of, hs, ha]
        rw [hb]
        simp only []
        have hset : (done ++ slot.typed ty old :: slots_before gs).set done.length
            (slot.typed ty new) = (done ++ [slot.typed ty new]) ++ slots_before gs :=
          set_append_cons _ _ _ _
        rw [hset]
        have hl : done.length + 1 = (done ++ [slot.typed ty new]).length := by simp
        rw [hl]
        rw [ih f (k + 1) (pos + token.length) rb src (done ++ [slot.typed ty new]) hok.2.2
          (drop_add_of_drop_eq_append src token (input_of gs) pos hsrc) hlen]
        simp only [input_of, segment.input, List.length_append, List.length_cons,
          List.length_singleton, List.length_nil, List.append_assoc, List.singleton_append,
          Nat.add_assoc, Nat.add_comm 1]

/-- The string scan of the input of a list of segments with their format string, into
their slots: it succeeds, the count is the number of placeholders, the slots hold the
values of the tokens, the input is consumed and the source is the input, unchanged. -/
theorem scan_segments (gs : List segment) (hlead : starts_with_non_space (input_of gs) = true)
    (hok : segments_ok gs) :
    scan (input_of gs) (format_of gs) (slots_before gs)
      = some (⟨(slots_before gs).length, error.none, []⟩,
          ⟨(slots_before gs).length,
            ⟨⟨input_of gs, (input_of gs).length, (input_of gs).length⟩, slots_after gs⟩,
            ⟨[], (slots_before gs).length⟩⟩) := by
  have hd : (input_of gs).dropWhile is_space = input_of gs :=
    dropWhile_space_of_no_leading _ (no_leading_of_starts hlead)
  have ht : (input_of gs).takeWhile is_space = [] :=
    takeWhile_space_of_no_leading _ (no_leading_of_starts hlead)
  have he : (input_of gs).isEmpty = false := by
    cases h : input_of gs with
    | nil => rw [h] at hlead; simp [starts_with_non_space] at hlead
    | cons c t => rfl
  have hskip : basic_context.ops.skip_range_whitespace
      ⟨range_wrapper.make (input_of gs), slots_before gs⟩
      = (error.none, ⟨range_wrapper.make (input_of gs), slots_before gs⟩) := by
    simp only [basic_context.ops, range_wrapper.skip_range_whitespace, range_wrapper.make,
      range_wrapper.rest, List.drop_zero, hd, ht, he, List.length_nil, Nat.add_zero]
    rfl
  have h := visit_loop_segments gs ((format_of gs).length + 1) 0 0 0 (input_of gs) [] hok
    (by simp) (Nat.lt_succ_self _)
  simp only [List.nil_append, List.length_nil, Nat.zero_add] at h
  unfold scan visit
  rw [hskip]
  exact h

/-! ## Scans of whole formats -/

theorem starts_with_non_space_append (a b : List Char)
    (h : starts_with_non_space a = true) : starts_with_non_space (a ++ b) = true := by
  cases a with
  | nil => simp [starts_with_non_space] at h
  | cons c t => exact h

theorem format_of_gap_segments (gs : List (List Char × List Char × token_slot)) :
    format_of (gap_segments gs) = placeholder_format gs := by
  induction gs with
  | nil => rfl
  | cons g gs ih =>
    simp only [gap_segments, format_of, segment.format, placeholder_format, ih]
    simp

theorem input_of_gap_segments (gs : List (List Char × List Char × token_slot)) :
    input_of (gap_segments gs) = token_input gs := by
  induction gs with
  | nil => rfl
  | cons g gs ih =>
    simp only [gap_segments, input_of, segment.input, token_input, ih]

theorem slots_before_gap_segments (gs : List (List Char × List Char × token_slot)) :
    slots_before (gap_segments gs) = gs.map (fun g => g.2.2.slot_before) := by
  induction gs with
  | nil => rfl
  | cons g gs ih =>
    simp only [slots_before] at ih
    simp [gap_segments, slots_before, segment.slot_before, token_slot.slot_before, ih]

theorem slots_after_gap_segments (gs : List (List Char × List Char × token_slot)) :
    slots_after (gap_segments gs) = gs.map (fun g => g.2.2.slot_after) := by
  induction gs with
  | nil => rfl
  | cons g gs ih =>
    simp only [slots_after] at ih
    simp [gap_segments, slots_after, segment.slot_after, token_slot.slot_after, ih]

theorem segments_ok_gap_segments (gs : List (List Char × List Char × token_slot))
    (h : gaps_ok gs) : segments_ok (gap_segments gs) := by
  induction gs with
  | nil => trivial
  | cons g gs ih =>
    simp only [gaps_ok] at h
    obtain ⟨h1, h2, _, h4, h5, h6, h7⟩ := h
    simp only [gap_segments, segments_ok]
    refine ⟨h1, h2, h4, ?_, ?_, ?_, ?_, ih h7⟩
    · simp only [format_of, segment.format]
      rfl
    · simp only [input_of, segment.input]
      exact starts_with_non_space_append _ _ h5
    · rfl
    · rw [input_of_gap_segments]
      exact h6

/-- C3: for a format made of placeholders `{}` separated by whitespace and an input
made of as many tokens separated by whitespace, each token valid for the type of its
slot, the scan succeeds, the count is the number of tokens, the whole input is consumed
and the slot number i holds the value of the token number i. -/
theorem whitespace_separated_tokens_scan (first : token_slot)
    (rest : List (List Char × List Char × token_slot)) (h : tokens_ok first rest) :
    ∃ s, scan (first.token ++ token_input rest) ('{' :: '}' :: placeholder_format rest)
        (first.slot_before :: rest.map (fun g => g.2.2.slot_before))
      = some (⟨rest.length + 1, error.none, []⟩, s) ∧
      s.ctx.args = first.slot_after :: rest.map (fun g => g.2.2.slot_after) := by
  obtain ⟨h1, h2, h3⟩ := h
  have hok : segments_ok
      (segment.placeholder [] first.type first.old first.token first.new :: gap_segments rest) := by
    simp only [segments_ok]
    refine ⟨rfl, ?_, segments_ok_gap_segments rest h3⟩
    rw [input_of_gap_segments]
    exact h2
  have hlead : starts_with_non_space (input_of
      (segment.placeholder [] first.type first.old first.token first.new :: gap_segments rest))
      = true := by
    simp only [input_of, segment.input]
    exact starts_with_non_space_append _ _ h1
  have hs := scan_segments _ hlead hok
  have e1 : input_of (segment.placeholder [] first.type first.old first.token first.new ::
      gap_segments rest) = first.token ++ token_input rest := by
    simp only [input_of, segment.input, input_of_gap_segments]
  have e2 : format_of (segment.placeholder [] first.type first.old first.token first.new ::
      gap_segments rest) = '{' :: '}' :: placeholder_format rest := by
    simp only [format_of, segment.format, format_of_gap_segments]
    rfl
  have e3 : slots_before (segment.placeholder [] first.type first.old first.token first.new ::
      gap_segments rest) = first.slot_before :: rest.map (fun g => g.2.2.slot_before) := by
    have := slots_before_gap_segments rest
    simp only [slots_before] at this
    simp [slots_before, segment.slot_before, token_slot.slot_before, this]
  have e4 : slots_after (segment.placeholder [] first.type first.old first.token first.new ::
      gap_segments rest) = first.slot_after :: rest.map (fun g => g.2.2.slot_after) := by
    have := slots_after_gap_segments rest
    simp only [slots_after] at this
    simp [slots_after, segment.slot_after, token_slot.slot_after, this]
  rw [e1, e2, e3, e4] at hs
  simp only [List.length_cons, List.length_map] at hs
  exact ⟨_, hs, rfl⟩

/-- Witness of C3: the input "42 foo 3.14" with the format "{} {} {}" into an int, a
string and a double: success, count 3, values 42, "foo" and 3.14. -/
theorem simple_scan_witness :
    ∃ s, scan ['4', '2', ' ', 'f', 'o', 'o', ' ', '3', '.', '1', '4']
        ['{', '}', ' ', '{', '}', ' ', '{', '}']
        [slot.typed (slot_type.integer int_type.int) (value.int 0),
          slot.typed slot_type.string (value.str []),
          slot.typed (slot_type.floating float_type.double) (value.flt ⟨0, 0⟩)]
      = some (⟨3, error.none, []⟩, s) ∧
      s.ctx.args = [slot.typed (slot_type.integer int_type.int) (value.int 42),
        slot.typed slot_type.string (value.str ['f', 'o', 'o']),
        slot.typed (slot_type.floating float_type.double) (value.flt ⟨314, -2⟩)] :=
  whitespace_separated_tokens_scan
    ⟨slot_type.integer int_type.int, value.int 0, ['4', '2'], value.int 42⟩
    [([' '], [' '], ⟨slot_type.string, value.str [], ['f', 'o', 'o'],
        value.str ['f', 'o', 'o']⟩),
      ([' '], [' '], ⟨slot_type.floating float_type.double, value.flt ⟨0, 0⟩,
        ['3', '.', '1', '4'], value.flt ⟨314, -2⟩⟩)]
    ⟨rfl, rfl, by decide, rfl, by decide, rfl, rfl, rfl,
      by decide, rfl, by decide, rfl, rfl, rfl, trivial⟩

theorem slots_before_length (gs : List segment) :
    (slots_before gs).length = gs.countP segment.is_placeholder := by
  induction gs with
  | nil => rfl
  | cons g gs ih =>
    simp only [slots_before] at ih
    cases g <;>
      simp [slots_before, segment.slot_before, segment.is_placeholder, List.countP_cons, ih]

/-- C4: for a format made of literal characters (a brace written twice), runs of
whitespace and placeholders, and the input made of the same literal characters, of
whitespace and of a valid token for every placeholder, the scan succeeds and consumes
the input; the count is the number of placeholders, so literal text and escaped braces
are matched without being counted; the slots hold the values of the tokens and the
source is the input, unchanged. -/
theorem literal_text_is_matched_and_not_counted (gs : List segment)
    (hlead : starts_with_non_space (input_of gs) = true) (hok : segments_ok gs) :
    ∃ s, scan (input_of gs) (format_of gs) (slots_before gs)
      = some (⟨gs.countP segment.is_placeholder, error.none, []⟩, s) ∧
      s.ctx.args = slots_after gs ∧ s.ctx.range.src = input_of gs := by
  have h := scan_segments gs hlead hok
  rw [slots_before_length] at h
  exact ⟨_, h, rfl, rfl⟩

/-- Witness of C4: the input "test {} 42 3.14 foobar true" with the format
"test {{}} {} {} {} {:a}" into an int, a double, a character buffer of size 6 and a
bool: success, count 4, values 42, 3.14, "foobar" and true, source unchanged. -/
theorem general_scan_witness :
    ∃ s, scan
        ['t', 'e', 's', 't', ' ', '{', '}', ' ', '4', '2', ' ', '3', '.', '1', '4', ' ',
          'f', 'o', 'o', 'b', 'a', 'r', ' ', 't', 'r', 'u', 'e']
        ['t', 'e', 's', 't', ' ', '{', '{', '}', '}', ' ', '{', '}', ' ', '{', '}', ' ',
          '{', '}', ' ', '{', ':', 'a', '}']
        [slot.typed (slot_type.integer int_type.int) (value.int 0),
          slot.typed (slot_type.floating float_type.double) (value.flt ⟨0, 0⟩),
          slot.typed slot_type.span (value.buf [Char.ofNat 0, Char.ofNat 0, Char.ofNat 0,
            Char.ofNat 0, Char.ofNat 0, Char.ofNat 0]),
          slot.typed slot_type.bool (value.bool false)]
      = some (⟨4, error.none, []⟩, s) ∧
      s.ctx.args = [slot.typed (slot_type.integer int_type.int) (value.int 42),
        slot.typed (slot_type.floating float_type.double) (value.flt ⟨314, -2⟩),
        slot.typed slot_type.span (value.buf ['f', 'o', 'o', 'b', 'a', 'r']),
        slot.typed slot_type.bool (value.bool true)] ∧
      s.ctx.range.src =
        ['t', 'e', 's', 't', ' ', '{', '}', ' ', '4', '2', ' ', '3', '.', '1', '4', ' ',
          'f', 'o', 'o', 'b', 'a', 'r', ' ', 't', 'r', 'u', 'e'] :=
  literal_text_is_matched_and_not_counted
    [segment.literal 't', segment.literal 'e', segment.literal 's', segment.literal 't',
      segment.space [' '] [' '], segment.literal '{', segment.literal '}',
      segment.space [' '] [' '],
      segment.placeholder [] (slot_type.integer int_type.int) (value.int 0) ['4', '2']
        (value.int 42),
      segment.space [' '] [' '],
      segment.placeholder [] (slot_type.floating float_type.double) (value.flt ⟨0, 0⟩)
        ['3', '.', '1', '4'] (value.flt ⟨314, -2⟩),
      segment.space [' '] [' '],
      segment.placeholder [] slot_type.span (value.buf [Char.ofNat 0, Char.ofNat 0,
        Char.ofNat 0, Char.ofNat 0, Char.ofNat 0, Char.ofNat 0])
        ['f', 'o', 'o', 'b', 'a', 'r'] (value.buf ['f', 'o', 'o', 'b', 'a', 'r']),
      segment.space [' '] [' '],
      segment.placeholder ['a'] slot_type.bool (value.bool false) ['t', 'r', 'u', 'e']
        (value.bool true)]
    (by decide)
    ⟨by decide, by decide, by decide, by decide,
      by decide, rfl, rfl, rfl, rfl,
      by decide, by decide,
      by decide, rfl, rfl, rfl, rfl,
      rfl, rfl,
      by decide, rfl, rfl, rfl, rfl,
      rfl, rfl,
      by decide, rfl, rfl, rfl, rfl,
      rfl, rfl,
      by decide, rfl, rfl, rfl, rfl,
      rfl, rfl, trivial⟩

/-- Witness of C5: the scan of "test {} 42 3.14 foobar true" above leaves an empty
range; scanning that range with the format "{}" into an int fails with `end_of_stream`
and count 0. -/
theorem chained_scan_witness :
    ∃ r2 s2, visit basic_parse_context.ops basic_context.ops (visit_arg string_scanners) 3
        ⟨range_wrapper.make [], [slot.typed (slot_type.integer int_type.int) (value.int 42)]⟩
        ⟨['{', '}'], 0⟩ = some (r2, s2) ∧
      r2.err.code = error_code.end_of_stream ∧ r2.value = 0 ∧ r2.range = [] :=
  chained_scan_of_exhausted_range (visit_arg string_scanners) (visit_arg string_scanners)
    24 3
    ['t', 'e', 's', 't', ' ', '{', '}', ' ', '4', '2', ' ', '3', '.', '1', '4', ' ',
      'f', 'o', 'o', 'b', 'a', 'r', ' ', 't', 'r', 'u', 'e']
    ['t', 'e', 's', 't', ' ', '{', '{', '}', '}', ' ', '{', '}', ' ', '{', '}', ' ',
      '{', '}', ' ', '{', ':', 'a', '}']
    ['{', '}']
    [slot.typed (slot_type.integer int_type.int) (value.int 0),
      slot.typed (slot_type.floating float_type.double) (value.flt ⟨0, 0⟩),
      slot.typed slot_type.span (value.buf [Char.ofNat 0, Char.ofNat 0, Char.ofNat 0,
        Char.ofNat 0, Char.ofNat 0, Char.ofNat 0]),
      slot.typed slot_type.bool (value.bool false)]
    [slot.typed (slot_type.integer int_type.int) (value.int 42)]
    ⟨4, error.none, []⟩
    ⟨4, ⟨⟨['t', 'e', 's', 't', ' ', '{', '}', ' ', '4', '2', ' ', '3', '.', '1', '4', ' ',
        'f', 'o', 'o', 'b', 'a', 'r', ' ', 't', 'r', 'u', 'e'], 27, 27⟩,
      [slot.typed (slot_type.integer int_type.int) (value.int 42),
        slot.typed (slot_type.floating float_type.double) (value.flt ⟨314, -2⟩),
        slot.typed slot_type.span (value.buf ['f', 'o', 'o', 'b', 'a', 'r']),
        slot.typed slot_type.bool (value.bool true)]⟩, ⟨[], 4⟩⟩
    (by rfl) (by rfl) (by rfl)

/-! ## The floating-point reader -/

/-- C11: in `cstd::impl`, for every outcome of the underlying conversion with a value
`f`, a count `c > 0` and an `errno` value `e` (zero being neither the huge value nor its
opposite), the result is the underflow error `value_out_of_range` when `e` is `ERANGE`
and `f` is zero, the overflow error `value_out_of_range` when `e` is `ERANGE` and `f` is
the huge value or its opposite, and success carrying `f` in every other case, a
subnormal `f` under `ERANGE` included. -/
theorem cstd_impl_classifies_range_errors {T : Type} (F : float_ops T)
    (f_strtod : process_state → List Char → strtod_result T) (huge_value : T)
    (str : List Char) (chars : Nat) (st : process_state) (f : T) (c : Nat) (e : Int)
    (hloc : st.numeric_locale.length < 256)
    (hout : f_strtod (read_float.set_errno 0 (read_float.set_locale ['C'] st)) str = ⟨f, c, e⟩)
    (hc : 0 < c)
    (hzero : F.eq f F.zero = true →
      F.eq f huge_value = false ∧ F.eq f (F.neg huge_value) = false) :
    ∃ st1, read_float.cstd.impl F f_strtod huge_value str chars st
        = some (read_float.cstd.classify F huge_value f c e, c, st1) ∧
      (e = ERANGE ∧ F.eq f F.zero = true →
        read_float.cstd.classify F huge_value f c e
          = Except.error ⟨error_code.value_out_of_range,
              "Floating-point value out of range: underflow"⟩) ∧
      (e = ERANGE ∧ (F.eq f huge_value = true ∨ F.eq f (F.neg huge_value) = true) →
        read_float.cstd.classify F huge_value f c e
          = Except.error ⟨error_code.value_out_of_range,
              "Floating-point value out of range: overflow"⟩) ∧
      (¬ (e = ERANGE ∧ (F.eq f F.zero = true ∨ F.eq f huge_value = true ∨
            F.eq f (F.neg huge_value) = true)) →
        read_float.cstd.classify F huge_value f c e = Except.ok f) := by
  have hc0 : decide (c = 0) = false := by simp; omega
  refine ⟨read_float.set_errno 0 (read_float.set_locale st.numeric_locale
    (read_float.set_errno e (read_float.set_errno 0 (read_float.set_locale ['C'] st)))),
    ?_, ?_, ?_, ?_⟩
  · simp only [read_float.cstd.impl, read_float.strcpy, read_float.query_locale, hloc,
      if_true, hout]
  · rintro ⟨he, hz⟩
    simp [read_float.cstd.classify, hc0, he, hz]
  · rintro ⟨he, hh⟩
    have hz : F.eq f F.zero = false := by
      by_cases h : F.eq f F.zero = true
      · have := hzero h
        rcases hh with hh | hh
        · rw [this.1] at hh; exact absurd hh (by simp)
        · rw [this.2] at hh; exact absurd hh (by simp)
      · simpa using h
    rcases hh with hh | hh <;> simp [read_float.cstd.classify, hc0, he, hz, hh]
  · intro hn
    by_cases he : e = ERANGE
    · have h1 : F.eq f F.zero = false := by
        by_cases h : F.eq f F.zero = true
        · exact absurd ⟨he, Or.inl h⟩ hn
        · simpa using h
      have h2 : F.eq f huge_value = false := by
        by_cases h : F.eq f huge_value = true
        · exact absurd ⟨he, Or.inr (Or.inl h)⟩ hn
        · simpa using h
      have h3 : F.eq f (F.neg huge_value) = false := by
        by_cases h : F.eq f (F.neg huge_value) = true
        · exact absurd ⟨he, Or.inr (Or.inr h)⟩ hn
        · simpa using h
      simp [read_float.cstd.classify, hc0, he, h1, h2, h3]
    · simp [read_float.cstd.classify, hc0, he]

/-- Witness of C11: the text "1e-400" read under the locale "fi_FI": the conversion
returns zero after six characters with `errno` set to `ERANGE`, an underflow. -/
theorem cstd_impl_classifies_witness :
    ∃ st1, read_float.cstd.impl fp.ops (fun _ _ => ⟨fp.finite false 0, 6, ERANGE⟩)
          (fp.inf false) ['1', 'e', '-', '4', '0', '0'] 0 ⟨['f', 'i', '_', 'F', 'I'], 0⟩
        = some (read_float.cstd.classify fp.ops (fp.inf false) (fp.finite false 0) 6 ERANGE,
            6, st1) ∧
      (ERANGE = ERANGE ∧ fp.ops.eq (fp.finite false 0) fp.ops.zero = true →
        read_float.cstd.classify fp.ops (fp.inf false) (fp.finite false 0) 6 ERANGE
          = Except.error ⟨error_code.value_out_of_range,
              "Floating-point value out of range: underflow"⟩) ∧
      (ERANGE = ERANGE ∧ (fp.ops.eq (fp.finite false 0) (fp.inf false) = true ∨
          fp.ops.eq (fp.finite false 0) (fp.ops.neg (fp.inf false)) = true) →
        read_float.cstd.classify fp.ops (fp.inf false) (fp.finite false 0) 6 ERANGE
          = Except.error ⟨error_code.value_out_of_range,
              "Floating-point value out of range: overflow"⟩) ∧
      (¬ (ERANGE = ERANGE ∧ (fp.ops.eq (fp.finite false 0) fp.ops.zero = true ∨
            fp.ops.eq (fp.finite false 0) (fp.inf false) = true ∨
            fp.ops.eq (fp.finite false 0) (fp.ops.neg (fp.inf false)) = true)) →
        read_float.cstd.classify fp.ops (fp.inf false) (fp.finite false 0) 6 ERANGE
          = Except.ok (fp.finite false 0)) :=
  cstd_impl_classifies_range_errors fp.ops (fun _ _ => ⟨fp.finite false 0, 6, ERANGE⟩)
    (fp.inf false) ['1', 'e', '-', '4', '0', '0'] 0 ⟨['f', 'i', '_', 'F', 'I'], 0⟩
    (fp.finite false 0) 6 ERANGE (by decide) rfl (by decide) (by decide)

/-- C12: a conversion that converts no character yields `invalid_scanned_value`, in
each of the three strategies, each taken on its own.  In `cstd::impl`, for a conversion
function that returns zero when it converts no character, as `strtod`, `wcstod` and
their siblings do (the functions `cstd::read` passes, lines 125-164): whenever the
conversion reports `chars = 0`, whatever else it returns.  In the standards-based
reader, whenever `std::from_chars` reports `invalid_argument`.  In the fast path, on a
text that is not a hex-float (a hex-float is not given to the fast parser), whenever the
fast parser reports `invalid_argument`. -/
theorem no_conversion_is_invalid_scanned_value {T : Type} (F : float_ops T)
    (f_strtod : process_state → List Char → strtod_result T) (huge_value : T)
    (E : float_env T) (str : List Char) (chars : Nat) (st : process_state) :
    (st.numeric_locale.length < 256 →
      (∀ s x, (f_strtod s x).stop = 0 → F.eq (f_strtod s x).value F.zero = true) →
      (f_strtod (read_float.set_errno 0 (read_float.set_locale ['C'] st)) str).stop = 0 →
      ∃ st1, read_float.cstd.impl F f_strtod huge_value str chars st
        = some (Except.error ⟨error_code.invalid_scanned_value, "strtod"⟩, 0, st1)) ∧
    (E.has_float_charconv = true →
      (read_float.from_chars.result E str).ec = errc.invalid_argument →
      read_float.from_chars.read E str chars st
        = some (Except.error ⟨error_code.invalid_scanned_value, "from_chars"⟩, chars, st)) ∧
    (read_float.is_hexfloat str str.length = false →
      (read_float.fast_float.result E str).ec = errc.invalid_argument →
      read_float.fast_float.impl E str chars st
        = some (Except.error ⟨error_code.invalid_scanned_value, "fast_float"⟩, chars, st)) := by
  refine ⟨?_, ?_, ?_⟩
  · intro hloc hzero h0
    have hf := hzero _ _ h0
    refine ⟨read_float.set_errno 0 (read_float.set_locale st.numeric_locale
      (read_float.set_errno
        (f_strtod (read_float.set_errno 0 (read_float.set_locale ['C'] st)) str).errno
        (read_float.set_errno 0 (read_float.set_locale ['C'] st)))), ?_⟩
    simp [read_float.cstd.impl, read_float.strcpy, read_float.query_locale, hloc, h0,
      read_float.cstd.classify, hf]
  · intro hcc hec
    simp [read_float.from_chars.read, hcc, hec]
  · intro hhex hec
    simp [read_float.fast_float.impl, hhex, hec]

/-- Witness of C12: the text "abc", on which no function converts a character. -/
theorem no_conversion_witness :
    (∃ st1, read_float.cstd.impl reject_env.ops reject_env.strtod reject_env.huge
        ['a', 'b', 'c'] 7 ⟨['C'], 0⟩
      = some (Except.error ⟨error_code.invalid_scanned_value, "strtod"⟩, 0, st1)) ∧
    read_float.from_chars.read reject_env ['a', 'b', 'c'] 7 ⟨['C'], 0⟩
      = some (Except.error ⟨error_code.invalid_scanned_value, "from_chars"⟩, 7, ⟨['C'], 0⟩) ∧
    read_float.fast_float.impl reject_env ['a', 'b', 'c'] 7 ⟨['C'], 0⟩
      = some (Except.error ⟨error_code.invalid_scanned_value, "fast_float"⟩, 7, ⟨['C'], 0⟩) :=
  ⟨(no_conversion_is_invalid_scanned_value reject_env.ops reject_env.strtod reject_env.huge
      reject_env ['a', 'b', 'c'] 7 ⟨['C'], 0⟩).1 (by decide) (fun _ _ _ => rfl) rfl,
    (no_conversion_is_invalid_scanned_value reject_env.ops reject_env.strtod reject_env.huge
      reject_env ['a', 'b', 'c'] 7 ⟨['C'], 0⟩).2.1 rfl rfl,
    (no_conversion_is_invalid_scanned_value reject_env.ops reject_env.strtod reject_env.huge
      reject_env ['a', 'b', 'c'] 7 ⟨['C'], 0⟩).2.2 rfl rfl⟩

/-- C13 (counterexample): on "1e999" the fast parser reports `result_out_of_range`; the
fast path returns its own error and leaves the count at 0, whereas the standards-based
reader on the same text returns the overflow error of the locale-bracketing conversion
with the count 5. -/
theorem fast_out_of_range_counterexample :
    read_float.is_hexfloat ['1', 'e', '9', '9', '9'] 5 = false ∧
    (read_float.fast_float.result overflow_env ['1', 'e', '9', '9', '9']).ec
      = errc.result_out_of_range ∧
    read_float.fast_float.impl overflow_env ['1', 'e', '9', '9', '9'] 0 ⟨['C'], 0⟩
      = some (Except.error ⟨error_code.value_out_of_range, "fast_float"⟩, 0, ⟨['C'], 0⟩) ∧
    read_float.from_chars.read overflow_env ['1', 'e', '9', '9', '9'] 0 ⟨['C'], 0⟩
      = some (Except.error ⟨error_code.value_out_of_range,
          "Floating-point value out of range: overflow"⟩, 5, ⟨['C'], 0⟩) ∧
    read_float.fast_float.impl overflow_env ['1', 'e', '9', '9', '9'] 0 ⟨['C'], 0⟩
      ≠ read_float.from_chars.read overflow_env ['1', 'e', '9', '9', '9'] 0 ⟨['C'], 0⟩ := by
  have h1 : read_float.fast_float.impl overflow_env ['1', 'e', '9', '9', '9'] 0 ⟨['C'], 0⟩
      = some (Except.error ⟨error_code.value_out_of_range, "fast_float"⟩, 0, ⟨['C'], 0⟩) := rfl
  have h2 : read_float.from_chars.read overflow_env ['1', 'e', '9', '9', '9'] 0 ⟨['C'], 0⟩
      = some (Except.error ⟨error_code.value_out_of_range,
          "Floating-point value out of range: overflow"⟩, 5, ⟨['C'], 0⟩) := rfl
  refine ⟨rfl, rfl, h1, h2, ?_⟩
  rw [h1, h2]
  simp

/-- C13 (as amended): for float and double read from narrow input that is not a
hex-float, when the fast parser reports `result_out_of_range` the reader returns the
error `value_out_of_range` itself, with the count and the state of the process as they
were: the result is the same whatever `std::from_chars` and `strtod` are, so neither is
called. -/
theorem fast_out_of_range_is_returned {T : Type} (E : float_env T) (t : float_type)
    (str : List Char) (chars : Nat) (st : process_state)
    (ht : t ≠ float_type.long_double)
    (hhex : read_float.is_hexfloat str str.length = false)
    (hec : (read_float.fast_float.result E str).ec = errc.result_out_of_range) :
    read_float.read E false t str chars st
      = some (Except.error ⟨error_code.value_out_of_range, "fast_float"⟩, chars, st) ∧
    ∀ (strtod1 : process_state → List Char → strtod_result T)
      (std1 : List Char → Nat → Nat → chars_format → from_chars_result T) (cc : Bool),
      read_float.read ⟨E.ops, strtod1, E.wcstod, E.huge, std1, E.fast_from_chars, cc⟩
          false t str chars st
        = read_float.read E false t str chars st := by
  have key : ∀ E1 : float_env T,
      (read_float.fast_float.result E1 str).ec = errc.result_out_of_range →
      read_float.read E1 false t str chars st
        = some (Except.error ⟨error_code.value_out_of_range, "fast_float"⟩, chars, st) := by
    intro E1 h1
    cases t with
    | long_double => exact absurd rfl ht
    | float => simp [read_float.read, read_float.fast_float.read, read_float.fast_float.impl, hhex, h1]
    | double => simp [read_float.read, read_float.fast_float.read, read_float.fast_float.impl, hhex, h1]
  refine ⟨key E hec, ?_⟩
  intro strtod1 std1 cc
  rw [key E hec]
  exact key _ hec

/-- Witness of C13 (as amended): "1e999" read as a double. -/
theorem fast_out_of_range_witness :
    read_float.read overflow_env false float_type.double ['1', 'e', '9', '9', '9'] 0 ⟨['C'], 0⟩
      = some (Except.error ⟨error_code.value_out_of_range, "fast_float"⟩, 0, ⟨['C'], 0⟩) ∧
    ∀ (strtod1 : process_state → List Char → strtod_result fp)
      (std1 : List Char → Nat → Nat → chars_format → from_chars_result fp) (cc : Bool),
      read_float.read ⟨overflow_env.ops, strtod1, overflow_env.wcstod, overflow_env.huge, std1,
          overflow_env.fast_from_chars, cc⟩
          false float_type.double ['1', 'e', '9', '9', '9'] 0 ⟨['C'], 0⟩
        = read_float.read overflow_env false float_type.double ['1', 'e', '9', '9', '9'] 0
            ⟨['C'], 0⟩ :=
  fast_out_of_range_is_returned overflow_env float_type.double ['1', 'e', '9', '9', '9'] 0
    ⟨['C'], 0⟩ (by decide) rfl rfl

/-- C14: for float and double read from narrow input, a string of length at least 3
that begins with "0x" or "0X" is a hex-float, the result is that of the standards-based
reader `from_chars::read` on the same string, and it is the same whatever the fast
parser is: the fast parser is not called. -/
theorem hexfloat_bypasses_fast_path {T : Type} (E : float_env T) (t : float_type)
    (x c : Char) (rest : List Char) (chars : Nat) (st : process_state)
    (ht : t ≠ float_type.long_double) (hx : x = 'x' ∨ x = 'X') :
    read_float.is_hexfloat ('0' :: x :: c :: rest) ('0' :: x :: c :: rest).length = true ∧
    read_float.read E false t ('0' :: x :: c :: rest) chars st
      = read_float.from_chars.read E ('0' :: x :: c :: rest) chars st ∧
    ∀ fast1 : List Char → Nat → Nat → from_chars_result T,
      read_float.read
          ⟨E.ops, E.strtod, E.wcstod, E.huge, E.std_from_chars, fast1, E.has_float_charconv⟩
          false t ('0' :: x :: c :: rest) chars st
        = read_float.read E false t ('0' :: x :: c :: rest) chars st := by
  have hhex : read_float.is_hexfloat ('0' :: x :: c :: rest) ('0' :: x :: c :: rest).length
      = true := by
    rcases hx with rfl | rfl <;> simp [read_float.is_hexfloat]
  have key : ∀ E1 : float_env T,
      read_float.read E1 false t ('0' :: x :: c :: rest) chars st
        = read_float.from_chars.read E1 ('0' :: x :: c :: rest) chars st := by
    intro E1
    cases t with
    | long_double => exact absurd rfl ht
    | float =>
      simp only [read_float.read, read_float.fast_float.read, read_float.fast_float.impl, hhex]
      simp
    | double =>
      simp only [read_float.read, read_float.fast_float.read, read_float.fast_float.impl, hhex]
      simp
  refine ⟨hhex, key E, ?_⟩
  intro fast1
  rw [key E, key _]
  rfl

/-- Witness of C14: the hex-float "0x1p+2000" read as a double. -/
theorem hexfloat_bypasses_witness :
    read_float.is_hexfloat ['0', 'x', '1', 'p', '+', '2', '0', '0', '0']
      ['0', 'x', '1', 'p', '+', '2', '0', '0', '0'].length = true ∧
    read_float.read hexfloat_env false float_type.double
        ['0', 'x', '1', 'p', '+', '2', '0', '0', '0'] 0 ⟨['C'], 0⟩
      = read_float.from_chars.read hexfloat_env
          ['0', 'x', '1', 'p', '+', '2', '0', '0', '0'] 0 ⟨['C'], 0⟩ ∧
    ∀ fast1 : List Char → Nat → Nat → from_chars_result fp,
      read_float.read
          ⟨hexfloat_env.ops, hexfloat_env.strtod, hexfloat_env.wcstod, hexfloat_env.huge,
            hexfloat_env.std_from_chars, fast1, hexfloat_env.has_float_charconv⟩
          false float_type.double ['0', 'x', '1', 'p', '+', '2', '0', '0', '0'] 0 ⟨['C'], 0⟩
        = read_float.read hexfloat_env false float_type.double
            ['0', 'x', '1', 'p', '+', '2', '0', '0', '0'] 0 ⟨['C'], 0⟩ :=
  hexfloat_bypasses_fast_path hexfloat_env float_type.double 'x' '1'
    ['p', '+', '2', '0', '0', '0'] 0 ⟨['C'], 0⟩ (by decide) (Or.inl rfl)

/-- C15 (what the code does): when `std::from_chars` reports `result_out_of_range` on a
hex-float, the result of `from_chars::read` is that of `cstd::read` on the string
without its first two characters, the prefix "0x": `str` was moved past the prefix
before the fallback. -/
theorem hexfloat_fallback_drops_two_characters {T : Type} (E : float_env T) (str : List Char)
    (chars : Nat) (st : process_state)
    (hcc : E.has_float_charconv = true)
    (hhex : read_float.is_hexfloat str str.length = true)
    (hec : (read_float.from_chars.result E str).ec = errc.result_out_of_range) :
    read_float.from_chars.read E str chars st = read_float.cstd.read E (str.drop 2) chars st := by
  simp [read_float.from_chars.read, hcc, hec, read_float.from_chars.offset, hhex]

/-- Witness of C15: on "0x1p+2000" the fallback converts the text "1p+2000": the result
is 1.0 with the count 1. -/
theorem hexfloat_fallback_witness :
    read_float.from_chars.read hexfloat_env ['0', 'x', '1', 'p', '+', '2', '0', '0', '0'] 0
        ⟨['C'], 0⟩
      = read_float.cstd.read hexfloat_env
          (['0', 'x', '1', 'p', '+', '2', '0', '0', '0'].drop 2) 0 ⟨['C'], 0⟩ :=
  hexfloat_fallback_drops_two_characters hexfloat_env
    ['0', 'x', '1', 'p', '+', '2', '0', '0', '0'] 0 ⟨['C'], 0⟩ rfl rfl rfl

/-- The divergence of C15 at "0x1p+2000": the standards-based reader returns 1.0 with the
count 1, where the locale-bracketing conversion of the same text fails with
`value_out_of_range` (overflow) after nine characters. -/
theorem hexfloat_fallback_diverges :
    read_float.from_chars.read hexfloat_env ['0', 'x', '1', 'p', '+', '2', '0', '0', '0'] 0
        ⟨['C'], 0⟩
      = some (Except.ok (fp.finite false 1), 1, ⟨['C'], 0⟩) ∧
    read_float.cstd.read hexfloat_env ['0', 'x', '1', 'p', '+', '2', '0', '0', '0'] 0
        ⟨['C'], 0⟩
      = some (Except.error
          ⟨error_code.value_out_of_range, "Floating-point value out of range: overflow"⟩,
          9, ⟨['C'], 0⟩) := by
  constructor
  · rfl
  · rfl

/-- C16: for every call of `cstd::impl` with a numeric locale name shorter than 256
characters, the call returns, the numeric locale afterwards is the one before the
call, `errno` is 0, and the result is the same with a conversion function that sees
only the state with the numeric locale "C" and `errno` 0: the conversion runs under
the locale "C". -/
theorem cstd_impl_restores_the_locale {T : Type} (F : float_ops T)
    (f_strtod : process_state → List Char → strtod_result T) (huge_value : T)
    (str : List Char) (chars : Nat) (st : process_state)
    (hloc : st.numeric_locale.length < 256) :
    ∃ r c st1, read_float.cstd.impl F f_strtod huge_value str chars st = some (r, c, st1) ∧
      st1.numeric_locale = st.numeric_locale ∧ st1.errno = 0 ∧
      r = read_float.cstd.classify F huge_value (f_strtod ⟨['C'], 0⟩ str).value
        (f_strtod ⟨['C'], 0⟩ str).stop (f_strtod ⟨['C'], 0⟩ str).errno ∧
      read_float.cstd.impl F (fun _ s => f_strtod ⟨['C'], 0⟩ s) huge_value str chars st
        = some (r, c, st1) := by
  refine ⟨read_float.cstd.classify F huge_value (f_strtod ⟨['C'], 0⟩ str).value
      (f_strtod ⟨['C'], 0⟩ str).stop (f_strtod ⟨['C'], 0⟩ str).errno,
    (f_strtod ⟨['C'], 0⟩ str).stop, ⟨st.numeric_locale, 0⟩, ?_, ?_, ?_, ?_, ?_⟩
  · simp only [read_float.cstd.impl, read_float.strcpy, read_float.query_locale, hloc, if_true]
    rfl
  · rfl
  · rfl
  · rfl
  · simp only [read_float.cstd.impl, read_float.strcpy, read_float.query_locale, hloc, if_true]
    rfl

/-- Witness of C16: the numeric locale "de_DE" and a conversion function that reads the
decimal point of the locale it runs under: under "C" it converts the four characters
of "3.14", under any other locale only the "3" (the magnitudes are in
hundredths). -/
theorem cstd_impl_restores_witness :
    ∃ r c st1, read_float.cstd.impl fp.ops
          (fun s _ => if s.numeric_locale = ['C'] then ⟨fp.finite false 314, 4, 0⟩
            else ⟨fp.finite false 300, 1, 0⟩)
          (fp.inf false) ['3', '.', '1', '4'] 0 ⟨['d', 'e', '_', 'D', 'E'], 7⟩
        = some (r, c, st1) ∧
      st1.numeric_locale = (⟨['d', 'e', '_', 'D', 'E'], 7⟩ : process_state).numeric_locale ∧
      st1.errno = 0 ∧
      r = read_float.cstd.classify fp.ops (fp.inf false)
        ((fun (s : process_state) (_ : List Char) =>
            if s.numeric_locale = ['C'] then (⟨fp.finite false 314, 4, 0⟩ : strtod_result fp)
            else ⟨fp.finite false 300, 1, 0⟩) ⟨['C'], 0⟩ ['3', '.', '1', '4']).value
        ((fun (s : process_state) (_ : List Char) =>
            if s.numeric_locale = ['C'] then (⟨fp.finite false 314, 4, 0⟩ : strtod_result fp)
            else ⟨fp.finite false 300, 1, 0⟩) ⟨['C'], 0⟩ ['3', '.', '1', '4']).stop
        ((fun (s : process_state) (_ : List Char) =>
            if s.numeric_locale = ['C'] then (⟨fp.finite false 314, 4, 0⟩ : strtod_result fp)
            else ⟨fp.finite false 300, 1, 0⟩) ⟨['C'], 0⟩ ['3', '.', '1', '4']).errno ∧
      read_float.cstd.impl fp.ops
          (fun _ s => (fun (s : process_state) (_ : List Char) =>
            if s.numeric_locale = ['C'] then (⟨fp.finite false 314, 4, 0⟩ : strtod_result fp)
            else ⟨fp.finite false 300, 1, 0⟩) ⟨['C'], 0⟩ s)
          (fp.inf false) ['3', '.', '1', '4'] 0 ⟨['d', 'e', '_', 'D', 'E'], 7⟩
        = some (r, c, st1) :=
  cstd_impl_restores_the_locale fp.ops
    (fun s _ => if s.numeric_locale = ['C'] then ⟨fp.finite false 314, 4, 0⟩
      else ⟨fp.finite false 300, 1, 0⟩)
    (fp.inf false) ['3', '.', '1', '4'] 0 ⟨['d', 'e', '_', 'D', 'E'], 7⟩ (by decide)

/-! ## The positional index of a placeholder -/

/-- The base-10 value of a concatenation. -/
theorem base10_value_append (a b : List Char) :
    base10_value (a ++ b) = base10_value a * 10 ^ b.length + base10_value b := by
  induction a with
  | nil => simp [base10_value]
  | cons c cs ih =>
    show base10_value (c :: (cs ++ b)) = base10_value (c :: cs) * 10 ^ b.length + base10_value b
    rw [base10_value, base10_value, ih, List.length_append, pow_add]
    ring

/-- The value of a decimal digit is its code, whether `char` is signed or not. -/
theorem code_unit_value_digit (sc : Bool) (c : Char) (hc : is_digit c = true) :
    code_unit_value sc c = (c.toNat : Int) := by
  simp only [is_digit, decide_eq_true_eq] at hc
  have h : ¬ 128 ≤ c.toNat := by omega
  simp [code_unit_value, h]

/-- The value of the character `0` is 48. -/
theorem code_unit_value_zero (sc : Bool) : code_unit_value sc '0' = 48 := by
  cases sc <;> rfl

/-- The loop of lines 291-297 started from `tmp = a` over a string of digits. -/
theorem arg_index_fold (sc : Bool) (l : List Char) (hd : ∀ c ∈ l, is_digit c = true) (a : Int) :
    l.foldl (fun tmp ch => tmp * 10 + (code_unit_value sc ch - code_unit_value sc '0')) a
      = a * 10 ^ l.length + (base10_value l : Int) := by
  induction l generalizing a with
  | nil => simp [base10_value]
  | cons c cs ih =>
    have hc : 48 ≤ c.toNat := by
      have := hd c (List.mem_cons_self _ _)
      simp only [is_digit, decide_eq_true_eq] at this
      exact this.1
    rw [List.foldl_cons, ih (fun x hx => hd x (List.mem_cons_of_mem _ hx))]
    rw [code_unit_value_digit sc c (hd c (List.mem_cons_self _ _)), code_unit_value_zero]
    simp only [base10_value, List.length_cons]
    push_cast [hc]
    ring

/-- The index of a string of digits is its base-10 value. -/
theorem arg_index_digits (sc : Bool) (l : List Char) (hd : ∀ c ∈ l, is_digit c = true) :
    arg_index sc l = (base10_value l : Int) := by
  unfold arg_index
  rw [arg_index_fold sc l hd 0]
  simp

/-- C17: for an id made of decimal digits only, whose first character the locale takes
for a digit, the index computed by the loop is the base-10 value of the whole id, the
lookup is `ctx.arg(pctx, index)` with that value, and when the value is at most `M`
(the largest value of the index type) every intermediate `tmp * 10` and every new
`tmp` of the loop is between 0 and `M`: the arithmetic does not overflow.  This holds
whether the `char` of the context is signed or not. -/
theorem numeric_id_selects_its_base10_value {Ctx PCtx Arg Range : Type}
    (C : context_ops Ctx PCtx Arg Range) (ctx : Ctx) (pctx : PCtx)
    (front : Char) (rest : List Char) (M : Nat)
    (hfront : C.is_digit ctx front = true)
    (hd : ∀ c ∈ front :: rest, is_digit c = true)
    (hfit : base10_value (front :: rest) ≤ M) :
    arg_index C.signed_char (front :: rest) = (base10_value (front :: rest) : Int) ∧
    arg_wrapped C ctx pctx (front :: rest)
      = C.arg_at ctx pctx (base10_value (front :: rest) : Int) ∧
    ∀ pre c post, front :: rest = pre ++ c :: post →
      0 ≤ arg_index C.signed_char pre ∧ arg_index C.signed_char pre * 10 ≤ (M : Int) ∧
      arg_index C.signed_char (pre ++ [c])
        = arg_index C.signed_char pre * 10 + ((c.toNat : Int) - (('0').toNat : Int)) ∧
      0 ≤ arg_index C.signed_char (pre ++ [c]) ∧
      arg_index C.signed_char (pre ++ [c]) ≤ (M : Int) := by
  have hidx := arg_index_digits C.signed_char (front :: rest) hd
  refine ⟨hidx, ?_, ?_⟩
  · simp only [arg_wrapped, hfront, if_true, hidx]
  · intro pre c post hsplit
    have hpre : ∀ x ∈ pre, is_digit x = true := by
      intro x hx
      exact hd x (by rw [hsplit]; exact List.mem_append_left _ hx)
    have hcd : is_digit c = true := by
      refine hd c ?_
      rw [hsplit]
      exact List.mem_append_right _ (List.mem_cons_self _ _)
    have hprec : ∀ x ∈ pre ++ [c], is_digit x = true := by
      intro x hx
      rcases List.mem_append.1 hx with h | h
      · exact hpre x h
      · rw [List.mem_singleton] at h
        subst h
        exact hcd
    have hstep : arg_index C.signed_char (pre ++ [c])
        = arg_index C.signed_char pre * 10 + ((c.toNat : Int) - (('0').toNat : Int)) := by
      have h0 : (('0').toNat : Int) = 48 := rfl
      simp [arg_index, List.foldl_append, code_unit_value_digit C.signed_char c hcd,
        code_unit_value_zero, h0]
    have hval : base10_value (front :: rest)
        = base10_value (pre ++ [c]) * 10 ^ post.length + base10_value post := by
      rw [hsplit, ← base10_value_append]
      simp
    have hle : base10_value (pre ++ [c]) ≤ M := by
      have h1 : base10_value (pre ++ [c]) * 1 ≤ base10_value (pre ++ [c]) * 10 ^ post.length :=
        Nat.mul_le_mul_left _ (Nat.one_le_pow _ _ (by norm_num))
      omega
    have hpc : base10_value pre * 10 ≤ base10_value (pre ++ [c]) := by
      rw [base10_value_append]
      simp
    rw [arg_index_digits C.signed_char pre hpre] at hstep ⊢
    rw [arg_index_digits C.signed_char (pre ++ [c]) hprec] at hstep ⊢
    refine ⟨by positivity, ?_, hstep, by positivity, ?_⟩
    · have : base10_value pre * 10 ≤ M := le_trans hpc hle
      exact_mod_cast this
    · exact_mod_cast hle

/-- Witness of C17: the id "12" selects the argument 12, with a 64-bit index type. -/
theorem numeric_id_witness :
    arg_index true ['1', '2'] = 12 ∧
    arg_wrapped basic_context.ops ⟨range_wrapper.make [], []⟩ ⟨['}'], 0⟩ ['1', '2']
      = basic_context.arg_at ⟨range_wrapper.make [], []⟩ ⟨['}'], 0⟩ 12 :=
  ⟨(numeric_id_selects_its_base10_value basic_context.ops ⟨range_wrapper.make [], []⟩
      ⟨['}'], 0⟩ '1' ['2'] (2 ^ 63 - 1) rfl (by decide) (by decide)).1,
    (numeric_id_selects_its_base10_value basic_context.ops ⟨range_wrapper.make [], []⟩
      ⟨['}'], 0⟩ '1' ['2'] (2 ^ 63 - 1) rfl (by decide) (by decide)).2.1⟩

/-! ## The argument branch and the literal branch of the loop -/

section branch_facts

variable {Ctx PCtx Arg Range : Type}

/-- A pass that ends with a return ends the loop, with any fuel. -/
theorem visit_loop_of_ret (P : parse_context_ops PCtx) (C : context_ops Ctx PCtx Arg Range)
    (d : Arg → Ctx → PCtx → error × Ctx × PCtx) (fuel : Nat) (s s1 : loop_state Ctx PCtx)
    (r : scan_result Range) (hgood : P.good s.pctx = true)
    (hbody : visit_body P C d s = control.ret r s1) :
    visit_loop P C d (fuel + 1) s = some (r, s1) := by
  simp only [visit_loop, hgood, if_true, hbody]

/-- A pass that ends normally is followed by the rest of the loop. -/
theorem visit_loop_of_next (P : parse_context_ops PCtx) (C : context_ops Ctx PCtx Arg Range)
    (d : Arg → Ctx → PCtx → error × Ctx × PCtx) (fuel : Nat) (s s1 : loop_state Ctx PCtx)
    (hgood : P.good s.pctx = true) (hbody : visit_body P C d s = control.next s1) :
    visit_loop P C d (fuel + 1) s = visit_loop P C d fuel s1 := by
  simp only [visit_loop, hgood, if_true, hbody]

/-- A pass that matches a literal is the literal branch on the tested parse context. -/
theorem visit_body_at_literal (P : parse_context_ops PCtx) (C : context_ops Ctx PCtx Arg Range)
    (d : Arg → Ctx → PCtx → error × Ctx × PCtx) (n : Nat) (ctx : Ctx) (pctx : PCtx)
    (h : at_literal P pctx = true) :
    P.good pctx = true ∧ P.good (tested_pctx P pctx) = true ∧
    visit_body P C d ⟨n, ctx, pctx⟩ = visit_literal P C n ctx (tested_pctx P pctx) := by
  simp only [at_literal, Bool.and_eq_true, Bool.not_eq_true_eq_eq_false,
    Bool.not_eq_true', Bool.not_eq_eq_eq_not, Bool.not_true] at h
  obtain ⟨⟨⟨h0, h1⟩, h2⟩, h3⟩ := h
  refine ⟨h0, h3, ?_⟩
  unfold visit_body tested_pctx
  rcases hw : P.should_skip_ws pctx with ⟨b, q1⟩
  rw [hw] at h1 h2
  simp only at h1 h2
  subst h1
  rcases hl : P.should_read_literal q1 with ⟨b2, q2⟩
  rw [hl] at h2
  simp only at h2
  subst h2
  simp only [hw, hl]

/-- A pass that scans an argument is the argument branch on the tested parse
context. -/
theorem visit_body_at_argument (P : parse_context_ops PCtx)
    (C : context_ops Ctx PCtx Arg Range) (d : Arg → Ctx → PCtx → error × Ctx × PCtx)
    (n : Nat) (ctx : Ctx) (pctx : PCtx) (h : at_argument P pctx = true) :
    P.good pctx = true ∧
    visit_body P C d ⟨n, ctx, pctx⟩ = visit_argument P C d n ctx (tested_pctx P pctx) := by
  simp only [at_argument, Bool.and_eq_true, Bool.not_eq_true_eq_eq_false,
    Bool.not_eq_true', Bool.not_eq_eq_eq_not, Bool.not_true] at h
  obtain ⟨⟨h0, h1⟩, h2⟩ := h
  refine ⟨h0, ?_⟩
  unfold visit_body tested_pctx
  rcases hw : P.should_skip_ws pctx with ⟨b, q1⟩
  rw [hw] at h1 h2
  simp only at h1 h2
  subst h1
  rcases hl : P.should_read_literal q1 with ⟨b2, q2⟩
  rw [hl] at h2
  simp only at h2
  subst h2
  simp only [hw, hl]

/-- The rollback of a recording run: one undo is recorded; the error returned is the
original error when the undo succeeds and the error of the undo when it fails. -/
theorem traced_rollback_and_return_any (C : context_ops Ctx PCtx Arg Range) (n : Nat)
    (ctx : Ctx) (tr : List event) (pctx : PCtx) (e : error) :
    rollback_and_return (traced C) n (ctx, tr) pctx e
      = (control.ret
          ⟨n, if (C.reset_to_rollback_point ctx).1.good then e
            else (C.reset_to_rollback_point ctx).1,
            C.get_return (C.reset_to_rollback_point ctx).2⟩
          ⟨n, ((C.reset_to_rollback_point ctx).2,
            tr ++ [event.undo (C.reset_to_rollback_point ctx).1.good]), pctx⟩ :
          control (Ctx × List event) PCtx Range) := by
  by_cases h : (C.reset_to_rollback_point ctx).1.good = true
  · simp [rollback_and_return, traced, reterror, h]
  · have h1 : (C.reset_to_rollback_point ctx).1.good = false := by simpa using h
    simp [rollback_and_return, traced, reterror, h1]

end branch_facts

/-- C18 (counterexample): over a source that can put back one character at most, the
scan of "42 foo" with the format "{} {}" into two ints.  The dispatcher fails on "foo"
with `invalid_scanned_value` ("No digits"), the undo is called and fails, and the scan
returns the error of the undo, `unrecoverable_source_error`, with the count 1: the
error of the dispatcher is not the one returned. -/
theorem dispatcher_error_counterexample :
    ∃ r s,
      visit basic_parse_context.ops (traced faulty_source_ops)
        (traced_visit_arg (visit_arg string_scanners)) 6
        (⟨range_wrapper.make ['4', '2', ' ', 'f', 'o', 'o'],
          [slot.typed (slot_type.integer int_type.int) (value.int 0),
            slot.typed (slot_type.integer int_type.int) (value.int 0)]⟩, [])
        ⟨['{', '}', ' ', '{', '}'], 0⟩ = some (r, s) ∧
      s.ctx.2 = [event.skip_ws true, event.dispatch true, event.skip_ws true,
        event.dispatch false, event.undo false] ∧
      (visit_arg string_scanners (some 1)
        ⟨⟨['4', '2', ' ', 'f', 'o', 'o'], 3, 0⟩,
          [slot.typed (slot_type.integer int_type.int) (value.int 42),
            slot.typed (slot_type.integer int_type.int) (value.int 0)]⟩ ⟨['}'], 2⟩).1
        = ⟨error_code.invalid_scanned_value, "No digits"⟩ ∧
      r.value = 1 ∧
      r.err = ⟨error_code.unrecoverable_source_error, "Putback failed"⟩ ∧
      r.err ≠ ⟨error_code.invalid_scanned_value, "No digits"⟩ :=
  ⟨_, _, rfl, by decide, by decide, by decide, by decide, by decide⟩

/-- C18 (as amended): a pass of the loop of `visit` that scans an argument, from any
state, in two cases, each taken on its own.  When the placeholder resolves to the empty
argument, the scan returns `invalid_format_string` with the count it had, and the
record of calls is unchanged: the dispatcher is not called and nothing is undone.  When
the dispatcher fails, one call of the dispatcher and one undo are recorded and the
count is the count it had; the error returned is the error of the dispatcher when the
undo succeeds and the error of the undo when the undo fails. -/
theorem missing_argument_and_failed_dispatch {Ctx PCtx Arg Range : Type}
    (P : parse_context_ops PCtx) (C : context_ops Ctx PCtx Arg Range)
    (d : Arg → Ctx → PCtx → error × Ctx × PCtx) (fuel : Nat)
    (n : Nat) (ctx : Ctx) (tr : List event) (pctx : PCtx) :
    (∀ (id : List Char) (p1 p2 : PCtx) (arg : Arg), at_argument P pctx = true →
      P.parse_arg_id (tested_pctx P pctx) = (Except.ok id, p1) →
      arg_wrapped C ctx p1 id = (Except.ok arg, p2) →
      P.good p2 = true →
      C.arg_good arg = false →
      visit_loop P (traced C) (traced_visit_arg d) (fuel + 1) ⟨n, (ctx, tr), pctx⟩
        = some (⟨n, ⟨error_code.invalid_format_string,
              "Mismatch between number of arguments and \x27\x7b\x7d\x27 in the format string"⟩,
            C.get_return ctx⟩, ⟨n, (ctx, tr), p2⟩)) ∧
    (∀ (id : List Char) (p1 p2 : PCtx) (arg : Arg), at_argument P pctx = true →
      P.parse_arg_id (tested_pctx P pctx) = (Except.ok id, p1) →
      arg_wrapped C ctx p1 id = (Except.ok arg, p2) →
      P.good p2 = true →
      C.arg_good arg = true →
      (d arg ctx p2).1.good = false →
      visit_loop P (traced C) (traced_visit_arg d) (fuel + 1) ⟨n, (ctx, tr), pctx⟩
        = some (⟨n,
            if (C.reset_to_rollback_point (d arg ctx p2).2.1).1.good then (d arg ctx p2).1
            else (C.reset_to_rollback_point (d arg ctx p2).2.1).1,
            C.get_return (C.reset_to_rollback_point (d arg ctx p2).2.1).2⟩,
          ⟨n, ((C.reset_to_rollback_point (d arg ctx p2).2.1).2,
              tr ++ [event.dispatch false,
                event.undo (C.reset_to_rollback_point (d arg ctx p2).2.1).1.good]),
            (d arg ctx p2).2.2⟩)) := by
  constructor
  · intro id p1 p2 arg hat hid harg hgood hempty
    obtain ⟨h0, hb⟩ := visit_body_at_argument P (traced C) (traced_visit_arg d) n
      (ctx, tr) pctx hat
    refine visit_loop_of_ret P (traced C) (traced_visit_arg d) fuel _ _ _ h0 ?_
    rw [hb]
    unfold visit_argument
    rw [hid]
    simp only [arg_wrapped_traced, harg, hgood, Bool.not_true, Bool.false_eq_true, if_false]
    have hg : (traced C).arg_good arg = false := hempty
    simp only [hg, Bool.not_false, if_true]
    rfl
  · intro id p1 p2 arg hat hid harg hgood hfull hfail
    obtain ⟨h0, hb⟩ := visit_body_at_argument P (traced C) (traced_visit_arg d) n
      (ctx, tr) pctx hat
    refine visit_loop_of_ret P (traced C) (traced_visit_arg d) fuel _ _ _ h0 ?_
    rw [hb]
    unfold visit_argument
    rw [hid]
    have hg : (traced C).arg_good arg = true := hfull
    simp only [arg_wrapped_traced, harg, hgood, hg, Bool.not_true, Bool.false_eq_true,
      if_false]
    simp only [traced_visit_arg, hfail, Bool.not_false, if_true]
    rw [traced_rollback_and_return_any]
    simp

/-- Witness of C18 (as amended), over a source that can put back one character at most:
a placeholder with no slot left, on the input "42"; an int placeholder on the input
"foo", where the undo succeeds and the error of the dispatcher is returned; and the
second int placeholder of "{} {}" on the input "42 foo", where the undo fails and its
error is returned. -/
theorem missing_argument_witness :
    visit_loop basic_parse_context.ops (traced faulty_source_ops)
        (traced_visit_arg (visit_arg string_scanners)) (2 + 1)
        ⟨0, (⟨range_wrapper.make ['4', '2'], []⟩, []), ⟨['{', '}'], 0⟩⟩
      = some (⟨0, ⟨error_code.invalid_format_string,
            "Mismatch between number of arguments and \x27\x7b\x7d\x27 in the format string"⟩,
          ['4', '2']⟩,
        ⟨0, (⟨range_wrapper.make ['4', '2'], []⟩, []), ⟨['}'], 1⟩⟩) ∧
    visit_loop basic_parse_context.ops (traced faulty_source_ops)
        (traced_visit_arg (visit_arg string_scanners)) (2 + 1)
        ⟨0, (⟨range_wrapper.make ['f', 'o', 'o'],
          [slot.typed (slot_type.integer int_type.int) (value.int 0)]⟩, []), ⟨['{', '}'], 0⟩⟩
      = some (⟨0, ⟨error_code.invalid_scanned_value, "No digits"⟩, ['f', 'o', 'o']⟩,
        ⟨0, (⟨range_wrapper.make ['f', 'o', 'o'],
            [slot.typed (slot_type.integer int_type.int) (value.int 0)]⟩,
            [] ++ [event.dispatch false, event.undo true]), ⟨['}'], 1⟩⟩) ∧
    visit_loop basic_parse_context.ops (traced faulty_source_ops)
        (traced_visit_arg (visit_arg string_scanners)) (2 + 1)
        ⟨1, (⟨⟨['4', '2', ' ', 'f', 'o', 'o'], 3, 0⟩,
          [slot.typed (slot_type.integer int_type.int) (value.int 42),
            slot.typed (slot_type.integer int_type.int) (value.int 0)]⟩, []), ⟨['{', '}'], 1⟩⟩
      = some (⟨1, ⟨error_code.unrecoverable_source_error, "Putback failed"⟩, ['f', 'o', 'o']⟩,
        ⟨1, (⟨⟨['4', '2', ' ', 'f', 'o', 'o'], 3, 0⟩,
            [slot.typed (slot_type.integer int_type.int) (value.int 42),
              slot.typed (slot_type.integer int_type.int) (value.int 0)]⟩,
            [] ++ [event.dispatch false, event.undo false]), ⟨['}'], 2⟩⟩) :=
  ⟨(missing_argument_and_failed_dispatch basic_parse_context.ops faulty_source_ops
      (visit_arg string_scanners) 2
      0 ⟨range_wrapper.make ['4', '2'], []⟩ [] ⟨['{', '}'], 0⟩).1
      [] ⟨['}'], 0⟩ ⟨['}'], 1⟩ none rfl rfl rfl rfl rfl,
    (missing_argument_and_failed_dispatch basic_parse_context.ops faulty_source_ops
      (visit_arg string_scanners) 2
      0 ⟨range_wrapper.make ['f', 'o', 'o'],
        [slot.typed (slot_type.integer int_type.int) (value.int 0)]⟩ [] ⟨['{', '}'], 0⟩).2
      [] ⟨['}'], 0⟩ ⟨['}'], 1⟩ (some 0) rfl rfl rfl rfl rfl rfl,
    (missing_argument_and_failed_dispatch basic_parse_context.ops faulty_source_ops
      (visit_arg string_scanners) 2
      1 ⟨⟨['4', '2', ' ', 'f', 'o', 'o'], 3, 0⟩,
        [slot.typed (slot_type.integer int_type.int) (value.int 42),
          slot.typed (slot_type.integer int_type.int) (value.int 0)]⟩ [] ⟨['{', '}'], 1⟩).2
      [] ⟨['}'], 1⟩ ⟨['}'], 2⟩ (some 1) rfl rfl rfl rfl rfl rfl⟩

/-- C19 (counterexample): over a source that can put back one character at most.  The
scan of "ax" with the format "ab" reads `x` where the literal `b` is expected: the undo
is called and fails, and the scan returns the error of the undo,
`unrecoverable_source_error`, not `invalid_scanned_value`.  The scan of "ab" with the
format "abc" fails to read a third character (`end_of_stream`): the undo fails and the
scan returns the error of the undo, not the error of the read. -/
theorem literal_error_counterexample :
    ∃ r s r1 s1,
      visit basic_parse_context.ops (traced faulty_source_ops)
        (traced_visit_arg (visit_arg string_scanners)) 4
        (⟨range_wrapper.make ['a', 'x'], []⟩, []) ⟨['a', 'b'], 0⟩ = some (r, s) ∧
      s.ctx.2 = [event.skip_ws true, event.read_char true, event.read_char true,
        event.undo false] ∧
      r.err = ⟨error_code.unrecoverable_source_error, "Putback failed"⟩ ∧
      r.err.code ≠ error_code.invalid_scanned_value ∧
      visit basic_parse_context.ops (traced faulty_source_ops)
        (traced_visit_arg (visit_arg string_scanners)) 4
        (⟨range_wrapper.make ['a', 'b'], []⟩, []) ⟨['a', 'b', 'c'], 0⟩ = some (r1, s1) ∧
      s1.ctx.2 = [event.skip_ws true, event.read_char true, event.read_char true,
        event.read_char false, event.undo false] ∧
      (faulty_source_ops.read_char ⟨⟨['a', 'b'], 2, 0⟩, []⟩).1
        = Except.error ⟨error_code.end_of_stream, "EOF"⟩ ∧
      r1.err = ⟨error_code.unrecoverable_source_error, "Putback failed"⟩ ∧
      r1.err.code ≠ error_code.end_of_stream :=
  ⟨_, _, _, _, rfl, by decide, by decide, by decide, rfl, by decide, rfl, by decide,
    by decide⟩

/-- C19 (as amended): a pass of the loop of `visit` that finds a literal in the format,
from any state, reads one character; three cases, each taken on its own.  When the
character is the literal, the loop goes on with the format advanced over the literal.
When it is not, one undo is recorded, the format is not advanced and the scan returns
`invalid_scanned_value` when the undo succeeds and the error of the undo when the undo
fails.  When the read fails, one undo is recorded, the format is not advanced and the
scan returns the error of the read when the undo succeeds and the error of the undo
when the undo fails.  In the three cases the count is the count it had and the
dispatcher is not called. -/
theorem literal_is_read_once_and_matched {Ctx PCtx Arg Range : Type}
    (P : parse_context_ops PCtx) (C : context_ops Ctx PCtx Arg Range)
    (d : Arg → Ctx → PCtx → error × Ctx × PCtx) (fuel : Nat)
    (n : Nat) (ctx : Ctx) (tr : List event) (pctx : PCtx) :
    (∀ (ch : Char) (ctx1 : Ctx), at_literal P pctx = true →
      C.read_char ctx = (Except.ok ch, ctx1) →
      P.check_literal (tested_pctx P pctx) ch = true →
      visit_loop P (traced C) (traced_visit_arg d) (fuel + 1) ⟨n, (ctx, tr), pctx⟩
        = visit_loop P (traced C) (traced_visit_arg d) fuel
            ⟨n, (ctx1, tr ++ [event.read_char true]), P.advance (tested_pctx P pctx)⟩) ∧
    (∀ (ch : Char) (ctx1 : Ctx), at_literal P pctx = true →
      C.read_char ctx = (Except.ok ch, ctx1) →
      P.check_literal (tested_pctx P pctx) ch = false →
      visit_loop P (traced C) (traced_visit_arg d) (fuel + 1) ⟨n, (ctx, tr), pctx⟩
        = some (⟨n,
            if (C.reset_to_rollback_point ctx1).1.good
            then ⟨error_code.invalid_scanned_value,
              "Expected character from format string not found in the stream"⟩
            else (C.reset_to_rollback_point ctx1).1,
            C.get_return (C.reset_to_rollback_point ctx1).2⟩,
          ⟨n, ((C.reset_to_rollback_point ctx1).2,
              tr ++ [event.read_char true,
                event.undo (C.reset_to_rollback_point ctx1).1.good]),
            tested_pctx P pctx⟩)) ∧
    (∀ (e : error) (ctx1 : Ctx), at_literal P pctx = true →
      C.read_char ctx = (Except.error e, ctx1) →
      visit_loop P (traced C) (traced_visit_arg d) (fuel + 1) ⟨n, (ctx, tr), pctx⟩
        = some (⟨n,
            if (C.reset_to_rollback_point ctx1).1.good then e
            else (C.reset_to_rollback_point ctx1).1,
            C.get_return (C.reset_to_rollback_point ctx1).2⟩,
          ⟨n, ((C.reset_to_rollback_point ctx1).2,
              tr ++ [event.read_char false,
                event.undo (C.reset_to_rollback_point ctx1).1.good]),
            tested_pctx P pctx⟩)) := by
  refine ⟨?_, ?_, ?_⟩
  · intro ch ctx1 hat hread hcheck
    obtain ⟨h0, h1, hb⟩ := visit_body_at_literal P (traced C) (traced_visit_arg d) n
      (ctx, tr) pctx hat
    refine visit_loop_of_next P (traced C) (traced_visit_arg d) fuel _ _ h0 ?_
    rw [hb]
    unfold visit_literal
    have hr : (traced C).read_char (ctx, tr)
        = (Except.ok ch, (ctx1, tr ++ [event.read_char true])) := by
      simp only [traced, hread]
      rfl
    simp only [h1, hr, hcheck, Bool.not_true, Bool.false_eq_true, if_false]
  · intro ch ctx1 hat hread hcheck
    obtain ⟨h0, h1, hb⟩ := visit_body_at_literal P (traced C) (traced_visit_arg d) n
      (ctx, tr) pctx hat
    refine visit_loop_of_ret P (traced C) (traced_visit_arg d) fuel _ _ _ h0 ?_
    rw [hb]
    unfold visit_literal
    have hr : (traced C).read_char (ctx, tr)
        = (Except.ok ch, (ctx1, tr ++ [event.read_char true])) := by
      simp only [traced, hread]
      rfl
    simp only [h1, hr, hcheck, Bool.not_true, Bool.not_false, Bool.false_eq_true, if_false,
      if_true]
    rw [traced_rollback_and_return_any]
    simp
  · intro e ctx1 hat hread
    obtain ⟨h0, h1, hb⟩ := visit_body_at_literal P (traced C) (traced_visit_arg d) n
      (ctx, tr) pctx hat
    refine visit_loop_of_ret P (traced C) (traced_visit_arg d) fuel _ _ _ h0 ?_
    rw [hb]
    unfold visit_literal
    have hr : (traced C).read_char (ctx, tr)
        = (Except.error e, (ctx1, tr ++ [event.read_char false])) := by
      simp only [traced, hread]
      rfl
    simp only [h1, hr, Bool.not_true, Bool.false_eq_true, if_false]
    rw [traced_rollback_and_return_any]
    simp

/-- Witness of C19 (as amended), over a source that can put back one character at
most: the literal "a" of the format on the inputs "a" and "b" (the undo of one
character succeeds), the literal "b" of the format "ab" once the input "a" is
exhausted (the undo succeeds), and the literal "b" of the format "ab" on the second
character of the input "ax" (the undo of two characters fails). -/
theorem literal_witness :
    visit_loop basic_parse_context.ops (traced faulty_source_ops)
        (traced_visit_arg (visit_arg string_scanners)) (1 + 1)
        ⟨0, (⟨range_wrapper.make ['a'], []⟩, []), ⟨['a'], 0⟩⟩
      = visit_loop basic_parse_context.ops (traced faulty_source_ops)
          (traced_visit_arg (visit_arg string_scanners)) 1
          ⟨0, (⟨⟨['a'], 1, 0⟩, []⟩, [] ++ [event.read_char true]), ⟨[], 0⟩⟩ ∧
    visit_loop basic_parse_context.ops (traced faulty_source_ops)
        (traced_visit_arg (visit_arg string_scanners)) (1 + 1)
        ⟨0, (⟨range_wrapper.make ['b'], []⟩, []), ⟨['a'], 0⟩⟩
      = some (⟨0, ⟨error_code.invalid_scanned_value,
            "Expected character from format string not found in the stream"⟩, ['b']⟩,
        ⟨0, (⟨⟨['b'], 0, 0⟩, []⟩, [] ++ [event.read_char true, event.undo true]),
          ⟨['a'], 0⟩⟩) ∧
    visit_loop basic_parse_context.ops (traced faulty_source_ops)
        (traced_visit_arg (visit_arg string_scanners)) (1 + 1)
        ⟨0, (⟨⟨['a'], 1, 0⟩, []⟩, [event.read_char true]), ⟨['b'], 0⟩⟩
      = some (⟨0, ⟨error_code.end_of_stream, "EOF"⟩, ['a']⟩,
        ⟨0, (⟨⟨['a'], 0, 0⟩, []⟩,
            [event.read_char true] ++ [event.read_char false, event.undo true]),
          ⟨['b'], 0⟩⟩) ∧
    visit_loop basic_parse_context.ops (traced faulty_source_ops)
        (traced_visit_arg (visit_arg string_scanners)) (1 + 1)
        ⟨0, (⟨⟨['a', 'x'], 1, 0⟩, []⟩, [event.read_char true]), ⟨['b'], 0⟩⟩
      = some (⟨0, ⟨error_code.unrecoverable_source_error, "Putback failed"⟩, []⟩,
        ⟨0, (⟨⟨['a', 'x'], 2, 0⟩, []⟩,
            [event.read_char true] ++ [event.read_char true, event.undo false]),
          ⟨['b'], 0⟩⟩) :=
  ⟨(literal_is_read_once_and_matched basic_parse_context.ops faulty_source_ops
      (visit_arg string_scanners) 1
      0 ⟨range_wrapper.make ['a'], []⟩ [] ⟨['a'], 0⟩).1 'a' ⟨⟨['a'], 1, 0⟩, []⟩ rfl rfl rfl,
    (literal_is_read_once_and_matched basic_parse_context.ops faulty_source_ops
      (visit_arg string_scanners) 1
      0 ⟨range_wrapper.make ['b'], []⟩ [] ⟨['a'], 0⟩).2.1 'b' ⟨⟨['b'], 1, 0⟩, []⟩ rfl rfl rfl,
    (literal_is_read_once_and_matched basic_parse_context.ops faulty_source_ops
      (visit_arg string_scanners) 1
      0 ⟨⟨['a'], 1, 0⟩, []⟩ [event.read_char true] ⟨['b'], 0⟩).2.2
      ⟨error_code.end_of_stream, "EOF"⟩ ⟨⟨['a'], 1, 0⟩, []⟩ rfl rfl,
    (literal_is_read_once_and_matched basic_parse_context.ops faulty_source_ops
      (visit_arg string_scanners) 1
      0 ⟨⟨['a', 'x'], 1, 0⟩, []⟩ [event.read_char true] ⟨['b'], 0⟩).2.1
      'x' ⟨⟨['a', 'x'], 2, 0⟩, []⟩ rfl rfl rfl⟩

/-! ## The scan buffer -/

/-- Iterating the forward view from a position inside the staging record, with enough
fuel, yields the characters from that position on and leaves every character in the
staging record. -/
theorem copy_forward_yields_the_view (fuel : Nat) (ct : Bool) (pre src : List Char) (i : Nat)
    (hi : i ≤ pre.length) (hfuel : pre.length - i + src.length ≤ fuel) :
    scan_buffer.copy_forward fuel ⟨ct, pre, src⟩ i
      = ((pre ++ src).drop i, ⟨ct, pre ++ src, []⟩) := by
  induction fuel generalizing pre src i with
  | zero =>
    have h1 : src = [] := List.length_eq_zero.1 (by omega)
    have h2 : i = pre.length := by omega
    subst h1
    subst h2
    simp [scan_buffer.copy_forward]
  | succ fuel ih =>
    rcases Nat.lt_or_ge i pre.length with hlt | hge
    · have hget : pre.get? i = some (pre.get ⟨i, hlt⟩) := List.get?_eq_get hlt
      have hstep : scan_buffer.forward_get ⟨ct, pre, src⟩ i
          = some (pre.get ⟨i, hlt⟩, ⟨ct, pre, src⟩) := by
        simp only [scan_buffer.forward_get, hget]
      have hrec := ih pre src (i + 1) hlt (by omega)
      have hlt2 : i < (pre ++ src).length := by
        rw [List.length_append]
        omega
      have hdrop : (pre ++ src).drop i = pre.get ⟨i, hlt⟩ :: (pre ++ src).drop (i + 1) := by
        rw [List.drop_eq_getElem_cons hlt2]
        congr 1
        exact List.getElem_append_left hlt
      simp only [scan_buffer.copy_forward, hstep, hrec, hdrop]
    · have h2 : i = pre.length := by omega
      subst h2
      have hget : pre.get? pre.length = none := List.get?_eq_none.2 (le_refl _)
      cases src with
      | nil =>
        have hstep : scan_buffer.forward_get ⟨ct, pre, []⟩ pre.length = none := by
          simp only [scan_buffer.forward_get, hget, scan_buffer.fill]
        simp [scan_buffer.copy_forward, hstep]
      | cons c rest =>
        have hget2 : (pre ++ [c]).get? pre.length = some c := by simp
        have hstep : scan_buffer.forward_get ⟨ct, pre, c :: rest⟩ pre.length
            = some (c, ⟨ct, pre ++ [c], rest⟩) := by
          simp only [scan_buffer.forward_get, hget, scan_buffer.fill, hget2]
        have hrec := ih (pre ++ [c]) rest (pre.length + 1) (by simp) (by
          simp only [List.length_cons, List.length_append, List.length_nil] at hfuel ⊢
          omega)
        simp only [scan_buffer.copy_forward, hstep, hrec]
        simp

/-- Reading a forward view to its end, from any state of the buffer: every character
of the staging record and of the source is yielded, in order, and ends up in the
staging record. -/
theorem read_all_yields_the_view (b : scan_buffer) :
    b.read_all = (b.buffered ++ b.source, ⟨b.contiguous, b.buffered ++ b.source, []⟩) := by
  have h := copy_forward_yields_the_view (b.buffered.length + b.source.length) b.contiguous
    b.buffered b.source 0 (Nat.zero_le _) (by omega)
  simpa [scan_buffer.read_all] using h

/-- Iterating the forward view, completely or not, loses no character: the staging
record followed by what the source has yet to yield is the same sequence. -/
theorem copy_forward_keeps_the_characters (fuel : Nat) (b : scan_buffer) (i : Nat) :
    (scan_buffer.copy_forward fuel b i).2.buffered ++ (scan_buffer.copy_forward fuel b i).2.source
      = b.buffered ++ b.source ∧
    (scan_buffer.copy_forward fuel b i).2.contiguous = b.contiguous := by
  induction fuel generalizing b i with
  | zero => simp [scan_buffer.copy_forward]
  | succ fuel ih =>
    unfold scan_buffer.copy_forward
    rcases hstep : scan_buffer.forward_get b i with _ | ⟨c, b1⟩
    · simp
    · have hb1 : b1.buffered ++ b1.source = b.buffered ++ b.source ∧
          b1.contiguous = b.contiguous := by
        unfold scan_buffer.forward_get scan_buffer.fill at hstep
        rcases hg : b.buffered.get? i with _ | c0
        · rw [hg] at hstep
          rcases hs : b.source with _ | ⟨c1, rest⟩
          · rw [hs] at hstep
            simp at hstep
          · rw [hs] at hstep
            simp only at hstep
            split at hstep
            · simp only [Option.some.injEq, Prod.mk.injEq] at hstep
              rw [← hstep.2]
              simp
            · simp at hstep
        · rw [hg] at hstep
          simp only [Option.some.injEq, Prod.mk.injEq] at hstep
          rw [← hstep.2]
          exact ⟨rfl, rfl⟩
      simp only
      rw [(ih b1 (i + 1)).1, (ih b1 (i + 1)).2]
      exact hb1

/-- C20: a string scan buffer made from `s` is contiguous, reports `|s|` characters
read, and its contiguous segment and buffer are `s`.  A forward scan buffer made from a
view (a take view or a reverse view of a string, read front to back) is not contiguous
and reports 0 characters read when fresh; iterating its forward view yields the
characters of the view in order; afterwards the count is the length of the view and
the contiguous segment is the whole view; iterating again, or after a partial
iteration of `k` steps, yields the same characters: consumed characters remain
available. -/
theorem scan_buffer_content_is_its_source (s view : List Char) (k : Nat) :
    (make_string_scan_buffer s).is_contiguous = true ∧
    (make_string_scan_buffer s).characters_read = s.length ∧
    (make_string_scan_buffer s).get_contiguous_segment = s ∧
    (make_string_scan_buffer s).get_contiguous_buffer = s ∧
    (make_forward_scan_buffer view).is_contiguous = false ∧
    (make_forward_scan_buffer view).characters_read = 0 ∧
    (make_forward_scan_buffer view).read_all.1 = view ∧
    (make_forward_scan_buffer view).read_all.2.is_contiguous = false ∧
    (make_forward_scan_buffer view).read_all.2.characters_read = view.length ∧
    (make_forward_scan_buffer view).read_all.2.get_contiguous_segment = view ∧
    (make_forward_scan_buffer view).read_all.2.read_all.1 = view ∧
    (scan_buffer.copy_forward k (make_forward_scan_buffer view) 0).2.read_all.1 = view ∧
    (scan_buffer.copy_forward k (make_forward_scan_buffer view) 0).2.read_all.2
      = (make_forward_scan_buffer view).read_all.2 := by
  have hall : (make_forward_scan_buffer view).read_all = (view, ⟨false, view, []⟩) := by
    rw [read_all_yields_the_view]
    simp [make_forward_scan_buffer]
  have hk := copy_forward_keeps_the_characters k (make_forward_scan_buffer view) 0
  have hk1 : (scan_buffer.copy_forward k (make_forward_scan_buffer view) 0).2.buffered ++
      (scan_buffer.copy_forward k (make_forward_scan_buffer view) 0).2.source = view := by
    rw [hk.1]
    simp [make_forward_scan_buffer]
  have hk2 : (scan_buffer.copy_forward k (make_forward_scan_buffer view) 0).2.contiguous
      = false := by
    rw [hk.2]
    rfl
  refine ⟨rfl, rfl, rfl, rfl, rfl, rfl, ?_, ?_, ?_, ?_, ?_, ?_, ?_⟩
  · rw [hall]
  · rw [hall]
    rfl
  · rw [hall]
    rfl
  · rw [hall]
    rfl
  · rw [hall, read_all_yields_the_view]
    simp
  · rw [read_all_yields_the_view, hk1]
  · rw [read_all_yields_the_view, hk1, hk2, hall]

/-- The tests of `buffer_test.cpp` on "foobar": the string buffer, the forward buffer
over the take view after two steps of iteration, and the forward buffer over the
reverse view. -/
theorem scan_buffer_tests :
    (make_string_scan_buffer ['f', 'o', 'o', 'b', 'a', 'r']).characters_read = 6 ∧
    (scan_buffer.copy_forward 2
      (make_forward_scan_buffer (['f', 'o', 'o', 'b', 'a', 'r'].take 6)) 0).1 = ['f', 'o'] ∧
    (scan_buffer.copy_forward 2
        (make_forward_scan_buffer (['f', 'o', 'o', 'b', 'a', 'r'].take 6)) 0).2.read_all
      = (['f', 'o', 'o', 'b', 'a', 'r'], ⟨false, ['f', 'o', 'o', 'b', 'a', 'r'], []⟩) ∧
    (make_forward_scan_buffer ['f', 'o', 'o', 'b', 'a', 'r'].reverse).read_all
      = (['r', 'a', 'b', 'o', 'o', 'f'], ⟨false, ['r', 'a', 'b', 'o', 'o', 'f'], []⟩) := by
  decide

/-! ## The monostate argument -/

/-- C27: applying `basic_visitor` to a monostate argument returns the error
`invalid_operation`, whatever the scanners are; the parse context and the context come
back as they were: no format spec is parsed and no input is read. -/
theorem monostate_is_invalid_operation {S Val Ctx PCtx : Type}
    (Sc : scanners S Val Ctx PCtx) (ctx : Ctx) (pctx : PCtx) :
    basic_visitor.call Sc (arg_value.monostate : arg_value Val Ctx) ctx pctx
      = (⟨error_code.invalid_operation, "Cannot scan a monostate"⟩,
          arg_value.monostate, ctx, pctx) ∧
    (basic_visitor.visit_monostate ctx pctx : error × Ctx × PCtx)
      = (⟨error_code.invalid_operation, "Cannot scan a monostate"⟩, ctx, pctx) ∧
    (basic_visitor.call Sc (arg_value.monostate : arg_value Val Ctx) ctx pctx).1.good = false :=
  ⟨rfl, rfl, rfl⟩

/-! ## Infinity on the fast path -/

/-- C26: for float and double read from narrow input that is not a hex-float, when the
fast parser succeeds with an infinite value: on a text of length at least 3 whose first
character is `i` or `I` the infinite value is returned with the count of the fast
parser; on any other text the result is that of `from_chars::read` on the same text. -/
theorem fast_infinity_is_kept_only_for_inf_text {T : Type} (E : float_env T) (t : float_type)
    (strK : List Char) (charsK : Nat) (stK : process_state)
    (strF : List Char) (charsF : Nat) (stF : process_state)
    (ht : t ≠ float_type.long_double)
    (hhexK : read_float.is_hexfloat strK strK.length = false)
    (hokK : (read_float.fast_float.result E strK).ec = errc.ok)
    (hinfK : E.ops.isinf (read_float.fast_float.result E strK).value = true)
    (htextK : 3 ≤ strK.length ∧ (strK.get? 0 = some 'i' ∨ strK.get? 0 = some 'I'))
    (hhexF : read_float.is_hexfloat strF strF.length = false)
    (hokF : (read_float.fast_float.result E strF).ec = errc.ok)
    (hinfF : E.ops.isinf (read_float.fast_float.result E strF).value = true)
    (htextF : ¬ (3 ≤ strF.length ∧ (strF.get? 0 = some 'i' ∨ strF.get? 0 = some 'I'))) :
    read_float.read E false t strK charsK stK
      = some (Except.ok (read_float.fast_float.result E strK).value,
          (read_float.fast_float.result E strK).ptr, stK) ∧
    read_float.read E false t strF charsF stF
      = read_float.from_chars.read E strF charsF stF := by
  have hK : read_float.fast_float.impl E strK charsK stK
      = some (Except.ok (read_float.fast_float.result E strK).value,
          (read_float.fast_float.result E strK).ptr, stK) := by
    have h1 : (decide (3 ≤ strK.length) &&
        (decide (strK.get? 0 = some 'i') || decide (strK.get? 0 = some 'I'))) = true := by
      simpa using htextK
    simp only [read_float.fast_float.impl, hhexK, hokK, hinfK, h1]
    simp
  have hF : read_float.fast_float.impl E strF charsF stF
      = read_float.from_chars.read E strF charsF stF := by
    have h1 : (decide (3 ≤ strF.length) &&
        (decide (strF.get? 0 = some 'i') || decide (strF.get? 0 = some 'I'))) = false := by
      rw [Bool.eq_false_iff]
      intro h
      exact htextF (by simpa using h)
    simp only [read_float.fast_float.impl, hhexF, hokF, hinfF, h1]
    simp
  cases t with
  | long_double => exact absurd rfl ht
  | float => exact ⟨by simpa [read_float.read, read_float.fast_float.read] using hK,
      by simpa [read_float.read, read_float.fast_float.read] using hF⟩
  | double => exact ⟨by simpa [read_float.read, read_float.fast_float.read] using hK,
      by simpa [read_float.read, read_float.fast_float.read] using hF⟩

/-- Witness of C26: the texts "inf" and "1e999" read as a double. -/
theorem fast_infinity_witness :
    read_float.read inf_env false float_type.double ['i', 'n', 'f'] 0 ⟨['C'], 0⟩
      = some (Except.ok (read_float.fast_float.result inf_env ['i', 'n', 'f']).value,
          (read_float.fast_float.result inf_env ['i', 'n', 'f']).ptr, ⟨['C'], 0⟩) ∧
    read_float.read inf_env false float_type.double ['1', 'e', '9', '9', '9'] 0 ⟨['C'], 0⟩
      = read_float.from_chars.read inf_env ['1', 'e', '9', '9', '9'] 0 ⟨['C'], 0⟩ :=
  fast_infinity_is_kept_only_for_inf_text inf_env float_type.double
    ['i', 'n', 'f'] 0 ⟨['C'], 0⟩ ['1', 'e', '9', '9', '9'] 0 ⟨['C'], 0⟩
    (by decide) rfl rfl rfl (by decide) rfl rfl rfl (by decide)

/-! ## The readers of single characters -/

/-- C24: a char slot read from a narrow source with the presentation type none or
character: no whitespace is skipped before the read; when `read_code_unit` consumes
one unit of a source that is not empty, the slot receives the first code unit of the
source, whatever it is, and the iterator returned is one past the start; when it fails
on the empty source, the read fails with its error and the slot is unchanged.  The
integer reader plays no part. -/
theorem char_read_consumes_one_code_unit (rcu : List Int → expected Nat)
    (int_read_specs : List Int → basic_format_specs → Int → expected Nat × Int)
    (specs : basic_format_specs) (c : Int) (rest : List Int) (value : Int) (e : error)
    (htype : specs.type = presentation_type.none ∨ specs.type = presentation_type.character)
    (hone : rcu (c :: rest) = Except.ok 1)
    (hempty : rcu [] = Except.error e) :
    char_reader_base.skip_ws_before_read = false ∧
    reader_impl_for_char.read_specs rcu int_read_specs (c :: rest) specs value
      = (Except.ok 1, c) ∧
    reader_impl_for_char.read_specs rcu int_read_specs [] specs value
      = (Except.error e, value) := by
  refine ⟨rfl, ?_, ?_⟩
  · simp only [reader_impl_for_char.read_specs, htype, if_true,
      reader_impl_for_char.read_default, code_unit_reader.read, hone]
    rfl
  · simp only [reader_impl_for_char.read_specs, htype, if_true,
      reader_impl_for_char.read_default, code_unit_reader.read, hempty]

/-- Witness of C24: a slot holding `z` (122) read from the source " a" (the first code
unit is the space, 32) and from the empty source. -/
theorem char_read_witness :
    char_reader_base.skip_ws_before_read = false ∧
    reader_impl_for_char.read_specs read_code_unit (fun _ _ v => (Except.ok 0, v)) (32 :: [97])
        ⟨presentation_type.character, 0⟩ 122
      = (Except.ok 1, 32) ∧
    reader_impl_for_char.read_specs read_code_unit (fun _ _ v => (Except.ok 0, v)) []
        ⟨presentation_type.character, 0⟩ 122
      = (Except.error ⟨error_code.end_of_stream, "EOF"⟩, 122) :=
  char_read_consumes_one_code_unit read_code_unit (fun _ _ v => (Except.ok 0, v))
    ⟨presentation_type.character, 0⟩ 32 [97] 122 ⟨error_code.end_of_stream, "EOF"⟩
    (Or.inr rfl) rfl rfl

/-- C25: the wide-character read from a narrow source, for every source and every
slot.  When reading the code point fails, its error is returned and the slot is
unchanged.  When the code point is read but cannot be encoded as one wide character,
the error of the encoding is returned and the slot is unchanged.  Otherwise the slot
holds the encoding of the decoded code point and the iterator returned is the one just
after the code point.  Each of the three cases is stated on its own. -/
theorem wide_char_read_decodes_then_encodes
    (rcpi : List Int → expected (List Int × Nat)) (decode : List Int → Nat)
    (encode : Nat → Bool → expected Int) (range : List Int) (ch : Int) :
    (∀ e, rcpi range = Except.error e →
      code_point_reader_wchar.read rcpi decode encode range ch = (Except.error e, ch)) ∧
    (∀ units it e, rcpi range = Except.ok (units, it) →
      encode (decode units) true = Except.error e →
      code_point_reader_wchar.read rcpi decode encode range ch = (Except.error e, ch)) ∧
    (∀ units it w, rcpi range = Except.ok (units, it) →
      encode (decode units) true = Except.ok w →
      code_point_reader_wchar.read rcpi decode encode range ch = (Except.ok it, w)) := by
  refine ⟨?_, ?_, ?_⟩
  · intro e hD
    simp only [code_point_reader_wchar.read, code_point_reader.read, hD]
  · intro units it e hE henc
    simp only [code_point_reader_wchar.read, code_point_reader.read, hE, henc]
  · intro units it w hS henc
    simp only [code_point_reader_wchar.read, code_point_reader.read, hS, henc]

/-- Witness of C25, on UTF-8 sources.  With a 16-bit `wchar_t`: a truncated sequence,
the four code units of U+1F600 (no single wide character), and the two code units of
U+00E9 followed by `a`.  With a 32-bit `wchar_t`, where the encoding has no error: the
truncated sequence and the four code units of U+1F600, which give 128512. -/
theorem wide_char_read_witness :
    code_point_reader_wchar.read utf8_read_code_point_into utf8_decode encode_wide16
        [195] 122
      = (Except.error ⟨error_code.invalid_scanned_value, "Incomplete code point"⟩, 122) ∧
    code_point_reader_wchar.read utf8_read_code_point_into utf8_decode encode_wide16
        [240, 159, 152, 128] 122
      = (Except.error
          ⟨error_code.value_out_of_range, "Code point does not fit a wide character"⟩, 122) ∧
    code_point_reader_wchar.read utf8_read_code_point_into utf8_decode encode_wide16
        [195, 169, 97] 122
      = (Except.ok 2, 233) ∧
    code_point_reader_wchar.read utf8_read_code_point_into utf8_decode encode_wide32
        [195] 122
      = (Except.error ⟨error_code.invalid_scanned_value, "Incomplete code point"⟩, 122) ∧
    code_point_reader_wchar.read utf8_read_code_point_into utf8_decode encode_wide32
        [240, 159, 152, 128] 122
      = (Except.ok 4, 128512) :=
  ⟨(wide_char_read_decodes_then_encodes utf8_read_code_point_into utf8_decode encode_wide16
      [195] 122).1 ⟨error_code.invalid_scanned_value, "Incomplete code point"⟩ rfl,
    (wide_char_read_decodes_then_encodes utf8_read_code_point_into utf8_decode encode_wide16
      [240, 159, 152, 128] 122).2.1 [240, 159, 152, 128] 4
      ⟨error_code.value_out_of_range, "Code point does not fit a wide character"⟩ rfl rfl,
    (wide_char_read_decodes_then_encodes utf8_read_code_point_into utf8_decode encode_wide16
      [195, 169, 97] 122).2.2 [195, 169] 2 233 rfl rfl,
    (wide_char_read_decodes_then_encodes utf8_read_code_point_into utf8_decode encode_wide32
      [195] 122).1 ⟨error_code.invalid_scanned_value, "Incomplete code point"⟩ rfl,
    (wide_char_read_decodes_then_encodes utf8_read_code_point_into utf8_decode encode_wide32
      [240, 159, 152, 128] 122).2.2 [240, 159, 152, 128] 4 128512 rfl rfl⟩

/-! ## The end of the input during a whitespace skip -/

section whitespace_facts

variable {Ctx PCtx Arg Range : Type}

/-- A pass that breaks out of the loop is followed by the code after the loop. -/
theorem visit_loop_of_brk (P : parse_context_ops PCtx) (C : context_ops Ctx PCtx Arg Range)
    (d : Arg → Ctx → PCtx → error × Ctx × PCtx) (fuel : Nat) (s s1 : loop_state Ctx PCtx)
    (hgood : P.good s.pctx = true) (hbody : visit_body P C d s = control.brk s1) :
    visit_loop P C d (fuel + 1) s = some (visit_finish P C s1) := by
  simp only [visit_loop, hgood, if_true, hbody]

/-- A pass that skips whitespace is the whitespace branch on the parse context that
`should_skip_ws` moved. -/
theorem visit_body_at_whitespace (P : parse_context_ops PCtx)
    (C : context_ops Ctx PCtx Arg Range) (d : Arg → Ctx → PCtx → error × Ctx × PCtx)
    (n : Nat) (ctx : Ctx) (pctx : PCtx) (h : at_whitespace P pctx = true) :
    P.good pctx = true ∧
    visit_body P C d ⟨n, ctx, pctx⟩ = visit_skip_ws C n ctx (P.should_skip_ws pctx).2 := by
  simp only [at_whitespace, Bool.and_eq_true] at h
  obtain ⟨h0, h1⟩ := h
  refine ⟨h0, ?_⟩
  unfold visit_body
  rcases hw : P.should_skip_ws pctx with ⟨b, q1⟩
  rw [hw] at h1
  simp only at h1
  subst h1
  simp only [hw]

end whitespace_facts

/-- C23: when the next token of the format is whitespace and the skip of the input
signals `end_of_stream`, the loop ends: no undo is recorded and `end_of_stream` is not
the error of the result.  When the format has nothing left after the whitespace, the
rollback point is set and the scan succeeds with the count it had; when it has, the
scan fails with `invalid_format_string` ("Format string not exhausted"), the count is
the count it had and nothing is committed. -/
theorem exhausted_input_while_skipping_ends_the_loop {Ctx PCtx Arg Range : Type}
    (P : parse_context_ops PCtx) (C : context_ops Ctx PCtx Arg Range)
    (d : Arg → Ctx → PCtx → error × Ctx × PCtx) (fuel : Nat)
    (nA : Nat) (ctxA : Ctx) (trA : List event) (pctxA : PCtx)
    (nB : Nat) (ctxB : Ctx) (trB : List event) (pctxB : PCtx)
    (hatA : at_whitespace P pctxA = true)
    (heosA : (C.skip_range_whitespace ctxA).1.code = error_code.end_of_stream)
    (hdoneA : P.good (P.should_skip_ws pctxA).2 = false)
    (hatB : at_whitespace P pctxB = true)
    (heosB : (C.skip_range_whitespace ctxB).1.code = error_code.end_of_stream)
    (hleftB : P.good (P.should_skip_ws pctxB).2 = true) :
    visit_loop P (traced C) (traced_visit_arg d) (fuel + 1) ⟨nA, (ctxA, trA), pctxA⟩
      = some (⟨nA, error.none,
          C.get_return (C.set_rollback_point (C.skip_range_whitespace ctxA).2)⟩,
        ⟨nA, (C.set_rollback_point (C.skip_range_whitespace ctxA).2,
            trA ++ [event.skip_ws false, event.commit]), (P.should_skip_ws pctxA).2⟩) ∧
    visit_loop P (traced C) (traced_visit_arg d) (fuel + 1) ⟨nB, (ctxB, trB), pctxB⟩
      = some (⟨nB, ⟨error_code.invalid_format_string, "Format string not exhausted"⟩,
          C.get_return (C.skip_range_whitespace ctxB).2⟩,
        ⟨nB, ((C.skip_range_whitespace ctxB).2, trB ++ [event.skip_ws false]),
          (P.should_skip_ws pctxB).2⟩) := by
  have key : ∀ (n : Nat) (ctx : Ctx) (tr : List event) (pctx : PCtx),
      at_whitespace P pctx = true →
      (C.skip_range_whitespace ctx).1.code = error_code.end_of_stream →
      visit_loop P (traced C) (traced_visit_arg d) (fuel + 1) ⟨n, (ctx, tr), pctx⟩
        = some (visit_finish P (traced C)
            ⟨n, ((C.skip_range_whitespace ctx).2, tr ++ [event.skip_ws false]),
              (P.should_skip_ws pctx).2⟩) := by
    intro n ctx tr pctx hat heos
    obtain ⟨h0, hb⟩ := visit_body_at_whitespace P (traced C) (traced_visit_arg d) n
      (ctx, tr) pctx hat
    refine visit_loop_of_brk P (traced C) (traced_visit_arg d) fuel _ _ h0 ?_
    rw [hb]
    have hg : (C.skip_range_whitespace ctx).1.good = false := by
      simp [error.good, heos]
    simp only [visit_skip_ws, traced, hg, heos, Bool.not_false, if_true]
  constructor
  · rw [key nA ctxA trA pctxA hatA heosA]
    simp only [visit_finish, hdoneA, Bool.false_eq_true, if_false, traced]
    simp
  · rw [key nB ctxB trB pctxB hatB heosB]
    simp only [visit_finish, hleftB, if_true, reterror, traced]

/-- Witness of C23: after the int of the input "42" is scanned, the formats "{} " and
"{} {}" are at their whitespace and the input is exhausted. -/
theorem exhausted_input_witness :
    visit_loop basic_parse_context.ops (traced basic_context.ops)
        (traced_visit_arg (visit_arg string_scanners)) (3 + 1)
        ⟨1, (⟨⟨['4', '2'], 2, 0⟩, [slot.typed (slot_type.integer int_type.int) (value.int 42)]⟩,
          []), ⟨[' '], 1⟩⟩
      = some (⟨1, error.none,
          basic_context.ops.get_return (basic_context.ops.set_rollback_point
            (basic_context.ops.skip_range_whitespace
              ⟨⟨['4', '2'], 2, 0⟩,
                [slot.typed (slot_type.integer int_type.int) (value.int 42)]⟩).2)⟩,
        ⟨1, (basic_context.ops.set_rollback_point
            (basic_context.ops.skip_range_whitespace
              ⟨⟨['4', '2'], 2, 0⟩,
                [slot.typed (slot_type.integer int_type.int) (value.int 42)]⟩).2,
            [] ++ [event.skip_ws false, event.commit]),
          (basic_parse_context.ops.should_skip_ws ⟨[' '], 1⟩).2⟩) ∧
    visit_loop basic_parse_context.ops (traced basic_context.ops)
        (traced_visit_arg (visit_arg string_scanners)) (3 + 1)
        ⟨1, (⟨⟨['4', '2'], 2, 0⟩, [slot.typed (slot_type.integer int_type.int) (value.int 42),
            slot.typed (slot_type.integer int_type.int) (value.int 0)]⟩, []),
          ⟨[' ', '{', '}'], 1⟩⟩
      = some (⟨1, ⟨error_code.invalid_format_string, "Format string not exhausted"⟩,
          basic_context.ops.get_return (basic_context.ops.skip_range_whitespace
            ⟨⟨['4', '2'], 2, 0⟩, [slot.typed (slot_type.integer int_type.int) (value.int 42),
              slot.typed (slot_type.integer int_type.int) (value.int 0)]⟩).2⟩,
        ⟨1, ((basic_context.ops.skip_range_whitespace
            ⟨⟨['4', '2'], 2, 0⟩, [slot.typed (slot_type.integer int_type.int) (value.int 42),
              slot.typed (slot_type.integer int_type.int) (value.int 0)]⟩).2,
            [] ++ [event.skip_ws false]),
          (basic_parse_context.ops.should_skip_ws ⟨[' ', '{', '}'], 1⟩).2⟩) :=
  exhausted_input_while_skipping_ends_the_loop basic_parse_context.ops basic_context.ops
    (visit_arg string_scanners) 3
    1 ⟨⟨['4', '2'], 2, 0⟩, [slot.typed (slot_type.integer int_type.int) (value.int 42)]⟩ []
      ⟨[' '], 1⟩
    1 ⟨⟨['4', '2'], 2, 0⟩, [slot.typed (slot_type.integer int_type.int) (value.int 42),
        slot.typed (slot_type.integer int_type.int) (value.int 0)]⟩ [] ⟨[' ', '{', '}'], 1⟩
    rfl rfl rfl rfl rfl rfl

/-- The example of C23 as a whole scan: the format "{} {}" on the input "42" scans one
int and fails with `invalid_format_string`; the format "{} " on the same input
succeeds with the count 1. -/
theorem scan_into_exhausted_input :
    (∃ r s, scan ['4', '2'] ['{', '}', ' ', '{', '}']
        [slot.typed (slot_type.integer int_type.int) (value.int 0),
          slot.typed (slot_type.integer int_type.int) (value.int 0)] = some (r, s) ∧
      r.value = 1 ∧
      r.err = ⟨error_code.invalid_format_string, "Format string not exhausted"⟩) ∧
    (∃ r s, scan ['4', '2'] ['{', '}', ' ']
        [slot.typed (slot_type.integer int_type.int) (value.int 0)] = some (r, s) ∧
      r.value = 1 ∧ r.err = error.none) :=
  ⟨⟨_, _, rfl, rfl, rfl⟩, ⟨_, _, rfl, rfl, rfl⟩⟩

/-! ## Commits and undos of a run -/

section commit_facts

variable {Ctx PCtx Arg Range : Type}

/-- The error returned after an undo is an error when the original error is one. -/
theorem undo_error_not_good (rb e : error) (he : e.good = false) :
    (if rb.good then e else rb).good = false := by
  by_cases h : rb.good = true
  · rw [if_pos h]
    exact he
  · rw [if_neg h]
    simpa using h

/-- A pass of a recording run records no commit, and when it returns from `visit` the
result is an error, provided the errors held by the `expected` values of the
interfaces are errors. -/
theorem traced_body_commits (P : parse_context_ops PCtx) (C : context_ops Ctx PCtx Arg Range)
    (d : Arg → Ctx → PCtx → error × Ctx × PCtx)
    (hread : ∀ c e, (C.read_char c).1 = Except.error e → e.good = false)
    (hid : ∀ p e, (P.parse_arg_id p).1 = Except.error e → e.good = false)
    (hlookup : ∀ c p id e, (arg_wrapped C c p id).1 = Except.error e → e.good = false)
    (s : loop_state (Ctx × List event) PCtx) :
    commit_step s (visit_body P (traced C) (traced_visit_arg d) s) := by
  unfold visit_body
  split
  · unfold visit_skip_ws
    split
    next ret ctx1 hs =>
    simp only [traced, Prod.mk.injEq] at hs
    obtain ⟨rfl, rfl⟩ := hs
    split
    · next hbad =>
      split
      · simp [commit_step, commits, List.count_append]
      · rw [traced_rollback_and_return_any]
        refine ⟨by simp [commits, List.count_append], ?_⟩
        have hb : (C.skip_range_whitespace s.ctx.1).1.good = false := by simpa using hbad
        exact undo_error_not_good _ _ hb
    · simp [commit_step, commits, List.count_append]
  · split
    · unfold visit_literal
      split
      · simp [commit_step, reterror, error.good]
      · split
        · next e ctx1 hr =>
          simp only [traced, Prod.mk.injEq] at hr
          obtain ⟨he, rfl⟩ := hr
          have hb := hread _ _ he
          rw [traced_rollback_and_return_any]
          refine ⟨by simp [commits, List.count_append], ?_⟩
          exact undo_error_not_good _ _ hb
        · next ch ctx1 hr =>
          simp only [traced, Prod.mk.injEq] at hr
          obtain ⟨-, rfl⟩ := hr
          split
          · rw [traced_rollback_and_return_any]
            refine ⟨by simp [commits, List.count_append], ?_⟩
            exact undo_error_not_good _ _ rfl
          · simp [commit_step, commits, List.count_append]
    · unfold visit_argument
      split
      · next e pctx3 hp =>
        have hb := hid _ e (by rw [hp])
        simp [commit_step, reterror, hb]
      · split
        · next e pctx4 ha =>
          rw [arg_wrapped_traced] at ha
          have hb := hlookup _ _ _ e (by rw [ha])
          simp [commit_step, reterror, hb]
        · split
          · simp [commit_step, reterror, error.good]
          · split
            · simp [commit_step, reterror, error.good]
            · split
              next hd =>
              simp only [traced_visit_arg, Prod.mk.injEq] at hd
              obtain ⟨rfl, rfl, rfl⟩ := hd
              split
              · next arg pctx4 _ _ _ _ hbad =>
                have hbad1 : (d arg s.ctx.1 pctx4).1.good = false := by simpa using hbad
                rw [traced_rollback_and_return_any]
                refine ⟨by simp [commits, List.count_append], ?_⟩
                exact undo_error_not_good _ _ hbad1
              · simp [commit_step, commits, List.count_append]

end commit_facts

section commit_run

variable {Ctx PCtx Arg Range : Type}

/-- The code after the loop, from a record without a commit: a success comes with one
commit, recorded last, and an exhausted format; an error comes with none. -/
theorem traced_finish_commits (P : parse_context_ops PCtx)
    (C : context_ops Ctx PCtx Arg Range) (s : loop_state (Ctx × List event) PCtx)
    (hs : commits s.ctx.2 = 0) :
    ((visit_finish P (traced C) s).1.err.good = true →
      (∃ tr, (visit_finish P (traced C) s).2.ctx.2 = tr ++ [event.commit] ∧ commits tr = 0) ∧
      commits (visit_finish P (traced C) s).2.ctx.2 = 1 ∧
      P.good (visit_finish P (traced C) s).2.pctx = false) ∧
    ((visit_finish P (traced C) s).1.err.good = false →
      commits (visit_finish P (traced C) s).2.ctx.2 = 0) := by
  unfold visit_finish
  split
  · refine ⟨fun h => ?_, fun _ => hs⟩
    simp [reterror, error.good] at h
  · next hg =>
    refine ⟨fun _ => ⟨⟨s.ctx.2, rfl, hs⟩, ?_, by simpa using hg⟩, fun h => ?_⟩
    · show commits (s.ctx.2 ++ [event.commit]) = 1
      unfold commits at hs ⊢
      rw [List.count_append, hs]
      rfl
    · simp [error.none, error.good] at h

end commit_run

/-- The errors of the character reads of a string scan are errors. -/
theorem string_read_char_error (c : basic_context) (e : error)
    (h : (basic_context.ops.read_char c).1 = Except.error e) : e.good = false := by
  simp only [basic_context.ops, range_wrapper.read_char] at h
  split at h
  · simp only [Except.error.injEq] at h
    rw [← h]
    rfl
  · simp at h

/-- The parse of an argument id of a string scan has no error. -/
theorem string_parse_arg_id_error (p : basic_parse_context) (e : error)
    (h : (basic_parse_context.ops.parse_arg_id p).1 = Except.error e) : e.good = false := by
  simp [basic_parse_context.ops, basic_parse_context.parse_arg_id] at h

/-- The lookup of an argument of a string scan has no error. -/
theorem string_lookup_error (c : basic_context) (p : basic_parse_context) (id : List Char)
    (e : error) (h : (arg_wrapped basic_context.ops c p id).1 = Except.error e) :
    e.good = false := by
  unfold arg_wrapped at h
  split at h
  · simp [basic_context.ops, basic_context.next_arg] at h
  · split at h
    · simp [basic_context.ops, basic_context.arg_at] at h
    · simp [basic_context.ops, basic_context.arg_named] at h

/-- C28: in every run of `visit` that returns, over interfaces whose `expected` values
hold an error only when it is one: when the result is a success, one commit
(`set_rollback_point`) is recorded, it is the last call of the run, and the format
parse context is exhausted; when the result is an error, no commit is recorded.  When
the parse context moves forward the run does return, and the recording run and the
run itself give the same result. -/
theorem commit_exactly_on_success {Ctx PCtx Arg Range : Type}
    (P : parse_context_ops PCtx) (C : context_ops Ctx PCtx Arg Range)
    (d : Arg → Ctx → PCtx → error × Ctx × PCtx) (μ : PCtx → Nat)
    (hp : makes_progress P C d μ)
    (hread : ∀ c e, (C.read_char c).1 = Except.error e → e.good = false)
    (hid : ∀ p e, (P.parse_arg_id p).1 = Except.error e → e.good = false)
    (hlookup : ∀ c p id e, (arg_wrapped C c p id).1 = Except.error e → e.good = false)
    (ctx : Ctx) (pctx : PCtx) :
    (∃ r s, visit P (traced C) (traced_visit_arg d) (μ pctx + 1) (ctx, []) pctx = some (r, s) ∧
      visit P C d (μ pctx + 1) ctx pctx = some (r, erase s)) ∧
    ∀ fuel r s, visit P (traced C) (traced_visit_arg d) fuel (ctx, []) pctx = some (r, s) →
      (r.err.good = true →
        (∃ tr, s.ctx.2 = tr ++ [event.commit] ∧ commits tr = 0) ∧
        commits s.ctx.2 = 1 ∧ P.good s.pctx = false) ∧
      (r.err.good = false → commits s.ctx.2 = 0) := by
  constructor
  · obtain ⟨res, hres⟩ := visit_terminates P (traced C) (traced_visit_arg d) μ
      (traced_makes_progress P C d μ hp) (μ pctx + 1) (ctx, []) pctx (Nat.lt_succ_self _)
    have her := visit_erases P C d (μ pctx + 1) ctx [] pctx
    rw [hres] at her
    exact ⟨res.1, res.2, hres, her.symm⟩
  · intro fuel r s hres
    unfold visit at hres
    split at hres
    next ret ctx1 hs =>
    simp only [traced, Prod.mk.injEq] at hs
    obtain ⟨rfl, rfl⟩ := hs
    split at hres
    · next hbad =>
      simp only [Option.some.injEq, Prod.mk.injEq] at hres
      obtain ⟨rfl, rfl⟩ := hres
      have hb : (C.skip_range_whitespace ctx).1.good = false := by simpa using hbad
      refine ⟨fun h => ?_, fun _ => by simp [commits]⟩
      simp only [reterror] at h
      rw [hb] at h
      exact absurd h (by simp)
    · refine visit_loop_invariant P (traced C) (traced_visit_arg d)
        (fun s => commits s.ctx.2 = 0)
        (fun res => (res.1.err.good = true →
            (∃ tr, res.2.ctx.2 = tr ++ [event.commit] ∧ commits tr = 0) ∧
            commits res.2.ctx.2 = 1 ∧ P.good res.2.pctx = false) ∧
          (res.1.err.good = false → commits res.2.ctx.2 = 0))
        ?_ ?_ ?_ ?_ fuel _ (r, s) ?_ hres
      · intro s0 s1 h0 _ hb
        have := traced_body_commits P C d hread hid hlookup s0
        rw [hb] at this
        simp only [commit_step] at this
        rw [this, h0]
      · intro s0 s1 h0 _ hb
        have := traced_body_commits P C d hread hid hlookup s0
        rw [hb] at this
        simp only [commit_step] at this
        exact traced_finish_commits P C s1 (by rw [this, h0])
      · intro s0 r0 s1 h0 _ hb
        have := traced_body_commits P C d hread hid hlookup s0
        rw [hb] at this
        simp only [commit_step] at this
        refine ⟨fun h => ?_, fun _ => by rw [this.1, h0]⟩
        simp only at h
        rw [this.2] at h
        exact absurd h (by simp)
      · intro s0 h0 _
        exact traced_finish_commits P C s0 h0
      · simp [commits]

/-- Witness of C28: the scan of "42 7" with the format "{} {}" into two ints. -/
theorem commit_exactly_on_success_witness :
    (∃ r s, visit basic_parse_context.ops (traced basic_context.ops)
        (traced_visit_arg (visit_arg string_scanners))
        ((fun p : basic_parse_context => p.str.length) ⟨['{', '}', ' ', '{', '}'], 0⟩ + 1)
        (⟨range_wrapper.make ['4', '2', ' ', '7'],
          [slot.typed (slot_type.integer int_type.int) (value.int 0),
            slot.typed (slot_type.integer int_type.int) (value.int 0)]⟩, [])
        ⟨['{', '}', ' ', '{', '}'], 0⟩ = some (r, s) ∧
      visit basic_parse_context.ops basic_context.ops (visit_arg string_scanners)
        ((fun p : basic_parse_context => p.str.length) ⟨['{', '}', ' ', '{', '}'], 0⟩ + 1)
        ⟨range_wrapper.make ['4', '2', ' ', '7'],
          [slot.typed (slot_type.integer int_type.int) (value.int 0),
            slot.typed (slot_type.integer int_type.int) (value.int 0)]⟩
        ⟨['{', '}', ' ', '{', '}'], 0⟩ = some (r, erase s)) ∧
    ∀ fuel r s, visit basic_parse_context.ops (traced basic_context.ops)
        (traced_visit_arg (visit_arg string_scanners)) fuel
        (⟨range_wrapper.make ['4', '2', ' ', '7'],
          [slot.typed (slot_type.integer int_type.int) (value.int 0),
            slot.typed (slot_type.integer int_type.int) (value.int 0)]⟩, [])
        ⟨['{', '}', ' ', '{', '}'], 0⟩ = some (r, s) →
      (r.err.good = true →
        (∃ tr, s.ctx.2 = tr ++ [event.commit] ∧ commits tr = 0) ∧
        commits s.ctx.2 = 1 ∧ basic_parse_context.ops.good s.pctx = false) ∧
      (r.err.good = false → commits s.ctx.2 = 0) :=
  commit_exactly_on_success basic_parse_context.ops basic_context.ops
    (visit_arg string_scanners) (fun p => p.str.length) string_scan_makes_progress
    string_read_char_error string_parse_arg_id_error string_lookup_error
    ⟨range_wrapper.make ['4', '2', ' ', '7'],
      [slot.typed (slot_type.integer int_type.int) (value.int 0),
        slot.typed (slot_type.integer int_type.int) (value.int 0)]⟩
    ⟨['{', '}', ' ', '{', '}'], 0⟩

/-! ## The failures of a pass and the undo -/

section failure_facts

variable {Ctx PCtx Arg Range : Type}

/-- A whitespace skip that fails with another error than `end_of_stream` is followed
by the rollback. -/
theorem body_whitespace_failure (P : parse_context_ops PCtx)
    (C : context_ops Ctx PCtx Arg Range) (d : Arg → Ctx → PCtx → error × Ctx × PCtx)
    (n : Nat) (ctx : Ctx) (tr : List event) (pctx : PCtx)
    (hat : at_whitespace P pctx = true)
    (hbad : (C.skip_range_whitespace ctx).1.good = false)
    (hne : (C.skip_range_whitespace ctx).1.code ≠ error_code.end_of_stream) :
    P.good pctx = true ∧
    visit_body P (traced C) (traced_visit_arg d) ⟨n, (ctx, tr), pctx⟩
      = rollback_and_return (traced C) n
          ((C.skip_range_whitespace ctx).2, tr ++ [event.skip_ws false])
          (P.should_skip_ws pctx).2 (C.skip_range_whitespace ctx).1 := by
  obtain ⟨h0, hb⟩ := visit_body_at_whitespace P (traced C) (traced_visit_arg d) n
    (ctx, tr) pctx hat
  refine ⟨h0, ?_⟩
  rw [hb]
  simp only [visit_skip_ws, traced, hbad, hne, Bool.not_false, if_true, if_false]

/-- A failed read of a literal is followed by the rollback. -/
theorem body_literal_read_failure (P : parse_context_ops PCtx)
    (C : context_ops Ctx PCtx Arg Range) (d : Arg → Ctx → PCtx → error × Ctx × PCtx)
    (n : Nat) (ctx ctx1 : Ctx) (tr : List event) (pctx : PCtx) (e : error)
    (hat : at_literal P pctx = true)
    (hread : C.read_char ctx = (Except.error e, ctx1)) :
    P.good pctx = true ∧
    visit_body P (traced C) (traced_visit_arg d) ⟨n, (ctx, tr), pctx⟩
      = rollback_and_return (traced C) n (ctx1, tr ++ [event.read_char false])
          (tested_pctx P pctx) e := by
  obtain ⟨h0, h1, hb⟩ := visit_body_at_literal P (traced C) (traced_visit_arg d) n
    (ctx, tr) pctx hat
  refine ⟨h0, ?_⟩
  rw [hb]
  unfold visit_literal
  have hr : (traced C).read_char (ctx, tr)
      = (Except.error e, (ctx1, tr ++ [event.read_char false])) := by
    simp only [traced, hread]
    rfl
  simp only [h1, hr, Bool.not_true, Bool.false_eq_true, if_false]

/-- A character that is not the literal is followed by the rollback. -/
theorem body_literal_mismatch (P : parse_context_ops PCtx)
    (C : context_ops Ctx PCtx Arg Range) (d : Arg → Ctx → PCtx → error × Ctx × PCtx)
    (n : Nat) (ctx ctx1 : Ctx) (tr : List event) (pctx : PCtx) (ch : Char)
    (hat : at_literal P pctx = true)
    (hread : C.read_char ctx = (Except.ok ch, ctx1))
    (hcheck : P.check_literal (tested_pctx P pctx) ch = false) :
    P.good pctx = true ∧
    visit_body P (traced C) (traced_visit_arg d) ⟨n, (ctx, tr), pctx⟩
      = rollback_and_return (traced C) n (ctx1, tr ++ [event.read_char true])
          (tested_pctx P pctx)
          ⟨error_code.invalid_scanned_value,
            "Expected character from format string not found in the stream"⟩ := by
  obtain ⟨h0, h1, hb⟩ := visit_body_at_literal P (traced C) (traced_visit_arg d) n
    (ctx, tr) pctx hat
  refine ⟨h0, ?_⟩
  rw [hb]
  unfold visit_literal
  have hr : (traced C).read_char (ctx, tr)
      = (Except.ok ch, (ctx1, tr ++ [event.read_char true])) := by
    simp only [traced, hread]
    rfl
  simp only [h1, hr, hcheck, Bool.not_true, Bool.not_false, Bool.false_eq_true, if_false,
    if_true]

/-- A failed call of the dispatcher is followed by the rollback. -/
theorem body_dispatch_failure (P : parse_context_ops PCtx)
    (C : context_ops Ctx PCtx Arg Range) (d : Arg → Ctx → PCtx → error × Ctx × PCtx)
    (n : Nat) (ctx : Ctx) (tr : List event) (pctx p1 p2 : PCtx) (id : List Char) (arg : Arg)
    (hat : at_argument P pctx = true)
    (hid : P.parse_arg_id (tested_pctx P pctx) = (Except.ok id, p1))
    (harg : arg_wrapped C ctx p1 id = (Except.ok arg, p2))
    (hgood : P.good p2 = true)
    (hfull : C.arg_good arg = true)
    (hfail : (d arg ctx p2).1.good = false) :
    P.good pctx = true ∧
    visit_body P (traced C) (traced_visit_arg d) ⟨n, (ctx, tr), pctx⟩
      = rollback_and_return (traced C) n
          ((d arg ctx p2).2.1, tr ++ [event.dispatch false]) (d arg ctx p2).2.2
          (d arg ctx p2).1 := by
  obtain ⟨h0, hb⟩ := visit_body_at_argument P (traced C) (traced_visit_arg d) n
    (ctx, tr) pctx hat
  refine ⟨h0, ?_⟩
  rw [hb]
  unfold visit_argument
  rw [hid]
  have hg : (traced C).arg_good arg = true := hfull
  simp only [arg_wrapped_traced, harg, hgood, hg, Bool.not_true, Bool.false_eq_true,
    if_false]
  simp only [traced_visit_arg, hfail, Bool.not_false, if_true]

end failure_facts

/-- C30: a pass of the loop of `visit` from any state, in each of the four places
where a failure is followed by the undo, each taken on its own: a whitespace skip that
fails with another error than `end_of_stream`, a failed read of a literal, a character
that is not the literal, and a failed call of the dispatcher.  `visit` calls the undo
once and returns: the error of the result is the original error when the undo succeeds
and the error of the undo when the undo fails; the count is the count it had. -/
theorem undo_error_takes_precedence {Ctx PCtx Arg Range : Type}
    (P : parse_context_ops PCtx) (C : context_ops Ctx PCtx Arg Range)
    (d : Arg → Ctx → PCtx → error × Ctx × PCtx) (fuel : Nat)
    (n : Nat) (ctx : Ctx) (tr : List event) (pctx : PCtx) :
    (at_whitespace P pctx = true →
      (C.skip_range_whitespace ctx).1.good = false →
      (C.skip_range_whitespace ctx).1.code ≠ error_code.end_of_stream →
      visit_loop P (traced C) (traced_visit_arg d) (fuel + 1) ⟨n, (ctx, tr), pctx⟩
        = some (⟨n,
            if (C.reset_to_rollback_point (C.skip_range_whitespace ctx).2).1.good
            then (C.skip_range_whitespace ctx).1
            else (C.reset_to_rollback_point (C.skip_range_whitespace ctx).2).1,
            C.get_return (C.reset_to_rollback_point (C.skip_range_whitespace ctx).2).2⟩,
          ⟨n, ((C.reset_to_rollback_point (C.skip_range_whitespace ctx).2).2,
              tr ++ [event.skip_ws false] ++
                [event.undo (C.reset_to_rollback_point (C.skip_range_whitespace ctx).2).1.good]),
            (P.should_skip_ws pctx).2⟩)) ∧
    (∀ (e : error) (ctx1 : Ctx), at_literal P pctx = true →
      C.read_char ctx = (Except.error e, ctx1) →
      visit_loop P (traced C) (traced_visit_arg d) (fuel + 1) ⟨n, (ctx, tr), pctx⟩
        = some (⟨n,
            if (C.reset_to_rollback_point ctx1).1.good then e
            else (C.reset_to_rollback_point ctx1).1,
            C.get_return (C.reset_to_rollback_point ctx1).2⟩,
          ⟨n, ((C.reset_to_rollback_point ctx1).2,
              tr ++ [event.read_char false] ++
                [event.undo (C.reset_to_rollback_point ctx1).1.good]),
            tested_pctx P pctx⟩)) ∧
    (∀ (ch : Char) (ctx1 : Ctx), at_literal P pctx = true →
      C.read_char ctx = (Except.ok ch, ctx1) →
      P.check_literal (tested_pctx P pctx) ch = false →
      visit_loop P (traced C) (traced_visit_arg d) (fuel + 1) ⟨n, (ctx, tr), pctx⟩
        = some (⟨n,
            if (C.reset_to_rollback_point ctx1).1.good
            then ⟨error_code.invalid_scanned_value,
              "Expected character from format string not found in the stream"⟩
            else (C.reset_to_rollback_point ctx1).1,
            C.get_return (C.reset_to_rollback_point ctx1).2⟩,
          ⟨n, ((C.reset_to_rollback_point ctx1).2,
              tr ++ [event.read_char true] ++
                [event.undo (C.reset_to_rollback_point ctx1).1.good]),
            tested_pctx P pctx⟩)) ∧
    (∀ (id : List Char) (p1 p2 : PCtx) (arg : Arg), at_argument P pctx = true →
      P.parse_arg_id (tested_pctx P pctx) = (Except.ok id, p1) →
      arg_wrapped C ctx p1 id = (Except.ok arg, p2) →
      P.good p2 = true →
      C.arg_good arg = true →
      (d arg ctx p2).1.good = false →
      visit_loop P (traced C) (traced_visit_arg d) (fuel + 1) ⟨n, (ctx, tr), pctx⟩
        = some (⟨n,
            if (C.reset_to_rollback_point (d arg ctx p2).2.1).1.good then (d arg ctx p2).1
            else (C.reset_to_rollback_point (d arg ctx p2).2.1).1,
            C.get_return (C.reset_to_rollback_point (d arg ctx p2).2.1).2⟩,
          ⟨n, ((C.reset_to_rollback_point (d arg ctx p2).2.1).2,
              tr ++ [event.dispatch false] ++
                [event.undo (C.reset_to_rollback_point (d arg ctx p2).2.1).1.good]),
            (d arg ctx p2).2.2⟩)) := by
  refine ⟨?_, ?_, ?_, ?_⟩
  · intro hat hbad hne
    obtain ⟨h0, hb⟩ := body_whitespace_failure P C d n ctx tr pctx hat hbad hne
    refine visit_loop_of_ret P (traced C) (traced_visit_arg d) fuel _ _ _ h0 ?_
    rw [hb, traced_rollback_and_return_any]
  · intro e ctx1 hat hread
    obtain ⟨h0, hb⟩ := body_literal_read_failure P C d n ctx ctx1 tr pctx e hat hread
    refine visit_loop_of_ret P (traced C) (traced_visit_arg d) fuel _ _ _ h0 ?_
    rw [hb, traced_rollback_and_return_any]
  · intro ch ctx1 hat hread hcheck
    obtain ⟨h0, hb⟩ := body_literal_mismatch P C d n ctx ctx1 tr pctx ch hat hread hcheck
    refine visit_loop_of_ret P (traced C) (traced_visit_arg d) fuel _ _ _ h0 ?_
    rw [hb, traced_rollback_and_return_any]
  · intro id p1 p2 arg hat hid harg hgood hfull hfail
    obtain ⟨h0, hb⟩ := body_dispatch_failure P C d n ctx tr pctx p1 p2 id arg hat
      hid harg hgood hfull hfail
    refine visit_loop_of_ret P (traced C) (traced_visit_arg d) fuel _ _ _ h0 ?_
    rw [hb, traced_rollback_and_return_any]

/-- Witness of C30, over a source that fails at `!` and puts back one character at
most.  After "42" is scanned from "42!", the whitespace skip fails and so does the
undo of two characters: the error of the undo is returned.  After "42" is scanned from
"42 foo", the dispatcher fails on "foo" and so does the undo of three characters: the
error of the undo is returned in place of the error of the dispatcher.  In the three
other runs (the literal `a` on an exhausted input, the literal `a` on the input "b", an
int on the input "foo") the undo succeeds and the original error is returned. -/
theorem undo_error_witness :
    visit_loop basic_parse_context.ops (traced faulty_source_ops)
        (traced_visit_arg (visit_arg string_scanners)) (3 + 1)
        ⟨1, (⟨⟨['4', '2', '!'], 2, 0⟩, []⟩, []), ⟨[' ', '{', '}'], 1⟩⟩
      = some (⟨1, ⟨error_code.unrecoverable_source_error, "Putback failed"⟩, ['!']⟩,
        ⟨1, (⟨⟨['4', '2', '!'], 2, 0⟩, []⟩,
            [] ++ [event.skip_ws false] ++ [event.undo false]), ⟨['{', '}'], 1⟩⟩) ∧
    visit_loop basic_parse_context.ops (traced faulty_source_ops)
        (traced_visit_arg (visit_arg string_scanners)) (3 + 1)
        ⟨0, (⟨⟨['x'], 1, 0⟩, []⟩, []), ⟨['a'], 0⟩⟩
      = some (⟨0, ⟨error_code.end_of_stream, "EOF"⟩, ['x']⟩,
        ⟨0, (⟨⟨['x'], 0, 0⟩, []⟩,
            [] ++ [event.read_char false] ++ [event.undo true]), ⟨['a'], 0⟩⟩) ∧
    visit_loop basic_parse_context.ops (traced faulty_source_ops)
        (traced_visit_arg (visit_arg string_scanners)) (3 + 1)
        ⟨0, (⟨⟨['b'], 0, 0⟩, []⟩, []), ⟨['a'], 0⟩⟩
      = some (⟨0, ⟨error_code.invalid_scanned_value,
            "Expected character from format string not found in the stream"⟩, ['b']⟩,
        ⟨0, (⟨⟨['b'], 0, 0⟩, []⟩,
            [] ++ [event.read_char true] ++ [event.undo true]), ⟨['a'], 0⟩⟩) ∧
    visit_loop basic_parse_context.ops (traced faulty_source_ops)
        (traced_visit_arg (visit_arg string_scanners)) (3 + 1)
        ⟨0, (⟨⟨['f', 'o', 'o'], 0, 0⟩,
          [slot.typed (slot_type.integer int_type.int) (value.int 0)]⟩, []), ⟨['{', '}'], 0⟩⟩
      = some (⟨0, ⟨error_code.invalid_scanned_value, "No digits"⟩, ['f', 'o', 'o']⟩,
        ⟨0, (⟨⟨['f', 'o', 'o'], 0, 0⟩,
            [slot.typed (slot_type.integer int_type.int) (value.int 0)]⟩,
            [] ++ [event.dispatch false] ++ [event.undo true]), ⟨['}'], 1⟩⟩) ∧
    visit_loop basic_parse_context.ops (traced faulty_source_ops)
        (traced_visit_arg (visit_arg string_scanners)) (3 + 1)
        ⟨1, (⟨⟨['4', '2', ' ', 'f', 'o', 'o'], 3, 0⟩,
          [slot.typed (slot_type.integer int_type.int) (value.int 42),
            slot.typed (slot_type.integer int_type.int) (value.int 0)]⟩, []), ⟨['{', '}'], 1⟩⟩
      = some (⟨1, ⟨error_code.unrecoverable_source_error, "Putback failed"⟩, ['f', 'o', 'o']⟩,
        ⟨1, (⟨⟨['4', '2', ' ', 'f', 'o', 'o'], 3, 0⟩,
            [slot.typed (slot_type.integer int_type.int) (value.int 42),
              slot.typed (slot_type.integer int_type.int) (value.int 0)]⟩,
            [] ++ [event.dispatch false] ++ [event.undo false]), ⟨['}'], 2⟩⟩) :=
  ⟨(undo_error_takes_precedence basic_parse_context.ops faulty_source_ops
      (visit_arg string_scanners) 3
      1 ⟨⟨['4', '2', '!'], 2, 0⟩, []⟩ [] ⟨[' ', '{', '}'], 1⟩).1 rfl rfl (by decide),
    (undo_error_takes_precedence basic_parse_context.ops faulty_source_ops
      (visit_arg string_scanners) 3
      0 ⟨⟨['x'], 1, 0⟩, []⟩ [] ⟨['a'], 0⟩).2.1
      ⟨error_code.end_of_stream, "EOF"⟩ ⟨⟨['x'], 1, 0⟩, []⟩ rfl rfl,
    (undo_error_takes_precedence basic_parse_context.ops faulty_source_ops
      (visit_arg string_scanners) 3
      0 ⟨⟨['b'], 0, 0⟩, []⟩ [] ⟨['a'], 0⟩).2.2.1 'b' ⟨⟨['b'], 1, 0⟩, []⟩ rfl rfl rfl,
    (undo_error_takes_precedence basic_parse_context.ops faulty_source_ops
      (visit_arg string_scanners) 3
      0 ⟨⟨['f', 'o', 'o'], 0, 0⟩,
        [slot.typed (slot_type.integer int_type.int) (value.int 0)]⟩ [] ⟨['{', '}'], 0⟩).2.2.2
      [] ⟨['}'], 0⟩ ⟨['}'], 1⟩ (some 0) rfl rfl rfl rfl rfl rfl,
    (undo_error_takes_precedence basic_parse_context.ops faulty_source_ops
      (visit_arg string_scanners) 3
      1 ⟨⟨['4', '2', ' ', 'f', 'o', 'o'], 3, 0⟩,
        [slot.typed (slot_type.integer int_type.int) (value.int 42),
          slot.typed (slot_type.integer int_type.int) (value.int 0)]⟩ [] ⟨['{', '}'], 1⟩).2.2.2
      [] ⟨['}'], 1⟩ ⟨['}'], 2⟩ (some 1) rfl rfl rfl rfl rfl rfl⟩

/-- C29: where `visit` calls the undo.  In the whitespace branch one undo is recorded
exactly when the skip fails with another error than `end_of_stream`; in the literal
branch, exactly when the format is not exhausted and the read fails or reads another
character; in the argument branch, exactly when the dispatcher is called and fails;
a pass of the loop is one of these three branches, and no branch records an undo
otherwise.  A failing initial skip, an error of the parse of the argument id, a failed
lookup, the end of the format string in the literal or in the argument branch, an
empty argument and a format string that is not exhausted return their error with the
record and the context as they were, and the code after the loop records no undo. -/
theorem undo_on_exactly_three_failures {Ctx PCtx Arg Range : Type}
    (P : parse_context_ops PCtx) (C : context_ops Ctx PCtx Arg Range)
    (d : Arg → Ctx → PCtx → error × Ctx × PCtx) (fuel n : Nat) (ctx : Ctx)
    (tr : List event) (pctx : PCtx) :
    undos (control.record (visit_skip_ws (traced C) n (ctx, tr) pctx :
        control (Ctx × List event) PCtx Range))
      = undos tr + (if (C.skip_range_whitespace ctx).1.good = false ∧
          (C.skip_range_whitespace ctx).1.code ≠ error_code.end_of_stream then 1 else 0) ∧
    undos (control.record (visit_literal P (traced C) n (ctx, tr) pctx))
      = undos tr + (if P.good pctx = true ∧ literal_fails P C ctx pctx = true then 1 else 0) ∧
    undos (control.record (visit_argument P (traced C) (traced_visit_arg d) n (ctx, tr) pctx))
      = undos tr + (if dispatch_fails P C d ctx pctx = true then 1 else 0) ∧
    (visit_body P (traced C) (traced_visit_arg d) ⟨n, (ctx, tr), pctx⟩
        = visit_skip_ws (traced C) n (ctx, tr) (P.should_skip_ws pctx).2 ∨
      visit_body P (traced C) (traced_visit_arg d) ⟨n, (ctx, tr), pctx⟩
        = visit_literal P (traced C) n (ctx, tr) (tested_pctx P pctx) ∨
      visit_body P (traced C) (traced_visit_arg d) ⟨n, (ctx, tr), pctx⟩
        = visit_argument P (traced C) (traced_visit_arg d) n (ctx, tr) (tested_pctx P pctx)) ∧
    ((C.skip_range_whitespace ctx).1.good = false →
      visit P (traced C) (traced_visit_arg d) fuel (ctx, tr) pctx
        = some (⟨0, (C.skip_range_whitespace ctx).1,
            C.get_return (C.skip_range_whitespace ctx).2⟩,
          ⟨0, ((C.skip_range_whitespace ctx).2, tr ++ [event.skip_ws false]), pctx⟩)) ∧
    (∀ e p1, P.parse_arg_id pctx = (Except.error e, p1) →
      visit_argument P (traced C) (traced_visit_arg d) n (ctx, tr) pctx
        = control.ret ⟨n, e, C.get_return ctx⟩ ⟨n, (ctx, tr), p1⟩) ∧
    (∀ id p1 e p2, P.parse_arg_id pctx = (Except.ok id, p1) →
      arg_wrapped C ctx p1 id = (Except.error e, p2) →
      visit_argument P (traced C) (traced_visit_arg d) n (ctx, tr) pctx
        = control.ret ⟨n, e, C.get_return ctx⟩ ⟨n, (ctx, tr), p2⟩) ∧
    (P.good pctx = false →
      visit_literal P (traced C) n (ctx, tr) pctx
        = control.ret ⟨n, ⟨error_code.invalid_format_string, "Unexpected end of format string"⟩,
            C.get_return ctx⟩ ⟨n, (ctx, tr), pctx⟩) ∧
    (∀ id p1 a p2, P.parse_arg_id pctx = (Except.ok id, p1) →
      arg_wrapped C ctx p1 id = (Except.ok a, p2) → P.good p2 = false →
      visit_argument P (traced C) (traced_visit_arg d) n (ctx, tr) pctx
        = control.ret
            ⟨n, ⟨error_code.invalid_format_string, "Unexpected end of format argument"⟩,
              C.get_return ctx⟩ ⟨n, (ctx, tr), p2⟩) ∧
    (∀ id p1 a p2, P.parse_arg_id pctx = (Except.ok id, p1) →
      arg_wrapped C ctx p1 id = (Except.ok a, p2) → P.good p2 = true →
      C.arg_good a = false →
      visit_argument P (traced C) (traced_visit_arg d) n (ctx, tr) pctx
        = control.ret
            ⟨n, ⟨error_code.invalid_format_string,
              "Mismatch between number of arguments and \x27\x7b\x7d\x27 in the format string"⟩,
              C.get_return ctx⟩ ⟨n, (ctx, tr), p2⟩) ∧
    (P.good pctx = true →
      visit_finish P (traced C) ⟨n, (ctx, tr), pctx⟩
        = (⟨n, ⟨error_code.invalid_format_string, "Format string not exhausted"⟩,
            C.get_return ctx⟩, ⟨n, (ctx, tr), pctx⟩)) ∧
    undos (visit_finish P (traced C) ⟨n, (ctx, tr), pctx⟩).2.ctx.2 = undos tr := by
  have hu : ∀ (l : List event) (b : Bool), undos (l ++ [event.undo b]) = undos l + 1 := by
    intro l b
    cases b <;> simp [undos, List.count_append] <;> omega
  have hw : ∀ (l : List event) (b : Bool), undos (l ++ [event.skip_ws b]) = undos l := by
    intro l b
    simp [undos, List.count_append]
  have hr : ∀ (l : List event) (b : Bool), undos (l ++ [event.read_char b]) = undos l := by
    intro l b
    simp [undos, List.count_append]
  have hdp : ∀ (l : List event) (b : Bool), undos (l ++ [event.dispatch b]) = undos l := by
    intro l b
    simp [undos, List.count_append]
  have hc : ∀ (l : List event), undos (l ++ [event.commit]) = undos l := by
    intro l
    simp [undos, List.count_append]
  have hwu : ∀ (l : List event) (b : Bool),
      undos (l ++ [event.skip_ws false, event.undo b]) = undos l + 1 := by
    intro l b
    cases b <;> simp [undos, List.count_append] <;> omega
  have hru : ∀ (l : List event) (c b : Bool),
      undos (l ++ [event.read_char c, event.undo b]) = undos l + 1 := by
    intro l c b
    cases b <;> simp [undos, List.count_append] <;> omega
  have hdu : ∀ (l : List event) (b : Bool),
      undos (l ++ [event.dispatch false, event.undo b]) = undos l + 1 := by
    intro l b
    cases b <;> simp [undos, List.count_append] <;> omega
  refine ⟨?_, ?_, ?_, ?_, ?_, ?_, ?_, ?_, ?_, ?_, ?_, ?_⟩
  · by_cases hg : (C.skip_range_whitespace ctx).1.good = true
    · simp [visit_skip_ws, traced, hg, control.record, hw]
    · have hg1 : (C.skip_range_whitespace ctx).1.good = false := by simpa using hg
      by_cases he : (C.skip_range_whitespace ctx).1.code = error_code.end_of_stream
      · simp [visit_skip_ws, traced, hg1, he, control.record, hw]
      · have hb := traced_rollback_and_return_any C n (C.skip_range_whitespace ctx).2
          (tr ++ [event.skip_ws false]) pctx (C.skip_range_whitespace ctx).1
        simp only [visit_skip_ws, traced, hg1, he, Bool.not_false, if_true, if_false] at hb ⊢
        rw [hb]
        simp [control.record, hwu, hg1, he]
  · by_cases hg : P.good pctx = true
    · rcases hrd : C.read_char ctx with ⟨res, ctx1⟩
      have hrd1 : (C.read_char ctx).1 = res := by rw [hrd]
      have hrd2 : (C.read_char ctx).2 = ctx1 := by rw [hrd]
      cases res with
      | error e =>
        have hb := traced_rollback_and_return_any C n ctx1 (tr ++ [event.read_char false])
          pctx e
        have hlf : literal_fails P C ctx pctx = true := by simp [literal_fails, hrd1]
        simp only [visit_literal, traced, hg, hrd1, hrd2, Bool.not_true, Bool.false_eq_true,
          if_false] at hb ⊢
        erw [hb]
        simp [control.record, hru, hlf]
      | ok ch =>
        by_cases hck : P.check_literal pctx ch = true
        · have hlf : literal_fails P C ctx pctx = false := by simp [literal_fails, hrd1, hck]
          simp [visit_literal, traced, hg, hrd1, hrd2, hck, control.record, hr, hlf,
            Except.isOk, Except.toBool]
        · have hck1 : P.check_literal pctx ch = false := by simpa using hck
          have hb := traced_rollback_and_return_any C n ctx1 (tr ++ [event.read_char true])
            pctx ⟨error_code.invalid_scanned_value,
              "Expected character from format string not found in the stream"⟩
          have hlf : literal_fails P C ctx pctx = true := by simp [literal_fails, hrd1, hck1]
          simp only [visit_literal, traced, hg, hrd1, hrd2, hck1, Bool.not_true,
            Bool.not_false, Bool.false_eq_true, if_false, if_true] at hb ⊢
          erw [hb]
          simp [control.record, hru, hlf]
    · have hg1 : P.good pctx = false := by simpa using hg
      simp [visit_literal, hg1, control.record]
  · rcases hp : P.parse_arg_id pctx with ⟨res, p1⟩
    cases res with
    | error e => simp [visit_argument, dispatch_fails, hp, control.record]
    | ok id =>
      rcases ha : arg_wrapped C ctx p1 id with ⟨res2, p2⟩
      cases res2 with
      | error e =>
        simp [visit_argument, dispatch_fails, hp, arg_wrapped_traced, ha, control.record]
      | ok a =>
        by_cases hg : P.good p2 = true
        · by_cases hag : C.arg_good a = true
          · have hag1 : (traced C).arg_good a = true := hag
            by_cases hd : (d a ctx p2).1.good = true
            · simp [visit_argument, dispatch_fails, hp, arg_wrapped_traced, ha, hg, hag,
                hag1, traced_visit_arg, hd, control.record, hdp]
            · have hd1 : (d a ctx p2).1.good = false := by simpa using hd
              have hb := traced_rollback_and_return_any C n (d a ctx p2).2.1
                (tr ++ [event.dispatch false]) (d a ctx p2).2.2 (d a ctx p2).1
              simp only [visit_argument, hp, arg_wrapped_traced, ha, hg, hag1,
                traced_visit_arg, hd1, Bool.not_true, Bool.not_false, Bool.false_eq_true,
                if_false, if_true]
              rw [hb]
              simp [control.record, hdu, dispatch_fails, hp, ha, hg, hag, hd1]
          · have hag0 : C.arg_good a = false := by simpa using hag
            have hag1 : (traced C).arg_good a = false := hag0
            simp [visit_argument, dispatch_fails, hp, arg_wrapped_traced, ha, hg, hag0, hag1,
              control.record]
        · have hg1 : P.good p2 = false := by simpa using hg
          simp [visit_argument, dispatch_fails, hp, arg_wrapped_traced, ha, hg1,
            control.record]
  · unfold visit_body tested_pctx
    rcases hws : P.should_skip_ws pctx with ⟨b, q1⟩
    cases b with
    | true => exact Or.inl rfl
    | false =>
      rcases hl : P.should_read_literal q1 with ⟨b2, q2⟩
      cases b2 with
      | true => exact Or.inr (Or.inl (by simp only [hl]))
      | false => exact Or.inr (Or.inr (by simp only [hl]))
  · intro hbad
    simp [visit, traced, hbad, reterror]
  · intro e p1 hp
    simp [visit_argument, hp, reterror, traced]
  · intro id p1 e p2 hp ha
    simp only [visit_argument, hp, arg_wrapped_traced, ha]
    simp [reterror, traced]
  · intro hg
    simp [visit_literal, hg, reterror, traced]
  · intro id p1 a p2 hp ha hg
    simp only [visit_argument, hp, arg_wrapped_traced, ha]
    simp [hg, reterror, traced]
  · intro id p1 a p2 hp ha hg hag
    have hag1 : (traced C).arg_good a = false := hag
    simp only [visit_argument, hp, arg_wrapped_traced, ha]
    simp only [hg, hag1, Bool.not_true, Bool.not_false, Bool.false_eq_true, if_false, if_true]
    simp [reterror, traced]
  · intro hg
    simp [visit_finish, hg, reterror, traced]
  · by_cases hg : P.good pctx = true
    · simp [visit_finish, hg]
    · have hg1 : P.good pctx = false := by simpa using hg
      simp [visit_finish, hg1, traced, hc]

/-! ## The value of the float reader across its strategies -/

/-- A success of `cstd::impl` carries the value the conversion returned under the
locale "C", and `cstd::impl` returns when the locale name fits its buffer. -/
theorem cstd_impl_value {T : Type} (F : float_ops T)
    (f_strtod : process_state → List Char → strtod_result T) (huge_value : T)
    (str : List Char) (chars : Nat) (st : process_state)
    (hloc : st.numeric_locale.length < 256) :
    ∃ res, read_float.cstd.impl F f_strtod huge_value str chars st = some res ∧
      ∀ v, res.1 = Except.ok v → v = (f_strtod ⟨['C'], 0⟩ str).value := by
  refine ⟨(read_float.cstd.classify F huge_value (f_strtod ⟨['C'], 0⟩ str).value
      (f_strtod ⟨['C'], 0⟩ str).stop (f_strtod ⟨['C'], 0⟩ str).errno,
    (f_strtod ⟨['C'], 0⟩ str).stop, ⟨st.numeric_locale, 0⟩), ?_, ?_⟩
  · simp only [read_float.cstd.impl, read_float.strcpy, read_float.query_locale, hloc,
      if_true]
    rfl
  intro v hv
  simp only [read_float.cstd.classify] at hv
  split at hv
  · simp at hv
  · split at hv
    · split at hv
      · simp at hv
      · split at hv
        · simp at hv
        · simp only [Except.ok.injEq] at hv
          exact hv.symm
    · simp only [Except.ok.injEq] at hv
      exact hv.symm

/-- C22 (what the code does), in two cases, each taken on its own.  In every case but
one, `_read_float_impl` returns, and a value it returns has every property `near`
(being within the precision of the type of the value of the literal) that the values
of the library functions on that text have: the strategies agree.  The case left out
is a hex-float read as a float or a double from narrow input on which `std::from_chars`
reports `result_out_of_range`: there the result is that of the locale-bracketing
conversion of the text after its first two characters, not of the literal. -/
theorem float_value_across_strategies {T : Type} (E : float_env T) (near : T → Prop)
    (wide : Bool) (t : float_type) (str : List Char) (chars : Nat) (st : process_state) :
    (st.numeric_locale.length < 256 →
      ¬ (wide = false ∧ t ≠ float_type.long_double ∧
        read_float.is_hexfloat str str.length = true ∧ E.has_float_charconv = true ∧
        (read_float.from_chars.result E str).ec = errc.result_out_of_range) →
      (read_float.is_hexfloat str str.length = false →
        (read_float.fast_float.result E str).ec = errc.ok →
        (E.ops.isinf (read_float.fast_float.result E str).value = true →
          3 ≤ str.length ∧ (str.get? 0 = some 'i' ∨ str.get? 0 = some 'I')) →
        near (read_float.fast_float.result E str).value) →
      ((read_float.from_chars.result E str).ec = errc.ok →
        near (read_float.from_chars.result E str).value) →
      near (E.strtod ⟨['C'], 0⟩ str).value →
      near (E.wcstod ⟨['C'], 0⟩ str).value →
      ∃ res, float_scanner._read_float_impl E wide t str chars st = some res ∧
        ∀ v, res.1 = Except.ok v → near v) ∧
    (t ≠ float_type.long_double →
      read_float.is_hexfloat str str.length = true →
      E.has_float_charconv = true →
      (read_float.from_chars.result E str).ec = errc.result_out_of_range →
      float_scanner._read_float_impl E false t str chars st
        = read_float.cstd.read E (str.drop 2) chars st) := by
  constructor
  swap
  · intro htH hhexH hccH hecH
    have hoffH : read_float.from_chars.offset str = 2 := by
      simp [read_float.from_chars.offset, hhexH]
    cases t with
    | long_double => exact absurd rfl htH
    | float =>
      simp [float_scanner._read_float_impl, read_float.read, read_float.fast_float.read,
        read_float.fast_float.impl, hhexH, read_float.from_chars.read, hccH, hecH, hoffH]
    | double =>
      simp [float_scanner._read_float_impl, read_float.read, read_float.fast_float.read,
        read_float.fast_float.impl, hhexH, read_float.from_chars.read, hccH, hecH, hoffH]
  intro hloc hnot hfast hstd hstrtod hwcstod
  have hcstd : ∃ res, read_float.cstd.read E str chars st = some res ∧
      ∀ v, res.1 = Except.ok v → near v := by
    obtain ⟨res, h1, h2⟩ := cstd_impl_value E.ops E.strtod E.huge str chars st hloc
    exact ⟨res, h1, fun v hv => by rw [h2 v hv]; exact hstrtod⟩
  have hwide : ∃ res, read_float.cstd.read_wide E str chars st = some res ∧
      ∀ v, res.1 = Except.ok v → near v := by
    obtain ⟨res, h1, h2⟩ := cstd_impl_value E.ops E.wcstod E.huge str chars st hloc
    exact ⟨res, h1, fun v hv => by rw [h2 v hv]; exact hwcstod⟩
  have hfc : ¬ (read_float.is_hexfloat str str.length = true ∧ E.has_float_charconv = true ∧
        (read_float.from_chars.result E str).ec = errc.result_out_of_range) →
      ∃ res, read_float.from_chars.read E str chars st = some res ∧
        ∀ v, res.1 = Except.ok v → near v := by
    intro hx
    unfold read_float.from_chars.read
    by_cases hcc : E.has_float_charconv = true
    · rw [if_pos hcc]
      rcases hec : (read_float.from_chars.result E str).ec with _ | _ | _
      · simp only [reduceCtorEq, if_false]
        refine ⟨_, rfl, ?_⟩
        intro v hv
        simp only [Except.ok.injEq] at hv
        rw [← hv]
        exact hstd hec
      · simp only [if_true]
        refine ⟨_, rfl, ?_⟩
        intro v hv
        simp at hv
      · have hhex : read_float.is_hexfloat str str.length = false := by
          by_cases hh : read_float.is_hexfloat str str.length = true
          · exact absurd ⟨hh, hcc, hec⟩ hx
          · simpa using hh
        have hoff : read_float.from_chars.offset str = 0 := by
          simp [read_float.from_chars.offset, hhex]
        simp only [reduceCtorEq, if_false, if_true, hoff, List.drop_zero]
        exact hcstd
    · rw [if_neg hcc]
      exact hcstd
  have himpl : ¬ (read_float.is_hexfloat str str.length = true ∧ E.has_float_charconv = true ∧
        (read_float.from_chars.result E str).ec = errc.result_out_of_range) →
      ∃ res, read_float.fast_float.impl E str chars st = some res ∧
        ∀ v, res.1 = Except.ok v → near v := by
    intro hx
    unfold read_float.fast_float.impl
    by_cases hhex : read_float.is_hexfloat str str.length = true
    · rw [if_pos hhex]
      exact hfc hx
    · have hhex1 : read_float.is_hexfloat str str.length = false := by simpa using hhex
      rw [hhex1]
      simp only [Bool.false_eq_true, if_false]
      rcases hec : (read_float.fast_float.result E str).ec with _ | _ | _
      · simp only [reduceCtorEq, if_false]
        split
        · exact hfc hx
        · next hinf =>
          refine ⟨_, rfl, ?_⟩
          intro v hv
          simp only [Except.ok.injEq] at hv
          rw [← hv]
          refine hfast hhex1 hec ?_
          intro hi
          by_contra hcon
          apply hinf
          have : (decide (3 ≤ str.length) &&
              (decide (str.get? 0 = some 'i') || decide (str.get? 0 = some 'I'))) = false := by
            rw [Bool.eq_false_iff]
            intro h
            exact hcon (by simpa using h)
          rw [hi, this]
          rfl
      · simp only [if_true]
        refine ⟨_, rfl, ?_⟩
        intro v hv
        simp at hv
      · simp only [reduceCtorEq, if_false, if_true]
        refine ⟨_, rfl, ?_⟩
        intro v hv
        simp at hv
  unfold float_scanner._read_float_impl read_float.read
  cases wide with
  | true => simpa using hwide
  | false =>
    simp only [Bool.false_eq_true, if_false]
    cases t with
    | long_double => simpa [read_float.fast_float.read] using hcstd
    | float =>
      have := himpl (fun hx => hnot ⟨rfl, by decide, hx.1, hx.2.1, hx.2.2⟩)
      simpa [read_float.fast_float.read] using this
    | double =>
      have := himpl (fun hx => hnot ⟨rfl, by decide, hx.1, hx.2.1, hx.2.2⟩)
      simpa [read_float.fast_float.read] using this

/-- Witness of C22, for the type double: the text "15", on which the three library
functions return the same value, read from narrow and from wide input; the hex-float
"0x1p-2000" read from wide input, where the conversion underflows and no value is
returned; and the same hex-float read from narrow input, the case left out. -/
theorem float_value_witness :
    (∃ res, float_scanner._read_float_impl underflow_env false float_type.double
        ['1', '5'] 0 ⟨['C'], 0⟩ = some res ∧
      ∀ v, res.1 = Except.ok v → (fun x => x = fp.finite false 15) v) ∧
    (∃ res, float_scanner._read_float_impl underflow_env true float_type.double
        ['1', '5'] 0 ⟨['C'], 0⟩ = some res ∧
      ∀ v, res.1 = Except.ok v → (fun x => x = fp.finite false 15) v) ∧
    (∃ res, float_scanner._read_float_impl underflow_env true float_type.double
        ['0', 'x', '1', 'p', '-', '2', '0', '0', '0'] 0 ⟨['C'], 0⟩ = some res ∧
      ∀ v, res.1 = Except.ok v → (fun x => x = fp.finite false 0) v) ∧
    float_scanner._read_float_impl underflow_env false float_type.double
        ['0', 'x', '1', 'p', '-', '2', '0', '0', '0'] 0 ⟨['C'], 0⟩
      = read_float.cstd.read underflow_env
          (['0', 'x', '1', 'p', '-', '2', '0', '0', '0'].drop 2) 0 ⟨['C'], 0⟩ :=
  ⟨(float_value_across_strategies underflow_env (fun x => x = fp.finite false 15)
      false float_type.double ['1', '5'] 0 ⟨['C'], 0⟩).1
      (by decide) (by decide) (fun _ _ _ => rfl) (fun _ => rfl) rfl rfl,
    (float_value_across_strategies underflow_env (fun x => x = fp.finite false 15)
      true float_type.double ['1', '5'] 0 ⟨['C'], 0⟩).1
      (by decide) (by decide) (fun _ _ _ => rfl) (fun _ => rfl) rfl rfl,
    (float_value_across_strategies underflow_env (fun x => x = fp.finite false 0)
      true float_type.double ['0', 'x', '1', 'p', '-', '2', '0', '0', '0'] 0 ⟨['C'], 0⟩).1
      (by decide) (by decide) (fun h => absurd h (by decide)) (fun h => absurd h (by decide))
      rfl rfl,
    (float_value_across_strategies underflow_env (fun x => x = fp.finite false 15)
      false float_type.double ['0', 'x', '1', 'p', '-', '2', '0', '0', '0'] 0 ⟨['C'], 0⟩).2
      (by decide) rfl rfl rfl⟩

/-- The divergence of C22 at the hex-float "0x1p-2000" read as a double: from narrow
input the reader returns 1.0 with the count 1; from wide input, and by the
locale-bracketing conversion of the literal itself, the conversion underflows (zero
after nine characters with `errno` set to `ERANGE`) and the result is the error
`value_out_of_range`. -/
theorem hexfloat_underflow_value_diverges :
    float_scanner._read_float_impl underflow_env false float_type.double
        ['0', 'x', '1', 'p', '-', '2', '0', '0', '0'] 0 ⟨['C'], 0⟩
      = some (Except.ok (fp.finite false 1), 1, ⟨['C'], 0⟩) ∧
    float_scanner._read_float_impl underflow_env true float_type.double
        ['0', 'x', '1', 'p', '-', '2', '0', '0', '0'] 0 ⟨['C'], 0⟩
      = some (Except.error
          ⟨error_code.value_out_of_range, "Floating-point value out of range: underflow"⟩,
          9, ⟨['C'], 0⟩) ∧
    read_float.cstd.read underflow_env ['0', 'x', '1', 'p', '-', '2', '0', '0', '0'] 0
        ⟨['C'], 0⟩
      = some (Except.error
          ⟨error_code.value_out_of_range, "Floating-point value out of range: underflow"⟩,
          9, ⟨['C'], 0⟩) := by
  refine ⟨?_, ?_, ?_⟩
  · rfl
  · rfl
  · rfl

/-! ## The base round trip of the integer reader -/

/-- The value of the character of a digit is the digit. -/
theorem digit_value_digit_char (d : Nat) (h : d < 36) : digit_value (digit_char d) = some d := by
  interval_cases d <;> rfl

/-- The character of a digit below the base is a digit of the base. -/
theorem is_digit_of_digit_char (b d : Nat) (hd : d < b) (hb : b ≤ 36) :
    is_digit_of b (digit_char d) = true := by
  simp [is_digit_of, digit_value_digit_char d (by omega), hd]

/-- The digits of a positive number, by the digits of its quotient. -/
theorem to_digits_aux_eq (b : Nat) (hb : 2 ≤ b) :
    ∀ (fuel n : Nat) (acc : List Char), 0 < n → n < b ^ fuel →
      to_digits_aux b fuel n acc = ((Nat.digits b n).reverse.map digit_char) ++ acc := by
  intro fuel
  induction fuel with
  | zero =>
    intro n acc hn hlt
    simp at hlt
    omega
  | succ fuel ih =>
    intro n acc hn hlt
    unfold to_digits_aux
    by_cases hnb : n < b
    · rw [if_pos hnb, Nat.digits_of_lt b n (by omega) hnb]
      rfl
    · rw [if_neg hnb]
      have hq : 0 < n / b := Nat.div_pos (by omega) (by omega)
      have hq2 : n / b < b ^ fuel := by
        apply Nat.div_lt_of_lt_mul
        rw [pow_succ] at hlt
        rw [Nat.mul_comm]
        exact hlt
      rw [ih (n / b) _ hq hq2, Nat.digits_def' (by omega) hn]
      simp

/-- The digits of a positive number are the characters of its digits, most significant
first. -/
theorem to_digits_pos (b n : Nat) (hb : 2 ≤ b) (hn : 0 < n) :
    to_digits b n = (Nat.digits b n).reverse.map digit_char := by
  unfold to_digits
  rw [to_digits_aux_eq b hb (n + 1) n [] hn
    (lt_of_lt_of_le (Nat.lt_pow_self (by omega) n) (Nat.pow_le_pow_right (by omega) (by omega)))]
  simp

/-- Zero is written with the digit 0. -/
theorem to_digits_zero (b : Nat) (hb : 2 ≤ b) : to_digits b 0 = ['0'] := by
  unfold to_digits to_digits_aux
  rw [if_pos (by omega)]
  rfl

/-- Every character of the digits of a number is the character of a digit below the
base. -/
theorem to_digits_mem (b n : Nat) (hb : 2 ≤ b) (c : Char) (hc : c ∈ to_digits b n) :
    ∃ d, d < b ∧ c = digit_char d := by
  rcases Nat.eq_zero_or_pos n with h0 | hpos
  · subst h0
    rw [to_digits_zero b hb] at hc
    simp only [List.mem_singleton] at hc
    exact ⟨0, by omega, by rw [hc]; rfl⟩
  · rw [to_digits_pos b n hb hpos] at hc
    simp only [List.mem_map, List.mem_reverse] at hc
    obtain ⟨d, hd, rfl⟩ := hc
    exact ⟨d, Nat.digits_lt_base (by omega) hd, rfl⟩

/-- The digits of a number are not empty. -/
theorem to_digits_ne_nil (b n : Nat) (hb : 2 ≤ b) : to_digits b n ≠ [] := by
  rcases Nat.eq_zero_or_pos n with h0 | hpos
  · subst h0
    rw [to_digits_zero b hb]
    simp
  · rw [to_digits_pos b n hb hpos]
    simp only [ne_eq, List.map_eq_nil_iff, List.reverse_eq_nil_iff]
    exact Nat.digits_ne_nil_iff_ne_zero.2 (by omega)

/-- Only zero is written with a leading 0. -/
theorem to_digits_head_zero (b n : Nat) (hb : 2 ≤ b) (hb2 : b ≤ 36)
    (h : (to_digits b n).head? = some '0') : to_digits b n = ['0'] := by
  rcases Nat.eq_zero_or_pos n with h0 | hpos
  · subst h0
    exact to_digits_zero b hb
  · exfalso
    rw [to_digits_pos b n hb hpos] at h
    have hne : Nat.digits b n ≠ [] := Nat.digits_ne_nil_iff_ne_zero.2 (by omega)
    have hlast := Nat.getLast_digit_ne_zero b (m := n) (by omega)
    have hlt : (Nat.digits b n).getLast hne < b :=
      Nat.digits_lt_base (by omega) (List.getLast_mem hne)
    rw [List.head?_map, List.head?_reverse, List.getLast?_eq_getLast _ hne] at h
    simp only [Option.map_some', Option.some.injEq] at h
    have h1 := digit_value_digit_char ((Nat.digits b n).getLast hne) (by omega)
    rw [h] at h1
    have h2 : digit_value '0' = some 0 := rfl
    rw [h2] at h1
    simp only [Option.some.injEq] at h1
    exact hlast h1.symm

/-- The value the reader accumulates from the characters of a list of digits. -/
theorem foldl_digit_chars (b : Nat) (L : List Nat) (hL : ∀ d ∈ L, d < 36) :
    (L.reverse.map digit_char).foldl (fun a c => a * b + (digit_value c).getD 0) 0
      = Nat.ofDigits b L := by
  induction L with
  | nil => rfl
  | cons d L ih =>
    rw [List.reverse_cons, List.map_append, List.foldl_append,
      ih (fun x hx => hL x (List.mem_cons_of_mem _ hx))]
    simp only [List.map_cons, List.map_nil, List.foldl_cons, List.foldl_nil,
      digit_value_digit_char d (hL d (List.mem_cons_self _ _)), Option.getD_some,
      Nat.ofDigits_cons]
    ring

/-- The value the reader accumulates from the digits of a number is the number. -/
theorem foldl_to_digits (b n : Nat) (hb : 2 ≤ b) (hb2 : b ≤ 36) :
    (to_digits b n).foldl (fun a c => a * b + (digit_value c).getD 0) 0 = n := by
  rcases Nat.eq_zero_or_pos n with h0 | hpos
  · subst h0
    rw [to_digits_zero b hb]
    have h0 : digit_value '0' = some 0 := rfl
    simp [h0]
  · rw [to_digits_pos b n hb hpos, foldl_digit_chars b _ (fun d hd =>
      lt_of_lt_of_le (Nat.digits_lt_base (by omega) hd) hb2), Nat.ofDigits_digits]

/-- The accumulated value only grows. -/
theorem le_foldl_digits (b : Nat) (hb : 1 ≤ b) (ds : List Char) (a : Nat) :
    a ≤ ds.foldl (fun a c => a * b + (digit_value c).getD 0) a := by
  induction ds generalizing a with
  | nil => exact le_refl _
  | cons c cs ih =>
    rw [List.foldl_cons]
    refine le_trans ?_ (ih _)
    calc a = a * 1 := (Nat.mul_one a).symm
      _ ≤ a * b := Nat.mul_le_mul_left a hb
      _ ≤ a * b + (digit_value c).getD 0 := Nat.le_add_right _ _

/-- The accumulation of a number that is not negative and fits the type does not
report an overflow. -/
theorem accumulate_nonneg (b : Nat) (hb : 1 ≤ b) (lo hi : Int) (hlo : lo ≤ 0)
    (ds : List Char) (a : Nat)
    (hfit : ((ds.foldl (fun a c => a * b + (digit_value c).getD 0) a : Nat) : Int) ≤ hi) :
    accumulate b false lo hi ds (a : Int)
      = Except.ok ((ds.foldl (fun a c => a * b + (digit_value c).getD 0) a : Nat) : Int) := by
  induction ds generalizing a with
  | nil => rfl
  | cons c cs ih =>
    rw [List.foldl_cons] at hfit ⊢
    have hstep : (a : Int) * (b : Int) + (((digit_value c).getD 0 : Nat) : Int)
        = ((a * b + (digit_value c).getD 0 : Nat) : Int) := by push_cast; ring
    have hle := le_foldl_digits b hb cs (a * b + (digit_value c).getD 0)
    have h1 : ¬ (((a * b + (digit_value c).getD 0 : Nat) : Int) < lo ∨
        hi < ((a * b + (digit_value c).getD 0 : Nat) : Int)) := by
      have h2 : (0 : Int) ≤ ((a * b + (digit_value c).getD 0 : Nat) : Int) := Int.natCast_nonneg _
      have h3 : ((a * b + (digit_value c).getD 0 : Nat) : Int)
          ≤ ((cs.foldl (fun a c => a * b + (digit_value c).getD 0)
              (a * b + (digit_value c).getD 0) : Nat) : Int) := by exact_mod_cast hle
      omega
    unfold accumulate
    simp only [Bool.false_eq_true, if_false, hstep, h1]
    exact ih _ hfit

/-- The accumulation of a negative number that fits the type does not report an
overflow. -/
theorem accumulate_neg (b : Nat) (hb : 1 ≤ b) (lo hi : Int) (hhi : 0 ≤ hi)
    (ds : List Char) (a : Nat)
    (hfit : lo ≤ -((ds.foldl (fun a c => a * b + (digit_value c).getD 0) a : Nat) : Int)) :
    accumulate b true lo hi ds (-(a : Int))
      = Except.ok (-((ds.foldl (fun a c => a * b + (digit_value c).getD 0) a : Nat) : Int)) := by
  induction ds generalizing a with
  | nil => rfl
  | cons c cs ih =>
    rw [List.foldl_cons] at hfit ⊢
    have hstep : -(a : Int) * (b : Int) - (((digit_value c).getD 0 : Nat) : Int)
        = -((a * b + (digit_value c).getD 0 : Nat) : Int) := by push_cast; ring
    have hle := le_foldl_digits b hb cs (a * b + (digit_value c).getD 0)
    have h1 : ¬ (-((a * b + (digit_value c).getD 0 : Nat) : Int) < lo ∨
        hi < -((a * b + (digit_value c).getD 0 : Nat) : Int)) := by
      have h2 : (0 : Int) ≤ ((a * b + (digit_value c).getD 0 : Nat) : Int) := Int.natCast_nonneg _
      have h3 : ((a * b + (digit_value c).getD 0 : Nat) : Int)
          ≤ ((cs.foldl (fun a c => a * b + (digit_value c).getD 0)
              (a * b + (digit_value c).getD 0) : Nat) : Int) := by exact_mod_cast hle
      omega
    unfold accumulate
    simp only [if_true, hstep, h1, if_false]
    exact ih _ hfit

/-- The steps of the reader after the sign, on the digits of a number written in the
base of the reader: no prefix is found, the run of digits is the whole text and holds
no separator. -/
theorem reader_steps_on_digits (opt b m : Nat) (hb : 2 ≤ b) (hb2 : b ≤ 36) :
    int_classic_value_reader.read_base (int_classic_value_reader.make opt b) (to_digits b m)
      = (b, 0, to_digits b m) ∧
    int_classic_value_reader.read_run (int_classic_value_reader.make opt b) b (to_digits b m)
      = to_digits b m ∧
    int_classic_value_reader.strip_thsep (to_digits b m) = some (to_digits b m) ∧
    (to_digits b m).isEmpty = false := by
  have hdig : ∀ c ∈ to_digits b m, is_digit_of b c = true := by
    intro c hc
    obtain ⟨d, hd, rfl⟩ := to_digits_mem b m hb c hc
    exact is_digit_of_digit_char b d hd hb2
  have hcomma : ∀ c ∈ to_digits b m, c ≠ ',' := by
    intro c hc hcon
    have h1 := hdig c hc
    rw [hcon] at h1
    have h2 : digit_value ',' = none := rfl
    simp [is_digit_of, h2] at h1
  have hletter : ∀ lower upper : Char,
      int_classic_value_reader.starts_with_base_letter (to_digits b m) lower upper = false := by
    intro lower upper
    unfold int_classic_value_reader.starts_with_base_letter
    by_cases h0 : (to_digits b m).head? = some '0'
    · rw [to_digits_head_zero b m hb hb2 h0]
      simp
    · simp [h0]
  have hm : (int_classic_value_reader.make opt b).m_base = b := rfl
  have hb0 : ¬ b = 0 := by omega
  refine ⟨?_, ?_, ?_, ?_⟩
  · unfold int_classic_value_reader.read_base
    simp only [hletter, hm, hb0, Bool.false_eq_true, false_and, if_false, ite_self]
  · unfold int_classic_value_reader.read_run
    split
    · rw [List.takeWhile_eq_self_iff]
      intro c hc
      simp [hdig c hc]
    · rw [List.takeWhile_eq_self_iff]
      exact hdig
  · unfold int_classic_value_reader.strip_thsep
    have : (to_digits b m).contains ',' = false := by
      rw [Bool.eq_false_iff]
      intro h
      rw [List.contains_iff_exists_mem_beq] at h
      obtain ⟨c, hc, hceq⟩ := h
      simp only [beq_iff_eq] at hceq
      exact hcomma c hc hceq.symm
    simp only [this, Bool.false_eq_true, if_false]
  · cases hs : to_digits b m with
    | nil => exact absurd hs (to_digits_ne_nil b m hb)
    | cons c cs => rfl

/-- The first character of the digits of a number is not a sign. -/
theorem to_digits_no_sign (b m : Nat) (hb : 2 ≤ b) (hb2 : b ≤ 36) (opt : Nat) :
    int_classic_value_reader.read_sign (int_classic_value_reader.make opt b) (to_digits b m)
      = Except.ok (false, 0, to_digits b m) := by
  cases hs : to_digits b m with
  | nil => exact absurd hs (to_digits_ne_nil b m hb)
  | cons c cs =>
    have hc : c ∈ to_digits b m := by rw [hs]; exact List.mem_cons_self _ _
    obtain ⟨d, hd, hcd⟩ := to_digits_mem b m hb c hc
    have hv := digit_value_digit_char d (by omega)
    rw [← hcd] at hv
    have hminus : ¬ c = '-' := by
      intro h
      rw [h] at hv
      have h2 : digit_value '-' = none := rfl
      rw [h2] at hv
      simp at hv
    have hplus : ¬ c = '+' := by
      intro h
      rw [h] at hv
      have h2 : digit_value '+' = none := rfl
      rw [h2] at hv
      simp at hv
    simp [int_classic_value_reader.read_sign, hminus, hplus]

/-- C21: for every base `b` from 2 to 36 and every integer `n` of the target type
(whose range, from `lo` to `hi`, contains 0), the reader made with the base `b` and
any option bitset, with allow-base-prefix as without, that has not unsigned-only when
`n` is negative, reads the text of `n` formatted in the base `b` back to `n` and
consumes the whole text. -/
theorem int_reader_base_round_trip (opt b : Nat) (lo hi n value : Int)
    (hb : 2 ≤ b ∧ b ≤ 36) (hlo : lo ≤ 0) (hhi : 0 ≤ hi) (hn : lo ≤ n ∧ n ≤ hi)
    (hsign : n < 0 → (int_classic_value_reader.make opt b).has_option
      int_value_reader_base.only_unsigned = false) :
    int_classic_value_reader.read (int_classic_value_reader.make opt b) lo hi
        (format_int b n) value
      = (Except.ok (format_int b n).length, n) := by
  obtain ⟨h1, h2, h3, h4⟩ := reader_steps_on_digits opt b n.natAbs hb.1 hb.2
  have hval := foldl_to_digits b n.natAbs hb.1 hb.2
  by_cases hneg : n < 0
  · have hfmt : format_int b n = '-' :: to_digits b n.natAbs := by simp [format_int, hneg]
    have hs : int_classic_value_reader.read_sign (int_classic_value_reader.make opt b)
        ('-' :: to_digits b n.natAbs) = Except.ok (true, 1, to_digits b n.natAbs) := by
      simp [int_classic_value_reader.read_sign, hsign hneg]
    have hnat : -((n.natAbs : Nat) : Int) = n := by omega
    have hacc := accumulate_neg b (by omega) lo hi hhi (to_digits b n.natAbs) 0
      (by rw [hval, hnat]; exact hn.1)
    rw [hval, hnat] at hacc
    simp only [Nat.cast_zero, neg_zero] at hacc
    rw [hfmt]
    unfold int_classic_value_reader.read
    simp only [hs, h1, h2, h3, h4, hacc, Bool.false_eq_true, if_false, List.length_cons]
    congr 2
    omega
  · have hfmt : format_int b n = to_digits b n.natAbs := by simp [format_int, hneg]
    have hs := to_digits_no_sign b n.natAbs hb.1 hb.2 opt
    have hnat : ((n.natAbs : Nat) : Int) = n := by omega
    have hacc := accumulate_nonneg b (by omega) lo hi hlo (to_digits b n.natAbs) 0
      (by rw [hval, hnat]; exact hn.2)
    rw [hval, hnat] at hacc
    simp only [Nat.cast_zero] at hacc
    rw [hfmt]
    unfold int_classic_value_reader.read
    simp only [hs, h1, h2, h3, h4, hacc, Bool.false_eq_true, if_false]
    congr 2
    omega

/-- Witness of C21: -255 in the base 16, the text "-ff", read into an `int` of 32 bits
by a reader with the options allow-base-prefix and allow-thousands-separator. -/
theorem int_reader_round_trip_witness :
    int_classic_value_reader.read (int_classic_value_reader.make 5 16) (-(2 ^ 31)) (2 ^ 31 - 1)
        (format_int 16 (-255)) 0
      = (Except.ok (format_int 16 (-255)).length, -255) :=
  int_reader_base_round_trip 5 16 (-(2 ^ 31)) (2 ^ 31 - 1) (-255) 0
    (by decide) (by decide) (by decide) (by decide) (fun _ => by decide)

/-- The text of the witness of C21 and the result of reading it, evaluated; the reader
of the witness has the option allow-base-prefix. -/
theorem int_reader_round_trip_example :
    (int_classic_value_reader.make 5 16).has_option int_value_reader_base.allow_base_prefix
      = true ∧
    format_int 16 (-255) = ['-', 'f', 'f'] ∧
    int_classic_value_reader.read (int_classic_value_reader.make 5 16) (-(2 ^ 31)) (2 ^ 31 - 1)
        ['-', 'f', 'f'] 0
      = (Except.ok 3, -255) ∧
    format_int 2 5 = ['1', '0', '1'] ∧ format_int 36 35 = ['z'] ∧ format_int 10 0 = ['0'] := by
  refine ⟨by decide, by decide, ?_, by decide, by decide, by decide⟩
  rfl

/-! ## The index of an id that begins with a digit -/

/-- C32 (what the code does), with `SCN_HAS_FLOAT_CHARCONV`, on an input on which
`std::from_chars` succeeds.  For a text that is not a hex-float the parser is given
the text from its start to its end and `chars` is the index at which it stopped, the
number of characters from the start of the input.  For a hex-float the parser is given
the start at the index 2 and an end two characters after the end of the text, and
`chars` is the index at which it stopped less 2: the two characters of the prefix are
not counted. -/
theorem from_chars_count_and_end {T : Type} (E : float_env T)
    (strN : List Char) (charsN : Nat) (stN : process_state)
    (strH : List Char) (charsH : Nat) (stH : process_state)
    (hcc : E.has_float_charconv = true)
    (hhexN : read_float.is_hexfloat strN strN.length = false)
    (hecN : (read_float.from_chars.result E strN).ec = errc.ok)
    (hhexH : read_float.is_hexfloat strH strH.length = true)
    (hecH : (read_float.from_chars.result E strH).ec = errc.ok) :
    read_float.from_chars.result E strN
      = E.std_from_chars strN 0 strN.length chars_format.general ∧
    read_float.from_chars.read E strN charsN stN
      = some (Except.ok (read_float.from_chars.result E strN).value,
          (read_float.from_chars.result E strN).ptr, stN) ∧
    read_float.from_chars.result E strH
      = E.std_from_chars strH 2 (strH.length + 2) chars_format.hex ∧
    read_float.from_chars.read E strH charsH stH
      = some (Except.ok (read_float.from_chars.result E strH).value,
          (read_float.from_chars.result E strH).ptr - 2, stH) := by
  have hoN : read_float.from_chars.offset strN = 0 := by
    simp [read_float.from_chars.offset, hhexN]
  have hoH : read_float.from_chars.offset strH = 2 := by
    simp [read_float.from_chars.offset, hhexH]
  refine ⟨?_, ?_, ?_, ?_⟩
  · simp [read_float.from_chars.result, hoN, read_float.from_chars.flags, hhexN]
  · simp [read_float.from_chars.read, hcc, hecN, hoN]
  · simp [read_float.from_chars.result, hoH, read_float.from_chars.flags, hhexH, Nat.add_comm]
  · simp [read_float.from_chars.read, hcc, hecH, hoH]

/-- Witness of C32: the texts "1.5" and "0x1p3". -/
theorem from_chars_count_witness :
    read_float.from_chars.result hex_count_env ['1', '.', '5']
      = hex_count_env.std_from_chars ['1', '.', '5'] 0 ['1', '.', '5'].length
          chars_format.general ∧
    read_float.from_chars.read hex_count_env ['1', '.', '5'] 0 ⟨['C'], 0⟩
      = some (Except.ok (read_float.from_chars.result hex_count_env ['1', '.', '5']).value,
          (read_float.from_chars.result hex_count_env ['1', '.', '5']).ptr, ⟨['C'], 0⟩) ∧
    read_float.from_chars.result hex_count_env ['0', 'x', '1', 'p', '3']
      = hex_count_env.std_from_chars ['0', 'x', '1', 'p', '3'] 2
          (['0', 'x', '1', 'p', '3'].length + 2) chars_format.hex ∧
    read_float.from_chars.read hex_count_env ['0', 'x', '1', 'p', '3'] 0 ⟨['C'], 0⟩
      = some (Except.ok
          (read_float.from_chars.result hex_count_env ['0', 'x', '1', 'p', '3']).value,
          (read_float.from_chars.result hex_count_env ['0', 'x', '1', 'p', '3']).ptr - 2,
          ⟨['C'], 0⟩) :=
  from_chars_count_and_end hex_count_env ['1', '.', '5'] 0 ⟨['C'], 0⟩
    ['0', 'x', '1', 'p', '3'] 0 ⟨['C'], 0⟩ rfl rfl rfl rfl rfl

/-- The divergence of C32 at the hex-float "0x1p3" read as a double: the value is 8.0
and the converted text ends at the index 5, the end of the input, but the count
reported is 3; the same text converted by `strtod` is counted 5; and the end given to
`std::from_chars` is the index 7 of a text of 5 characters. -/
theorem hexfloat_count_diverges :
    read_float.read hex_count_env false float_type.double ['0', 'x', '1', 'p', '3'] 0
        ⟨['C'], 0⟩
      = some (Except.ok (fp.finite false 16), 3, ⟨['C'], 0⟩) ∧
    (read_float.from_chars.result hex_count_env ['0', 'x', '1', 'p', '3']).ptr = 5 ∧
    read_float.cstd.read hex_count_env ['0', 'x', '1', 'p', '3'] 0 ⟨['C'], 0⟩
      = some (Except.ok (fp.finite false 16), 5, ⟨['C'], 0⟩) ∧
    read_float.from_chars.offset ['0', 'x', '1', 'p', '3']
        + ['0', 'x', '1', 'p', '3'].length = 7 ∧
    ['0', 'x', '1', 'p', '3'].length = 5 := by
  refine ⟨?_, ?_, ?_, ?_, ?_⟩
  · rfl
  · rfl
  · rfl
  · rfl
  · rfl

/-! ## The count and the placeholders of the format -/

section placeholder_facts

variable {Ctx PCtx Arg Range : Type}

/-- The body of the loop, run on a recording context, satisfies `placeholder_step`. -/
theorem traced_body_placeholders (P : parse_context_ops PCtx)
    (C : context_ops Ctx PCtx Arg Range) (d : Arg → Ctx → PCtx → error × Ctx × PCtx)
    (I : Ctx → Prop) (ν : PCtx → Nat) (hν : counts_placeholders P C d I ν)
    (s : loop_state (Ctx × List event) PCtx) (hI : I s.ctx.1) (hg : P.good s.pctx = true) :
    placeholder_step I ν s (visit_body P (traced C) (traced_visit_arg d) s) := by
  obtain ⟨n, ⟨ctx, tr⟩, pctx⟩ := s
  simp only at hI hg
  by_cases hw : (P.should_skip_ws pctx).1 = true
  · have hat : at_whitespace P pctx = true := by simp [at_whitespace, hg, hw]
    obtain ⟨_, hb⟩ := visit_body_at_whitespace P (traced C) (traced_visit_arg d) n (ctx, tr)
      pctx hat
    rw [hb]
    have h1 := hν.whitespace pctx hat
    unfold visit_skip_ws
    by_cases hok : (C.skip_range_whitespace ctx).1.good = true
    · simp only [traced, hok, Bool.not_true, Bool.false_eq_true, if_false, placeholder_step]
      exact ⟨hν.keep_skip ctx hI, by omega⟩
    · have hok1 : (C.skip_range_whitespace ctx).1.good = false := by simpa using hok
      by_cases he : (C.skip_range_whitespace ctx).1.code = error_code.end_of_stream
      · simp only [traced, hok1, he, Bool.not_false, if_true, placeholder_step]
        exact h1
      · simp only [traced, hok1, he, Bool.not_false, if_true, if_false]
        have := traced_rollback_and_return_any C n (C.skip_range_whitespace ctx).2
          (tr ++ [event.skip_ws false]) (P.should_skip_ws pctx).2 (C.skip_range_whitespace ctx).1
        simp only [traced] at this
        rw [this]
        simp [placeholder_step, dispatches, List.filterMap_append]
  · have hw1 : (P.should_skip_ws pctx).1 = false := by simpa using hw
    by_cases hl : (P.should_read_literal (P.should_skip_ws pctx).2).1 = true
    · have hb : visit_body P (traced C) (traced_visit_arg d) ⟨n, (ctx, tr), pctx⟩
          = visit_literal P (traced C) n (ctx, tr) (tested_pctx P pctx) := by
        unfold visit_body tested_pctx
        rcases hws : P.should_skip_ws pctx with ⟨b, q1⟩
        rw [hws] at hw1 hl
        simp only at hw1 hl
        subst hw1
        rcases hls : P.should_read_literal q1 with ⟨b2, q2⟩
        rw [hls] at hl
        simp only at hl
        subst hl
        simp only [hws, hls]
      rw [hb]
      unfold visit_literal
      by_cases hgt : P.good (tested_pctx P pctx) = true
      · have hat : at_literal P pctx = true := by simp [at_literal, hg, hw1, hl, hgt]
        have h1 := hν.literal pctx hat
        simp only [hgt, Bool.not_true, Bool.false_eq_true, if_false]
        rcases hr : C.read_char ctx with ⟨r, ctx1⟩
        have hk := hν.keep_read ctx hI
        rw [hr] at hk
        cases r with
        | error e =>
          have hrt : (traced C).read_char (ctx, tr)
              = (Except.error e, (ctx1, tr ++ [event.read_char false])) := by
            simp only [traced, hr]
            rfl
          simp only [hrt]
          rw [traced_rollback_and_return_any]
          simp [placeholder_step, dispatches, List.filterMap_append]
        | ok ch =>
          have hrt : (traced C).read_char (ctx, tr)
              = (Except.ok ch, (ctx1, tr ++ [event.read_char true])) := by
            simp only [traced, hr]
            rfl
          simp only [hrt]
          by_cases hc : P.check_literal (tested_pctx P pctx) ch = true
          · simp only [hc, Bool.not_true, Bool.false_eq_true, if_false, placeholder_step]
            exact ⟨hk, by omega⟩
          · have hc1 : P.check_literal (tested_pctx P pctx) ch = false := by simpa using hc
            simp only [hc1, Bool.not_false, if_true]
            rw [traced_rollback_and_return_any]
            simp [placeholder_step, dispatches, List.filterMap_append]
      · have hgt1 : P.good (tested_pctx P pctx) = false := by simpa using hgt
        simp [hgt1, placeholder_step]
    · have hl1 : (P.should_read_literal (P.should_skip_ws pctx).2).1 = false := by simpa using hl
      have hat : at_argument P pctx = true := by simp [at_argument, hg, hw1, hl1]
      have h1 := hν.placeholder pctx hat
      obtain ⟨_, hb⟩ := visit_body_at_argument P (traced C) (traced_visit_arg d) n (ctx, tr)
        pctx hat
      rw [hb]
      unfold visit_argument
      rcases hid : P.parse_arg_id (tested_pctx P pctx) with ⟨r, p1⟩
      cases r with
      | error e => exact Or.inr h1
      | ok id =>
        simp only [arg_wrapped_traced]
        rcases harg : arg_wrapped C ctx p1 id with ⟨ra, p2⟩
        cases ra with
        | error e => exact Or.inr h1
        | ok arg =>
          simp only
          by_cases hg2 : P.good p2 = true
          · simp only [hg2, Bool.not_true, Bool.false_eq_true, if_false]
            by_cases hfull : C.arg_good arg = true
            · have hfull1 : (traced C).arg_good arg = true := hfull
              simp only [hfull1, Bool.not_true, Bool.false_eq_true, if_false]
              by_cases hd : (d arg ctx p2).1.good = true
              · have h2 := hν.dispatched ctx pctx id p1 arg p2 hI hat hid harg hg2 hfull hd
                have h3 := hν.keep_dispatch arg ctx p2 hI
                simp only [traced_visit_arg, hd, Bool.not_true, Bool.false_eq_true, if_false,
                  placeholder_step]
                exact ⟨h3, by omega⟩
              · have hd1 : (d arg ctx p2).1.good = false := by simpa using hd
                simp only [traced_visit_arg, hd1, Bool.not_false, if_true]
                rw [traced_rollback_and_return_any]
                exact Or.inr h1
            · have hfull1 : (traced C).arg_good arg = false := by simpa using hfull
              simp only [hfull1, Bool.not_false, if_true]
              exact Or.inr h1
          · have hg3 : P.good p2 = false := by simpa using hg2
            simp only [hg3, Bool.not_false, if_true]
            exact Or.inr h1


/-- The code after the loop succeeds only on an exhausted format. -/
theorem traced_finish_good (P : parse_context_ops PCtx)
    (C : context_ops Ctx PCtx Arg Range) (s : loop_state (Ctx × List event) PCtx)
    (h : (visit_finish P (traced C) s).1.err.good = true) : P.good s.pctx = false := by
  unfold visit_finish at h
  by_cases hg : P.good s.pctx = true
  · rw [if_pos hg] at h
    simp [reterror, error.good] at h
  · simpa using hg

/-- The count of a run against the number of placeholders of the format: the count is
at most that number, a failed call of the dispatcher is the call for a placeholder of
the format, and a run that succeeds counted every placeholder. -/
theorem traced_visit_placeholders (P : parse_context_ops PCtx)
    (C : context_ops Ctx PCtx Arg Range) (d : Arg → Ctx → PCtx → error × Ctx × PCtx)
    (I : Ctx → Prop) (ν : PCtx → Nat) (hν : counts_placeholders P C d I ν)
    (fuel : Nat) (ctx : Ctx) (pctx : PCtx) (hI : I ctx)
    (res : scan_result Range × loop_state (Ctx × List event) PCtx)
    (h : visit P (traced C) (traced_visit_arg d) fuel (ctx, []) pctx = some res) :
    res.1.value ≤ ν pctx ∧
    (∀ k, (dispatches res.2.ctx.2)[k]? = some false → k < ν pctx) ∧
    ((∀ c e, (C.read_char c).1 = Except.error e → e.good = false) →
      (∀ p e, (P.parse_arg_id p).1 = Except.error e → e.good = false) →
      (∀ c p id e, (arg_wrapped C c p id).1 = Except.error e → e.good = false) →
      res.1.err.good = true → res.1.value = ν pctx) := by
  unfold visit at h
  split at h
  next ret ctx1 hs =>
  simp only [traced, Prod.mk.injEq] at hs
  obtain ⟨rfl, rfl⟩ := hs
  split at h
  · next hbad =>
    simp only [Option.some.injEq] at h
    subst h
    refine ⟨by simp [reterror], ?_, ?_⟩
    · intro k hk
      simp [dispatches] at hk
    · intro _ _ _ hgood
      simp only [reterror] at hgood
      rw [hgood] at hbad
      simp at hbad
  · refine visit_loop_invariant P (traced C) (traced_visit_arg d)
      (fun s => I s.ctx.1 ∧ s.args_read + ν s.pctx = ν pctx ∧
        dispatches s.ctx.2 = List.replicate s.args_read true)
      (fun res => res.1.value ≤ ν pctx ∧
        (∀ k, (dispatches res.2.ctx.2)[k]? = some false → k < ν pctx) ∧
        ((∀ c e, (C.read_char c).1 = Except.error e → e.good = false) →
          (∀ p e, (P.parse_arg_id p).1 = Except.error e → e.good = false) →
          (∀ c p id e, (arg_wrapped C c p id).1 = Except.error e → e.good = false) →
          res.1.err.good = true → res.1.value = ν pctx))
      ?_ ?_ ?_ ?_ fuel _ res ?_ h
    · intro s s1 hs hg hb
      have h1 := traced_body_dispatches P C d s
      have h2 := traced_body_placeholders P C d I ν hν s hs.1 hg
      rw [hb] at h1 h2
      simp only [dispatch_step] at h1
      simp only [placeholder_step] at h2
      refine ⟨h2.1, by omega, ?_⟩
      rcases h1 with ⟨h3, h4, _⟩ | ⟨h3, h4, _⟩
      · simp only [h3, h4, hs.2.2]
      · simp only [h3, h4, hs.2.2, List.replicate_succ']
    · intro s s1 hs hg hb
      have h1 := traced_body_dispatches P C d s
      have h2 := traced_body_placeholders P C d I ν hν s hs.1 hg
      rw [hb] at h1 h2
      simp only [dispatch_step] at h1
      simp only [placeholder_step] at h2
      have hf := traced_finish_dispatches P C s1
      refine ⟨by rw [hf.1, h1.1]; omega, ?_, ?_⟩
      · intro k hk
        rw [hf.2, h1.2.1, hs.2.2] at hk
        exact absurd hk (replicate_true_ne_false _ _)
      · intro _ _ _ hgood
        have h0 := hν.exhausted _ (traced_finish_good P C s1 hgood)
        rw [hf.1, h1.1]
        omega
    · intro s r s1 hs hg hb
      have h1 := traced_body_dispatches P C d s
      have h2 := traced_body_placeholders P C d I ν hν s hs.1 hg
      rw [hb] at h1 h2
      simp only [dispatch_step] at h1
      simp only [placeholder_step] at h2
      refine ⟨by rw [h1.1]; omega, ?_, ?_⟩
      · intro k hk
        simp only at hk
        rcases h1.2 with h3 | ⟨h3, _⟩
        · rw [h3, hs.2.2] at hk
          exact absurd hk (replicate_true_ne_false _ _)
        · rcases h2 with h4 | h4
          · rw [h4] at h3
            have := congrArg List.length h3
            simp at this
          · rw [h3, hs.2.2] at hk
            have hk1 := replicate_true_snoc_false _ _ hk
            omega
      · intro hread hid hlookup hgood
        have h5 := traced_body_commits P C d hread hid hlookup s
        rw [hb] at h5
        simp only [commit_step] at h5
        simp only at hgood
        rw [h5.2] at hgood
        exact absurd hgood (by simp)
    · intro s hs hg
      have hf := traced_finish_dispatches P C s
      refine ⟨by rw [hf.1]; omega, ?_, ?_⟩
      · intro k hk
        rw [hf.2, hs.2.2] at hk
        exact absurd hk (replicate_true_ne_false _ _)
      · intro _ _ _ _
        have h0 := hν.exhausted _ hg
        rw [hf.1]
        omega
    · exact ⟨hν.keep_skip ctx hI, by simp, by simp [dispatches]⟩

end placeholder_facts

/-! ## The placeholders of the format of a string scan -/

theorem is_space_not_brace (c : Char) (h : is_space c = true) : c ≠ '{' ∧ c ≠ '}' := by
  constructor
  · intro hc
    subst hc
    revert h
    decide
  · intro hc
    subst hc
    revert h
    decide

/-- A character that is neither a brace is no part of a placeholder. -/
theorem placeholders_from_other (c : Char) (t : List Char) (h1 : c ≠ '{') (h2 : c ≠ '}') :
    placeholders_from false (c :: t) = placeholders_from false t := by
  cases t with
  | nil => simp [placeholders_from, h1]
  | cons c2 rest => simp [placeholders_from, h1, h2]

theorem placeholders_from_dropWhile_space (l : List Char) :
    placeholders_from false (l.dropWhile is_space) = placeholders_from false l := by
  induction l with
  | nil => rfl
  | cons c t ih =>
    by_cases hc : is_space c = true
    · rw [List.dropWhile_cons_of_pos hc, ih]
      exact (placeholders_from_other c t (is_space_not_brace c hc).1
        (is_space_not_brace c hc).2).symm
    · rw [List.dropWhile_cons_of_neg hc]

/-- Inside a placeholder everything up to the closing brace belongs to it. -/
theorem placeholders_from_inside (l : List Char) :
    placeholders_from true l
      = placeholders_from false ((l.dropWhile (fun c => !decide (c = '}'))).drop 1) := by
  induction l with
  | nil => rfl
  | cons c t ih =>
    by_cases hc : c = '}'
    · subst hc
      simp [placeholders_from]
    · simp only [List.dropWhile_cons, hc, decide_False, Bool.not_false, if_true]
      rw [← ih]
      simp [placeholders_from, hc]

/-- The closing brace of a placeholder is the first one after its opening brace,
whether the id is followed by a colon or not. -/
theorem dropWhile_spec_body (l : List Char) :
    (spec_body (l.dropWhile (fun c => !(decide (c = '}') || decide (c = ':'))))).dropWhile
        (fun c => !decide (c = '}'))
      = l.dropWhile (fun c => !decide (c = '}')) := by
  induction l with
  | nil => rfl
  | cons c t ih =>
    by_cases h1 : c = '}'
    · subst h1
      simp [spec_body]
    · by_cases h2 : c = ':'
      · subst h2
        simp [spec_body]
      · simp only [List.dropWhile_cons, h1, h2, decide_False, Bool.or_self, Bool.not_false,
          if_true]
        exact ih

/-- An opening brace that is not followed by another opens a placeholder. -/
theorem placeholders_from_open (rest : List Char) (h : rest.head? ≠ some '{') :
    placeholders_from false ('{' :: rest) = 1 + placeholders_from true rest := by
  cases rest with
  | nil => simp [placeholders_from]
  | cons c2 t =>
    have hc : c2 ≠ '{' := by
      intro hc
      subst hc
      simp at h
    simp [placeholders_from, hc]

/-- A scanner of the model that succeeds leaves the parse context on the closing brace
of the placeholder. -/
theorem visit_with_make_scanner_close (allowed : Char → Bool)
    (reader : List Char → value → List Char → expected (value × Nat))
    (val : value) (ctx : basic_context) (p : basic_parse_context)
    (h : (basic_visitor.visit_with (make_scanner allowed reader) val ctx p).1.good = true) :
    (basic_visitor.visit_with (make_scanner allowed reader) val ctx p).2.2.2.str
        = (spec_body p.str).dropWhile (fun c => !decide (c = '}')) ∧
    ((spec_body p.str).dropWhile (fun c => !decide (c = '}'))).isEmpty = false := by
  unfold basic_visitor.visit_with at h ⊢
  simp only [make_scanner] at h ⊢
  unfold parse_spec at h ⊢
  by_cases h1 : ((spec_body p.str).dropWhile (fun c => !decide (c = '}'))).isEmpty = true
  · simp [h1, error.good] at h
  · have h2 : ((spec_body p.str).dropWhile (fun c => !decide (c = '}'))).isEmpty = false := by
      simpa using h1
    by_cases h3 : ((spec_body p.str).takeWhile (fun c => !decide (c = '}'))).all allowed = true
    · simp only [h2, h3, Bool.false_eq_true, if_false, if_true]
      split
      · exact ⟨rfl, trivial⟩
      · split <;> exact ⟨rfl, trivial⟩
    · simp [h2, h3, error.good] at h

/-- The dispatcher of the model leaves the slots where they are. -/
theorem call_string_scanners_args (a : slot) (ctx : basic_context) (p : basic_parse_context) :
    (basic_visitor.call string_scanners a.to_arg_value ctx p).2.2.1.args = ctx.args := by
  have key : ∀ (allowed : Char → Bool)
      (reader : List Char → value → List Char → expected (value × Nat)) (val : value),
      (basic_visitor.visit_with (make_scanner allowed reader) val ctx p).2.2.1.args
        = ctx.args := by
    intro allowed reader val
    unfold basic_visitor.visit_with
    simp only [make_scanner]
    split
    · rfl
    · split <;> rfl
  cases a with
  | typed t v =>
    simp only [slot.to_arg_value, basic_visitor.call, basic_visitor.visit]
    cases t with
    | char_type => exact key _ _ _
    | span => exact key _ _ _
    | bool => exact key _ _ _
    | integer t => exact key _ _ _
    | floating t => exact key _ _ _
    | string => exact key _ _ _
    | string_view => exact key _ _ _
  | handle f => rfl
  | monostate => rfl

/-- What the dispatcher stores in a slot that is no handle is no handle. -/
theorem store_is_handle (a : slot) (a1 : arg_value value basic_context)
    (h : a.is_handle = false) : (a.store a1).is_handle = false := by
  cases a1 with
  | typed t v => rfl
  | handle f => exact h
  | monostate => exact h

/-- A context has no handle when none of its slots is one. -/
theorem no_handle_iff (ctx : basic_context) :
    ctx.no_handle ↔ ∀ a ∈ ctx.args, a.is_handle = false := by
  simp [basic_context.no_handle, List.all_eq_true]

/-- The dispatcher of the model keeps a context without handles without handles. -/
theorem visit_arg_string_scanners_no_handle (arg : Option Nat) (ctx : basic_context)
    (p : basic_parse_context) (h : ctx.no_handle) :
    (visit_arg string_scanners arg ctx p).2.1.no_handle := by
  rw [no_handle_iff] at h ⊢
  unfold visit_arg
  split
  · exact h
  · split
    · exact h
    · next i a ha =>
      split
      next e a1 ctx1 p1 hc =>
      have h1 : ctx1.args = ctx.args := by
        have := call_string_scanners_args a ctx p
        rw [hc] at this
        exact this
      intro x hx
      simp only [h1] at hx
      rcases List.mem_or_eq_of_mem_set hx with hx1 | hx1
      · exact h x hx1
      · rw [hx1]
        exact store_is_handle a a1 (h a (List.get?_mem ha))

/-- A successful call of the dispatcher of the model on slots without handles leaves
the parse context on the closing brace of the placeholder. -/
theorem visit_arg_string_scanners_close (arg : Option Nat) (ctx : basic_context)
    (p : basic_parse_context) (hn : ctx.no_handle)
    (h : (visit_arg string_scanners arg ctx p).1.good = true) :
    (visit_arg string_scanners arg ctx p).2.2.str
        = (spec_body p.str).dropWhile (fun c => !decide (c = '}')) ∧
    ((spec_body p.str).dropWhile (fun c => !decide (c = '}'))).isEmpty = false := by
  unfold visit_arg at h ⊢
  split at h
  · simp [basic_visitor.visit_monostate, error.good] at h
  · split at h
    · simp [basic_visitor.visit_monostate, error.good] at h
    · next i a ha =>
      have hna := (no_handle_iff ctx).1 hn a (List.get?_mem ha)
      simp only [ha]
      cases a with
      | typed t v =>
        simp only [slot.to_arg_value, basic_visitor.call, basic_visitor.visit] at h ⊢
        cases t with
        | char_type => exact visit_with_make_scanner_close _ _ _ _ _ h
        | span => exact visit_with_make_scanner_close _ _ _ _ _ h
        | bool => exact visit_with_make_scanner_close _ _ _ _ _ h
        | integer t => exact visit_with_make_scanner_close _ _ _ _ _ h
        | floating t => exact visit_with_make_scanner_close _ _ _ _ _ h
        | string => exact visit_with_make_scanner_close _ _ _ _ _ h
        | string_view => exact visit_with_make_scanner_close _ _ _ _ _ h
      | handle f => simp [slot.is_handle] at hna
      | monostate =>
        simp [slot.to_arg_value, basic_visitor.call, basic_visitor.visit_monostate,
          error.good] at h

/-- A parse context of a string scan at which both tests of the loop are false stands
on an opening brace that no other opening brace follows, and the tests left it
there. -/
theorem string_at_argument (p : basic_parse_context)
    (h : at_argument basic_parse_context.ops p = true) :
    ∃ rest, p.str = '{' :: rest ∧ rest.head? ≠ some '{' ∧
      tested_pctx basic_parse_context.ops p = p := by
  obtain ⟨str, nid⟩ := p
  cases str with
  | nil => simp [at_argument, basic_parse_context.ops, basic_parse_context.good] at h
  | cons c rest =>
    simp only [at_argument, tested_pctx, basic_parse_context.ops, basic_parse_context.good,
      basic_parse_context.should_skip_ws, basic_parse_context.should_read_literal,
      Bool.and_eq_true, Bool.not_eq_true'] at h ⊢
    obtain ⟨⟨_, h1⟩, h2⟩ := h
    by_cases hsp : is_space c = true
    · simp [hsp] at h1
    · simp only [hsp, Bool.false_eq_true, if_false] at h2 ⊢
      by_cases hc : c = '{'
      · subst hc
        by_cases hh : rest.head? = some '{'
        · simp [hh] at h2
        · exact ⟨rest, rfl, hh, by simp [hh]⟩
      · by_cases hc2 : c = '}' ∧ rest.head? = some '}'
        · simp [hc, hc2] at h2
        · simp [hc, hc2] at h2

/-- The lookup of an argument of a string scan leaves the format string. -/
theorem arg_wrapped_string_str (c : basic_context) (p : basic_parse_context) (id : List Char) :
    (arg_wrapped basic_context.ops c p id).2.str = p.str := by
  unfold arg_wrapped
  split
  · rfl
  · split <;> rfl

/-- The number of placeholders of the format that is left is a count of placeholders
for the string scan over slots without handles. -/
theorem string_scan_counts_placeholders :
    counts_placeholders basic_parse_context.ops basic_context.ops (visit_arg string_scanners)
      basic_context.no_handle (fun p => placeholders p.str) where
  exhausted := by
    intro p h
    simp only [basic_parse_context.ops, basic_parse_context.good, Bool.not_eq_false',
      List.isEmpty_iff] at h
    simp only [h]
    rfl
  whitespace := by
    intro p h
    obtain ⟨str, nid⟩ := p
    cases str with
    | nil => simp [at_whitespace, basic_parse_context.ops, basic_parse_context.good] at h
    | cons c rest =>
      simp only [at_whitespace, basic_parse_context.ops, basic_parse_context.good,
        basic_parse_context.should_skip_ws, Bool.and_eq_true] at h ⊢
      obtain ⟨_, h1⟩ := h
      by_cases hsp : is_space c = true
      · simp only [hsp, if_true, placeholders]
        exact placeholders_from_dropWhile_space (c :: rest)
      · simp [hsp] at h1
  literal := by
    intro p h
    obtain ⟨str, nid⟩ := p
    cases str with
    | nil => simp [at_literal, basic_parse_context.ops, basic_parse_context.good] at h
    | cons c rest =>
      simp only [at_literal, tested_pctx, basic_parse_context.ops, basic_parse_context.good,
        basic_parse_context.should_skip_ws, basic_parse_context.should_read_literal,
        basic_parse_context.advance, Bool.and_eq_true, Bool.not_eq_true', placeholders] at h ⊢
      obtain ⟨⟨⟨_, h1⟩, h2⟩, _⟩ := h
      by_cases hsp : is_space c = true
      · simp [hsp] at h1
      · simp only [hsp, Bool.false_eq_true, if_false] at h2 ⊢
        by_cases hc : c = '{'
        · subst hc
          by_cases hh : rest.head? = some '{'
          · cases rest with
            | nil => simp at hh
            | cons c2 r =>
              simp only [List.head?_cons, Option.some.injEq] at hh
              subst hh
              simp [placeholders_from]
          · simp [hh] at h2
        · by_cases hc2 : c = '}' ∧ rest.head? = some '}'
          · obtain ⟨hc3, hh⟩ := hc2
            subst hc3
            cases rest with
            | nil => simp at hh
            | cons c2 r =>
              simp only [List.head?_cons, Option.some.injEq] at hh
              subst hh
              simp [placeholders_from]
          · simp only [hc, hc2, if_false, List.drop_one, List.tail_cons]
            cases rest with
            | nil => simp [placeholders_from, hc]
            | cons c2 r =>
              have hc3 : ¬ (c = '}' ∧ c2 = '}') := by simpa using hc2
              simp [placeholders_from, hc, hc3]
  placeholder := by
    intro p h
    obtain ⟨rest, hs, hh, _⟩ := string_at_argument p h
    simp only [placeholders, hs, placeholders_from_open rest hh]
    omega
  dispatched := by
    intro c p id p1 arg p2 hI hat hid harg hg2 hfull hd
    obtain ⟨rest, hs, hh, ht⟩ := string_at_argument p hat
    rw [ht] at hid
    have hp1 : p1.str = rest.dropWhile (fun c => !(decide (c = '}') || decide (c = ':'))) := by
      have := congrArg (fun x => x.2.str) hid
      simp only [basic_parse_context.ops, basic_parse_context.parse_arg_id, hs, List.drop_one,
        List.tail_cons] at this
      exact this.symm
    have hp2 : p2.str = p1.str := by
      have := arg_wrapped_string_str c p1 id
      rw [harg] at this
      exact this
    obtain ⟨h1, h2⟩ := visit_arg_string_scanners_close arg c p2 hI hd
    rw [hp2, hp1, dropWhile_spec_body] at h1 h2
    have hgood : basic_parse_context.ops.good
        (basic_parse_context.ops.arg_handled (visit_arg string_scanners arg c p2).2.2) = true := by
      simp only [basic_parse_context.ops, basic_parse_context.arg_handled,
        basic_parse_context.good, h1, h2]
      rfl
    rw [if_pos hgood]
    simp only [basic_parse_context.ops, basic_parse_context.arg_handled,
      basic_parse_context.advance, placeholders, h1, hs, placeholders_from_open rest hh,
      placeholders_from_inside rest]
    omega
  keep_skip := by
    intro c h
    exact h
  keep_read := by
    intro c h
    exact h
  keep_dispatch := by
    intro a c p h
    exact visit_arg_string_scanners_no_handle a c p h

/-- C2: in every run of `visit` that returns, whatever the instance of the contexts and
the fuel, the count of the result is the number of calls of the dispatcher that
returned success: when the call number `k` (counted from 0) failed, the count is `k`
and the result is an error, and on success every call succeeded and the count is their
number.  The calls are those for the placeholders of the format, in order: whenever
`ν` counts the placeholders the format has ahead (`counts_placeholders`), the count is
at most `ν pctx`, a failed call number `k` has `k < ν pctx`, so it is the call for one
of the placeholders and `k` placeholders were scanned before it, and a run that
succeeds has the count `ν pctx`, the number of placeholders of the whole format
(there, the `expected` values of the interfaces hold an error only when it is one).
When the parse context moves forward the run does return, and the recording run and
the run itself give the same result. -/
theorem args_read_counts_successful_dispatches {Ctx PCtx Arg Range : Type}
    (P : parse_context_ops PCtx) (C : context_ops Ctx PCtx Arg Range)
    (d : Arg → Ctx → PCtx → error × Ctx × PCtx) (μ : PCtx → Nat) (ctx : Ctx) (pctx : PCtx) :
    (makes_progress P C d μ →
      ∃ r s, visit P (traced C) (traced_visit_arg d) (μ pctx + 1) (ctx, []) pctx = some (r, s) ∧
        visit P C d (μ pctx + 1) ctx pctx = some (r, erase s)) ∧
    ∀ fuel r s, visit P (traced C) (traced_visit_arg d) fuel (ctx, []) pctx = some (r, s) →
      r.value = (dispatches s.ctx.2).count true ∧
      (∀ k, (dispatches s.ctx.2)[k]? = some false → r.value = k ∧ r.err.good = false) ∧
      (r.err.good = true → dispatches s.ctx.2 = List.replicate r.value true) ∧
      ∀ (I : Ctx → Prop) (ν : PCtx → Nat), counts_placeholders P C d I ν → I ctx →
        r.value ≤ ν pctx ∧
        (∀ k, (dispatches s.ctx.2)[k]? = some false → k < ν pctx) ∧
        ((∀ c e, (C.read_char c).1 = Except.error e → e.good = false) →
          (∀ p e, (P.parse_arg_id p).1 = Except.error e → e.good = false) →
          (∀ c p id e, (arg_wrapped C c p id).1 = Except.error e → e.good = false) →
          r.err.good = true → r.value = ν pctx) := by
  constructor
  · intro hp
    obtain ⟨res, hres⟩ := visit_terminates P (traced C) (traced_visit_arg d) μ
      (traced_makes_progress P C d μ hp) (μ pctx + 1) (ctx, []) pctx (Nat.lt_succ_self _)
    have her := visit_erases P C d (μ pctx + 1) ctx [] pctx
    rw [hres] at her
    exact ⟨res.1, res.2, hres, her.symm⟩
  · intro fuel r s hres
    have hpl : ∀ (I : Ctx → Prop) (ν : PCtx → Nat), counts_placeholders P C d I ν → I ctx →
        r.value ≤ ν pctx ∧
        (∀ k, (dispatches s.ctx.2)[k]? = some false → k < ν pctx) ∧
        ((∀ c e, (C.read_char c).1 = Except.error e → e.good = false) →
          (∀ p e, (P.parse_arg_id p).1 = Except.error e → e.good = false) →
          (∀ c p id e, (arg_wrapped C c p id).1 = Except.error e → e.good = false) →
          r.err.good = true → r.value = ν pctx) :=
      fun I ν hν hI => traced_visit_placeholders P C d I ν hν fuel ctx pctx hI (r, s) hres
    rcases traced_visit_dispatches P C d fuel ctx pctx (r, s) hres with h | ⟨h, hbad⟩
    · simp only at h
      refine ⟨by rw [h]; simp, ?_, fun _ => h, hpl⟩
      intro k hk
      rw [h] at hk
      exact absurd hk (replicate_true_ne_false _ _)
    · simp only at h hbad
      refine ⟨by rw [h]; simp [List.count_append], ?_, ?_, hpl⟩
      · intro k hk
        rw [h] at hk
        exact ⟨(replicate_true_snoc_false _ _ hk).symm, hbad⟩
      · intro hg
        rw [hbad] at hg
        exact absurd hg (by simp)

/-- Witness of C2: the format "{} {}" has two placeholders.  The scan of "42 7" into
two ints returns and succeeds with the count 2, the number of placeholders.  The scan of
"42 foo" fails at the second placeholder: the calls of the dispatcher are a success and
a failure, the count is 1, and 1 is less than the number of placeholders. -/
theorem args_read_counts_witness :
    placeholders ['{', '}', ' ', '{', '}'] = 2 ∧
    (∃ r s, visit basic_parse_context.ops (traced basic_context.ops)
        (traced_visit_arg (visit_arg string_scanners))
        ((fun p : basic_parse_context => p.str.length) ⟨['{', '}', ' ', '{', '}'], 0⟩ + 1)
        (⟨range_wrapper.make ['4', '2', ' ', '7'],
          [slot.typed (slot_type.integer int_type.int) (value.int 0),
            slot.typed (slot_type.integer int_type.int) (value.int 0)]⟩, [])
        ⟨['{', '}', ' ', '{', '}'], 0⟩ = some (r, s) ∧
      visit basic_parse_context.ops basic_context.ops (visit_arg string_scanners)
        ((fun p : basic_parse_context => p.str.length) ⟨['{', '}', ' ', '{', '}'], 0⟩ + 1)
        ⟨range_wrapper.make ['4', '2', ' ', '7'],
          [slot.typed (slot_type.integer int_type.int) (value.int 0),
            slot.typed (slot_type.integer int_type.int) (value.int 0)]⟩
        ⟨['{', '}', ' ', '{', '}'], 0⟩ = some (r, erase s)) ∧
    ∃ r s r1 s1,
      visit basic_parse_context.ops (traced basic_context.ops)
        (traced_visit_arg (visit_arg string_scanners)) 6
        (⟨range_wrapper.make ['4', '2', ' ', '7'],
          [slot.typed (slot_type.integer int_type.int) (value.int 0),
            slot.typed (slot_type.integer int_type.int) (value.int 0)]⟩, [])
        ⟨['{', '}', ' ', '{', '}'], 0⟩ = some (r, s) ∧
      r.err.good = true ∧ dispatches s.ctx.2 = [true, true] ∧
      r.value = placeholders ['{', '}', ' ', '{', '}'] ∧
      visit basic_parse_context.ops (traced basic_context.ops)
        (traced_visit_arg (visit_arg string_scanners)) 6
        (⟨range_wrapper.make ['4', '2', ' ', 'f', 'o', 'o'],
          [slot.typed (slot_type.integer int_type.int) (value.int 0),
            slot.typed (slot_type.integer int_type.int) (value.int 0)]⟩, [])
        ⟨['{', '}', ' ', '{', '}'], 0⟩ = some (r1, s1) ∧
      dispatches s1.ctx.2 = [true, false] ∧
      (∀ k, (dispatches s1.ctx.2)[k]? = some false → r1.value = k ∧ r1.err.good = false) ∧
      (∀ k, (dispatches s1.ctx.2)[k]? = some false →
        k < placeholders ['{', '}', ' ', '{', '}']) ∧
      r1.value = 1 :=
  ⟨by decide,
    (args_read_counts_successful_dispatches basic_parse_context.ops basic_context.ops
      (visit_arg string_scanners) (fun p => p.str.length)
      ⟨range_wrapper.make ['4', '2', ' ', '7'],
        [slot.typed (slot_type.integer int_type.int) (value.int 0),
          slot.typed (slot_type.integer int_type.int) (value.int 0)]⟩
      ⟨['{', '}', ' ', '{', '}'], 0⟩).1 string_scan_makes_progress,
    _, _, _, _, rfl, by decide, by decide,
    (((args_read_counts_successful_dispatches basic_parse_context.ops basic_context.ops
      (visit_arg string_scanners) (fun p => p.str.length)
      ⟨range_wrapper.make ['4', '2', ' ', '7'],
        [slot.typed (slot_type.integer int_type.int) (value.int 0),
          slot.typed (slot_type.integer int_type.int) (value.int 0)]⟩
      ⟨['{', '}', ' ', '{', '}'], 0⟩).2 6 _ _ rfl).2.2.2
      basic_context.no_handle (fun p => placeholders p.str) string_scan_counts_placeholders
      rfl).2.2 string_read_char_error string_parse_arg_id_error string_lookup_error
      (by decide),
    rfl, by decide,
    ((args_read_counts_successful_dispatches basic_parse_context.ops basic_context.ops
      (visit_arg string_scanners) (fun p => p.str.length)
      ⟨range_wrapper.make ['4', '2', ' ', 'f', 'o', 'o'],
        [slot.typed (slot_type.integer int_type.int) (value.int 0),
          slot.typed (slot_type.integer int_type.int) (value.int 0)]⟩
      ⟨['{', '}', ' ', '{', '}'], 0⟩).2 6 _ _ rfl).2.1,
    (((args_read_counts_successful_dispatches basic_parse_context.ops basic_context.ops
      (visit_arg string_scanners) (fun p => p.str.length)
      ⟨range_wrapper.make ['4', '2', ' ', 'f', 'o', 'o'],
        [slot.typed (slot_type.integer int_type.int) (value.int 0),
          slot.typed (slot_type.integer int_type.int) (value.int 0)]⟩
      ⟨['{', '}', ' ', '{', '}'], 0⟩).2 6 _ _ rfl).2.2.2
      basic_context.no_handle (fun p => placeholders p.str) string_scan_counts_placeholders
      rfl).2.1,
    by decide⟩

end scn
